import Mathlib

/-!
# Wheelwriter printer firmware: shallow embedding and verified properties

The firmware (Keil C51 sources `wheelwriter.c`, `main.c`, `C51/keyboard.c`,
with the scancode tables of `SDCC/scancodes.h` and the bus monitor
`parseWWdata` of `SDCC/main.c`) is embedded as pure functions on explicit
state records.

Conventions of the embedding

* `unsigned char` values are naturals below 256, `unsigned int` values are
  naturals below 65536 (the C51 `int` is 16 bits wide); arithmetic that can
  overflow carries its explicit `% 256` or `% 65536`.
* `ww_put_data` is embedded at the level of bus words: the busy-waits on the
  transmitter and on the acknowledge pulse are assumed to finish, and the
  nine-bit word put on the bus is appended to the trace `WW.bus`.
* `putchar` and `printf` append to the console trace `Printer.console`.
* A read or write outside an array, and a division by zero, are not given a
  meaning by the source: functions that can perform one return `Except Fault`.
* Interrupt routines (`kb_isr`, `uart1_isr`) are functions of the state and of
  the hardware inputs they sample; a polling loop that waits for an interrupt
  routine takes the inputs serviced before each of its tests as a parameter.
* `fifo_run` is a reference model (a queue of capacity 8) written from the
  specification; the receive queue of `wheelwriter.c` is compared with it.
-/

namespace Wheelwriter

/-! ## Faults -/

/-- Operations to which the C source gives no defined result: reads and writes
outside an array, division by zero, and (`hang`) a busy-wait on a condition that
only an interrupt outside the embedded call could change. -/
inductive Fault where
  | oobRead (index : Int)
  | divZero
  | oobWrite (index : Int)
  | hang
  deriving DecidableEq, Repr

/-- Read of entry `i` of a table held in code memory. -/
def readCode (tbl : List Nat) (i : Int) : Except Fault Nat :=
  if 0 ≤ i ∧ i < (tbl.length : Int) then .ok (tbl.getD i.toNat 0) else .error (.oobRead i)

/-! ## wheelwriter.c -/

/-- Level of an LED pin that turns the LED on (`#define ON 0`). -/
def ON : Bool := false

/-- Level of an LED pin that turns the LED off (`#define OFF 1`). -/
def OFF : Bool := true

/-- Globals of `wheelwriter.c`: the codec variables, the serial 1 receive queue
(`rx1_head`, `rx1_tail`, `rx1_buf[BSIZE]`), the flags `tx1_ready` and
`waitingForAcknowledge`, the static `count` of `uart1_isr` (a `char`, kept as
its byte value), and the trace of words put on the Wheelwriter bus. -/
structure WW where
  uSpacesPerChar : Nat := 10
  uLinesPerLine : Nat := 16
  uSpaceCount : Nat := 0
  amberLED : Bool := OFF
  waitingForAcknowledge : Bool := false
  bus : List Nat := []
  rx1_head : Nat := 0
  rx1_tail : Nat := 0
  rx1_buf : List Nat := List.replicate 8 0
  tx1_ready : Bool := true
  count : Nat := 0
  deriving DecidableEq, Repr

/-- The nine-bit word `ww_put_data` transmits: bit 8 goes to `TB8_1`, the low
eight bits to `SBUF1`. -/
def wireWord (wwCommand : Nat) : Nat :=
  (wwCommand &&& 0x100) ||| (wwCommand &&& 0xFF)

/-- Embedding of `ww_put_data`: sends one word and leaves `waitingForAcknowledge` set. -/
def ww_put_data (wwCommand : Nat) (w : WW) : WW :=
  { w with bus := w.bus ++ [wireWord wwCommand], waitingForAcknowledge := true }

/-- Size `BSIZE` of the serial 1 receive buffer. -/
def BSIZE : Nat := 8

/-- Embedding of `uart1_isr`. `TI1` and `RI1` are the interrupt flags found set,
`SBUF1` and `RB81` the received low byte and ninth bit. The test `count%2` sees
whether the byte value of `count` is odd. -/
def uart1_isr (TI1 RI1 : Bool) (SBUF1 : Nat) (RB81 : Bool) (w : WW) : WW :=
  let w := if TI1 then { w with tx1_ready := true } else w
  if RI1 then
    let wwBusData := SBUF1
    let wwBusData := if RB81 then wwBusData ||| 0x0100 else wwBusData
    if w.waitingForAcknowledge then
      let w := { w with waitingForAcknowledge := false }
      if wwBusData ≠ 0 then
        { w with rx1_buf := w.rx1_buf.set (w.rx1_head &&& (BSIZE - 1)) wwBusData,
                 rx1_head := (w.rx1_head + 1) % 256 }
      else w
    else
      let w :=
        if wwBusData = 0x121 then { w with count := 1 }
        else { w with count := (w.count + 1) % 256 }
      if wwBusData ≠ 0 ∨ w.count % 2 ≠ 0 then
        { w with rx1_buf := w.rx1_buf.set (w.rx1_head &&& (BSIZE - 1)) wwBusData,
                 rx1_head := (w.rx1_head + 1) % 256 }
      else w
  else w

/-- Receive interrupts for a list of nine-bit words, first word first: each word
arrives as its low byte in `SBUF1` and its bit 8 in `RB81`. -/
def uart1_receive : List Nat → WW → WW
  | [], w => w
  | x :: xs, w => uart1_receive xs (uart1_isr false true (x % 256) (x / 256 % 2 = 1) w)

/-- ASCII to printwheel translation table `printwheelChar[160]`. -/
def printwheelChar : List Nat :=
  [0x00, 0x49, 0x4b, 0x38, 0x37, 0x39, 0x3f, 0x4c, 0x23, 0x16, 0x36, 0x3b, 0x0c, 0x0e, 0x57, 0x28,
   0x30, 0x2e, 0x2f, 0x2c, 0x32, 0x31, 0x33, 0x35, 0x34, 0x2a, 0x4e, 0x50, 0x00, 0x4d, 0x00, 0x4a,
   0x3d, 0x20, 0x12, 0x1b, 0x1d, 0x1e, 0x11, 0x0f, 0x14, 0x1F, 0x21, 0x2b, 0x18, 0x24, 0x1a, 0x22,
   0x15, 0x3e, 0x17, 0x19, 0x1c, 0x10, 0x0d, 0x29, 0x2d, 0x26, 0x13, 0x41, 0x00, 0x40, 0x00, 0x4f,
   0x00, 0x01, 0x59, 0x05, 0x07, 0x60, 0x0a, 0x5a, 0x08, 0x5d, 0x56, 0x0b, 0x09, 0x04, 0x02, 0x5f,
   0x5c, 0x52, 0x03, 0x06, 0x5e, 0x5b, 0x53, 0x55, 0x51, 0x58, 0x54, 0x00, 0x00, 0x00, 0x00, 0x00,
   0x00, 0x00, 0x00, 0x00, 0x00, 0x00, 0x00, 0x00, 0x00, 0x00, 0x00, 0x00, 0x00, 0x00, 0x00, 0x00,
   0x00, 0x00, 0x00, 0x00, 0x00, 0x00, 0x00, 0x00, 0x00, 0x00, 0x00, 0x00, 0x00, 0x00, 0x00, 0x00,
   0x00, 0x00, 0x3A, 0x00, 0x00, 0x00, 0x00, 0x45, 0x00, 0x00, 0x00, 0x00, 0x00, 0x00, 0x00, 0x00,
   0x44, 0x3C, 0x42, 0x43, 0x00, 0x00, 0x46, 0x00, 0x00, 0x00, 0x00, 0x00, 0x48, 0x47, 0x00, 0x00]

/-- Embedding of `ww_backspace`. -/
def ww_backspace (w : WW) : WW :=
  let w := { w with amberLED := ON }
  let w := ww_put_data 0x121 w
  let w := ww_put_data 0x006 w
  let w := ww_put_data 0x000 w
  let w := ww_put_data w.uSpacesPerChar w
  let w := { w with uSpaceCount := (w.uSpaceCount + 65536 - w.uSpacesPerChar % 65536) % 65536 }
  { w with amberLED := OFF }

/-- Embedding of `ww_micro_backspace`. -/
def ww_micro_backspace (w : WW) : WW :=
  if w.uSpaceCount ≠ 0 then
    let w := { w with amberLED := ON }
    let w := ww_put_data 0x121 w
    let w := ww_put_data 0x006 w
    let w := ww_put_data 0x000 w
    let w := ww_put_data 0x001 w
    let w := { w with amberLED := OFF }
    { w with uSpaceCount := (w.uSpaceCount + 65535) % 65536 }
  else w

/-- Embedding of `ww_carriage_return`. -/
def ww_carriage_return (w : WW) : WW :=
  let w := { w with amberLED := ON }
  let w := ww_put_data 0x121 w
  let w := ww_put_data 0x006 w
  let w := ww_put_data ((w.uSpaceCount >>> 8) &&& 0x007) w
  let w := ww_put_data (w.uSpaceCount &&& 0xFF) w
  let w := { w with uSpaceCount := 0 }
  { w with amberLED := OFF }

/-- Embedding of `ww_spin`. -/
def ww_spin (w : WW) : WW :=
  let w := { w with amberLED := ON }
  let w := ww_put_data 0x121 w
  let w := ww_put_data 0x007 w
  { w with amberLED := OFF }

/-- Embedding of `ww_horizontal_tab`; `spaces` is an `unsigned char`. -/
def ww_horizontal_tab (spaces : Nat) (w : WW) : WW :=
  let s := (spaces * w.uSpacesPerChar) % 65536
  let w := { w with amberLED := ON }
  let w := ww_put_data 0x121 w
  let w := ww_put_data 0x006 w
  let w := ww_put_data (((s >>> 8) &&& 0x007) ||| 0x80) w
  let w := ww_put_data (s &&& 0xFF) w
  let w := { w with uSpaceCount := (w.uSpaceCount + s) % 65536 }
  { w with amberLED := OFF }

/-- Embedding of `ww_erase_letter`. -/
def ww_erase_letter (letter : Nat) (w : WW) : Except Fault WW := do
  let w := { w with amberLED := ON }
  let w := ww_put_data 0x121 w
  let w := ww_put_data 0x006 w
  let w := ww_put_data 0x000 w
  let w := ww_put_data w.uSpacesPerChar w
  let w := ww_put_data 0x121 w
  let w := ww_put_data 0x004 w
  let c ← readCode printwheelChar ((letter : Int) - 0x20)
  let w := ww_put_data c w
  let w := ww_put_data w.uSpacesPerChar w
  let w := { w with uSpaceCount := (w.uSpaceCount + 65536 - w.uSpacesPerChar % 65536) % 65536 }
  pure { w with amberLED := OFF }

/-- Embedding of `ww_linefeed`. -/
def ww_linefeed (w : WW) : WW :=
  let w := { w with amberLED := ON }
  let w := ww_put_data 0x121 w
  let w := ww_put_data 0x005 w
  let w := ww_put_data (0x080 ||| w.uLinesPerLine) w
  { w with amberLED := OFF }

/-- Embedding of `ww_reverse_linefeed`. -/
def ww_reverse_linefeed (w : WW) : WW :=
  let w := { w with amberLED := ON }
  let w := ww_put_data 0x121 w
  let w := ww_put_data 0x005 w
  let w := ww_put_data (0x000 ||| w.uLinesPerLine) w
  { w with amberLED := OFF }

/-- Embedding of `ww_paper_up`. -/
def ww_paper_up (w : WW) : WW :=
  let w := { w with amberLED := ON }
  let w := ww_put_data 0x121 w
  let w := ww_put_data 0x005 w
  let w := ww_put_data (0x080 ||| (w.uLinesPerLine >>> 1)) w
  { w with amberLED := OFF }

/-- Embedding of `ww_paper_down`. -/
def ww_paper_down (w : WW) : WW :=
  let w := { w with amberLED := ON }
  let w := ww_put_data 0x121 w
  let w := ww_put_data 0x005 w
  let w := ww_put_data (0x000 ||| (w.uLinesPerLine >>> 1)) w
  { w with amberLED := OFF }

/-- Embedding of `ww_micro_up`. -/
def ww_micro_up (w : WW) : WW :=
  let w := { w with amberLED := ON }
  let w := ww_put_data 0x121 w
  let w := ww_put_data 0x005 w
  let w := ww_put_data (0x080 ||| (w.uLinesPerLine >>> 3)) w
  { w with amberLED := OFF }

/-- Embedding of `ww_micro_down`. -/
def ww_micro_down (w : WW) : WW :=
  let w := { w with amberLED := ON }
  let w := ww_put_data 0x121 w
  let w := ww_put_data 0x005 w
  let w := ww_put_data (0x000 ||| (w.uLinesPerLine >>> 3)) w
  { w with amberLED := OFF }

/-- Embedding of `ww_print_letter`. The argument of the last `ww_put_data` of
the bold path is `uSpacesPerChar - 1` converted to `unsigned int`; `attrib`
stands for the C parameter `attribute`, a reserved word here. -/
def ww_print_letter (letter attrib : Nat) (w : WW) : Except Fault WW := do
  let w := { w with amberLED := ON }
  let w := ww_put_data 0x121 w
  let w := ww_put_data 0x003 w
  let c ← readCode printwheelChar ((letter : Int) - 0x20)
  let w := ww_put_data c w
  let w :=
    if (attrib &&& 0x06 ≠ 0) ∧ (letter ≠ 0x20 ∨ attrib &&& 0x02 ≠ 0) then
      let w := ww_put_data 0x000 w
      let w := ww_put_data 0x121 w
      let w := ww_put_data 0x003 w
      ww_put_data 0x04F w
    else w
  let w :=
    if attrib &&& 0x01 ≠ 0 then
      let w := ww_put_data 0x001 w
      let w := ww_put_data 0x121 w
      let w := ww_put_data 0x003 w
      let w := ww_put_data c w
      ww_put_data ((w.uSpacesPerChar + 65535) % 65536) w
    else
      ww_put_data w.uSpacesPerChar w
  let w := { w with uSpaceCount := (w.uSpaceCount + w.uSpacesPerChar) % 65536 }
  let w := if w.uSpaceCount > 1319 then ww_carriage_return w else w
  pure { w with amberLED := OFF }

/-! ## main.c -/

/-- Modelled from the spec: `control.h` is not among the sources; `NUL` is the
ASCII control code 0x00. -/
def NUL : Nat := 0x00

/-- Modelled from the spec: `control.h` is not among the sources; `BEL` is
0x07, as in the help text of `main.c`. -/
def BEL : Nat := 0x07

/-- Modelled from the spec: `control.h` is not among the sources; `BS` is
0x08, as in the help text of `main.c`. -/
def BS : Nat := 0x08

/-- Modelled from the spec: `control.h` is not among the sources; `HT` is
0x09, as in the help text of `main.c`. -/
def HT : Nat := 0x09

/-- Modelled from the spec: `control.h` is not among the sources; `LF` is
0x0A, as in the help text of `main.c`. -/
def LF : Nat := 0x0A

/-- Modelled from the spec: `control.h` is not among the sources; `VT` is
0x0B, as in the help text of `main.c`. -/
def VT : Nat := 0x0B

/-- Modelled from the spec: `control.h` is not among the sources; `CR` is
0x0D, as in the help text of `main.c`. -/
def CR : Nat := 0x0D

/-- Modelled from the spec: `control.h` is not among the sources; `ESC` is
0x1B, as in the help text of `main.c`. -/
def ESC : Nat := 0x1B

/-- Modelled from the spec: `control.h` is not among the sources; `SP` is the
ASCII space 0x20. -/
def SP : Nat := 0x20

/-- What `putchar` and `printf` write to the serial console. The numbers read
from the clock, the watchdog counter and the ports are not part of the
embedding. -/
inductive ConsoleOut where
  | char (c : Nat)
  | banner
  | help1
  | help2
  | column (v : Nat)
  | uSpaces (v : Nat)
  | uptime
  | wdResets
  | port (n : Nat)
  deriving DecidableEq, Repr

/-- Globals of `main.c` used by `print_character`, the static `escape` of that
function, the codec state of `wheelwriter.c`, the level of the DIP switch pin
`switch1`, and the console trace. `attrib` stands for the C global
`attribute`; `systemReset` records the write `FCNTL = 0x0F`, which restarts the
processor: the restart is outside the embedding, so a state with this flag set
tells nothing of the bytes that follow. -/
structure Printer where
  ww : WW := {}
  attrib : Nat := 0
  column : Nat := 1
  tabStop : Nat := 5
  escape : Nat := 0
  switch1 : Bool := true
  errorLED : Bool := false
  redLED : Bool := OFF
  systemReset : Bool := false
  console : List ConsoleOut := []
  deriving DecidableEq, Repr

/-- Embedding of `putchar`. -/
def putchar (c : Nat) (p : Printer) : Printer :=
  { p with console := p.console ++ [.char c] }

/-- Embedding of `printf` with a fixed message. -/
def printf (m : ConsoleOut) (p : Printer) : Printer :=
  { p with console := p.console ++ [m] }

/-- Body of the loop `for(i=0; i<t; i++)` of the tab case, run `n` times. -/
def tabLoop : Nat → Printer → Printer
  | 0, p => p
  | n + 1, p => tabLoop n (putchar SP { p with column := (p.column + 1) % 256 })

/-- Ground state (`escape == 0`) of `print_character`. In the tab case `t` is a
signed `char`: a value above 127 is negative and the loop body does not run. -/
def print_character_ground (charToPrint : Nat) (p : Printer) : Except Fault Printer :=
  if charToPrint = NUL then pure p
  else if charToPrint = BEL then
    pure (putchar BEL { p with ww := ww_spin p.ww })
  else if charToPrint = BS then
    if p.column > 1 then
      let p := { p with ww := ww_backspace p.ww }
      let p := { p with column := (p.column + 255) % 256 }
      pure (putchar BS p)
    else pure p
  else if charToPrint = HT then
    if p.tabStop = 0 then throw .divZero
    else
      let t := (p.tabStop - p.column % p.tabStop) % 256
      let p := { p with ww := ww_horizontal_tab t p.ww }
      pure (tabLoop (if t < 128 then t else 0) p)
  else if charToPrint = LF then
    pure (putchar LF { p with ww := ww_linefeed p.ww })
  else if charToPrint = VT then
    pure { p with ww := ww_linefeed p.ww }
  else if charToPrint = CR then
    let p := { p with ww := ww_carriage_return p.ww }
    let p := { p with column := 1 }
    let p := { p with attrib := 0 }
    let p := if p.switch1 = false then { p with ww := ww_linefeed p.ww } else p
    pure (putchar CR p)
  else if charToPrint = ESC then
    pure { p with escape := 1 }
  else do
    let w ← ww_print_letter charToPrint p.attrib p.ww
    let p := { p with ww := w }
    let p := putchar charToPrint p
    pure { p with column := (p.column + 1) % 256 }

/-- State `escape == 1` of `print_character`: second character of an escape
sequence. Bytes without a case leave `escape` as it is. -/
def print_character_esc1 (charToPrint : Nat) (p : Printer) : Printer :=
  if charToPrint = 0x4F then { p with attrib := p.attrib ||| 0x01, escape := 0 }
  else if charToPrint = 0x26 then { p with attrib := p.attrib &&& 0x06, escape := 0 }
  else if charToPrint = 0x45 then { p with attrib := p.attrib ||| 0x02, escape := 0 }
  else if charToPrint = 0x52 then { p with attrib := p.attrib &&& 0x01, escape := 0 }
  else if charToPrint = 0x58 then { p with attrib := 0, escape := 0 }
  else if charToPrint = 0x55 then { p with ww := ww_paper_up p.ww, escape := 0 }
  else if charToPrint = 0x44 then { p with ww := ww_paper_down p.ww, escape := 0 }
  else if charToPrint = LF then { p with ww := ww_reverse_linefeed p.ww, escape := 0 }
  else if charToPrint = BS then { p with ww := ww_micro_backspace p.ww, escape := 0 }
  else if charToPrint = 0x62 then { p with attrib := p.attrib ||| 0x04, escape := 0 }
  else if charToPrint = 0x65 then
    { p with ww := { p.ww with uSpacesPerChar := 10, uLinesPerLine := 16 }, tabStop := 6, escape := 0 }
  else if charToPrint = 0x70 then
    { p with ww := { p.ww with uSpacesPerChar := 12, uLinesPerLine := 16 }, tabStop := 5, escape := 0 }
  else if charToPrint = 0x6D then
    { p with ww := { p.ww with uSpacesPerChar := 8, uLinesPerLine := 12 }, tabStop := 7, escape := 0 }
  else if charToPrint = 0x75 then { p with ww := ww_micro_up p.ww, escape := 0 }
  else if charToPrint = 0x64 then { p with ww := ww_micro_down p.ww, escape := 0 }
  else if charToPrint = 0x1A then { p with escape := 2 }
  else if charToPrint = 0x48 ∨ charToPrint = 0x68 then { printf .help1 p with escape := 6 }
  else p

/-- State `escape == 2` of `print_character`: third character, after `ESC ^Z`. -/
def print_character_esc2 (charToPrint : Nat) (p : Printer) : Printer :=
  if charToPrint = 0x61 then printf .banner p
  else if charToPrint = 0x63 then { printf (.column p.column) p with escape := 0 }
  else if charToPrint = 0x65 then { p with escape := 4 }
  else if charToPrint = 0x70 then { p with escape := 3 }
  else if charToPrint = 0x72 then { p with systemReset := true }
  else if charToPrint = 0x73 then { printf (.uSpaces p.ww.uSpaceCount) p with escape := 0 }
  else if charToPrint = 0x75 then { printf .uptime p with escape := 0 }
  else if charToPrint = 0x77 then { printf .wdResets p with escape := 0 }
  else p

/-- State `escape == 3` of `print_character`: port digit after `ESC ^Z p`. -/
def print_character_esc3 (charToPrint : Nat) (p : Printer) : Printer :=
  if charToPrint = 0x30 then { printf (.port 0) p with escape := 0 }
  else if charToPrint = 0x31 then { printf (.port 1) p with escape := 0 }
  else if charToPrint = 0x32 then { printf (.port 2) p with escape := 0 }
  else if charToPrint = 0x33 then { printf (.port 3) p with escape := 0 }
  else p

/-- State `escape == 4` of `print_character`: on/off digit after `ESC ^Z e`. -/
def print_character_esc4 (charToPrint : Nat) (p : Printer) : Printer :=
  let p :=
    if charToPrint &&& 0x01 ≠ 0 then { p with errorLED := true }
    else { p with errorLED := false, redLED := OFF }
  { p with escape := 0 }

/-- State `escape == 6` of `print_character`: the help pager. -/
def print_character_esc6 (charToPrint : Nat) (p : Printer) : Printer :=
  if charToPrint = 0x20 then { printf .help2 p with escape := 0 }
  else if charToPrint = ESC then { putchar 0x0D p with escape := 0 }
  else p

/-- Embedding of `print_character`: the outer `switch (escape)`, which has no
default case. -/
def print_character (charToPrint : Nat) (p : Printer) : Except Fault Printer :=
  if p.escape = 0 then print_character_ground charToPrint p
  else if p.escape = 1 then pure (print_character_esc1 charToPrint p)
  else if p.escape = 2 then pure (print_character_esc2 charToPrint p)
  else if p.escape = 3 then pure (print_character_esc3 charToPrint p)
  else if p.escape = 4 then pure (print_character_esc4 charToPrint p)
  else if p.escape = 6 then pure (print_character_esc6 charToPrint p)
  else pure p

/-- Feeds the bytes of a list to `print_character`, first byte first. -/
def print_string : List Nat → Printer → Except Fault Printer
  | [], p => pure p
  | c :: cs, p => do
    let p ← print_character c p
    print_string cs p

/-! ## keycodes.h, scancodes.h -/

/-- Key code `PS2_KEY_BACKSPACE` of `keycodes.h`. -/
def PS2_KEY_BACKSPACE : Nat := 0x08

/-- Key code `PS2_KEY_TAB` of `keycodes.h`. -/
def PS2_KEY_TAB : Nat := 0x09

/-- Key code `PS2_KEY_ENTER` of `keycodes.h`. -/
def PS2_KEY_ENTER : Nat := 0x0D

/-- Key code `PS2_KEY_ESCAPE` of `keycodes.h`. -/
def PS2_KEY_ESCAPE : Nat := 0x1B

/-- Key code `PS2_KEY_SPACE` of `keycodes.h`. -/
def PS2_KEY_SPACE : Nat := 0x20

/-- Key code `PS2_KEY_SCROLL` of `keycodes.h`. -/
def PS2_KEY_SCROLL : Nat := 0x80

/-- Key code `PS2_KEY_PRTSCR` of `keycodes.h`. -/
def PS2_KEY_PRTSCR : Nat := 0x81

/-- Key code `PS2_KEY_PAUSE` of `keycodes.h`. -/
def PS2_KEY_PAUSE : Nat := 0x82

/-- Key code `PS2_KEY_LT_GUI` of `keycodes.h`. -/
def PS2_KEY_LT_GUI : Nat := 0x83

/-- Key code `PS2_KEY_RT_GUI` of `keycodes.h`. -/
def PS2_KEY_RT_GUI : Nat := 0x84

/-- Key code `PS2_KEY_MENU` of `keycodes.h`. -/
def PS2_KEY_MENU : Nat := 0x85

/-- Key code `PS2_KEY_BREAK` of `keycodes.h`. -/
def PS2_KEY_BREAK : Nat := 0x86

/-- Key code `PS2_KEY_HOME` of `keycodes.h`. -/
def PS2_KEY_HOME : Nat := 0x87

/-- Key code `PS2_KEY_END` of `keycodes.h`. -/
def PS2_KEY_END : Nat := 0x88

/-- Key code `PS2_KEY_PGUP` of `keycodes.h`. -/
def PS2_KEY_PGUP : Nat := 0x89

/-- Key code `PS2_KEY_PGDN` of `keycodes.h`. -/
def PS2_KEY_PGDN : Nat := 0x8A

/-- Key code `PS2_KEY_LT_ARROW` of `keycodes.h`. -/
def PS2_KEY_LT_ARROW : Nat := 0x8B

/-- Key code `PS2_KEY_RT_ARROW` of `keycodes.h`. -/
def PS2_KEY_RT_ARROW : Nat := 0x8C

/-- Key code `PS2_KEY_UP_ARROW` of `keycodes.h`. -/
def PS2_KEY_UP_ARROW : Nat := 0x8D

/-- Key code `PS2_KEY_DN_ARROW` of `keycodes.h`. -/
def PS2_KEY_DN_ARROW : Nat := 0x8E

/-- Key code `PS2_KEY_INSERT` of `keycodes.h`. -/
def PS2_KEY_INSERT : Nat := 0x8F

/-- Key code `PS2_KEY_DELETE` of `keycodes.h`. -/
def PS2_KEY_DELETE : Nat := 0x90

/-- Key code `PS2_KEY_KP_HOME` of `keycodes.h`. -/
def PS2_KEY_KP_HOME : Nat := 0x91

/-- Key code `PS2_KEY_KP_END` of `keycodes.h`. -/
def PS2_KEY_KP_END : Nat := 0x92

/-- Key code `PS2_KEY_KP_UP_ARROW` of `keycodes.h`. -/
def PS2_KEY_KP_UP_ARROW : Nat := 0x93

/-- Key code `PS2_KEY_KP_DN_ARROW` of `keycodes.h`. -/
def PS2_KEY_KP_DN_ARROW : Nat := 0x94

/-- Key code `PS2_KEY_KP_RT_ARROW` of `keycodes.h`. -/
def PS2_KEY_KP_RT_ARROW : Nat := 0x95

/-- Key code `PS2_KEY_KP_LT_ARROW` of `keycodes.h`. -/
def PS2_KEY_KP_LT_ARROW : Nat := 0x96

/-- Key code `PS2_KEY_KP_PGUP` of `keycodes.h`. -/
def PS2_KEY_KP_PGUP : Nat := 0x97

/-- Key code `PS2_KEY_KP_PGDN` of `keycodes.h`. -/
def PS2_KEY_KP_PGDN : Nat := 0x98

/-- Key code `PS2_KEY_KP_INSERT` of `keycodes.h`. -/
def PS2_KEY_KP_INSERT : Nat := 0x99

/-- Key code `PS2_KEY_KP_DELETE` of `keycodes.h`. -/
def PS2_KEY_KP_DELETE : Nat := 0x9A

/-- Key code `PS2_KEY_KP_DIV` of `keycodes.h`. -/
def PS2_KEY_KP_DIV : Nat := 0x9B

/-- Key code `PS2_KEY_KP_MULT` of `keycodes.h`. -/
def PS2_KEY_KP_MULT : Nat := 0x9C

/-- Key code `PS2_KEY_KP_MINUS` of `keycodes.h`. -/
def PS2_KEY_KP_MINUS : Nat := 0x9D

/-- Key code `PS2_KEY_KP_PLUS` of `keycodes.h`. -/
def PS2_KEY_KP_PLUS : Nat := 0x9E

/-- Key code `PS2_KEY_KP_ENTER` of `keycodes.h`. -/
def PS2_KEY_KP_ENTER : Nat := 0x9F

/-- Key code `PS2_KEY_F1` of `keycodes.h`. -/
def PS2_KEY_F1 : Nat := 0xA0

/-- Key code `PS2_KEY_F2` of `keycodes.h`. -/
def PS2_KEY_F2 : Nat := 0xA1

/-- Key code `PS2_KEY_F3` of `keycodes.h`. -/
def PS2_KEY_F3 : Nat := 0xA2

/-- Key code `PS2_KEY_F4` of `keycodes.h`. -/
def PS2_KEY_F4 : Nat := 0xA3

/-- Key code `PS2_KEY_F5` of `keycodes.h`. -/
def PS2_KEY_F5 : Nat := 0xA4

/-- Key code `PS2_KEY_F6` of `keycodes.h`. -/
def PS2_KEY_F6 : Nat := 0xA5

/-- Key code `PS2_KEY_F7` of `keycodes.h`. -/
def PS2_KEY_F7 : Nat := 0xA6

/-- Key code `PS2_KEY_F8` of `keycodes.h`. -/
def PS2_KEY_F8 : Nat := 0xA7

/-- Key code `PS2_KEY_F9` of `keycodes.h`. -/
def PS2_KEY_F9 : Nat := 0xA8

/-- Key code `PS2_KEY_F10` of `keycodes.h`. -/
def PS2_KEY_F10 : Nat := 0xA9

/-- Key code `PS2_KEY_F11` of `keycodes.h`. -/
def PS2_KEY_F11 : Nat := 0xAA

/-- Key code `PS2_KEY_F12` of `keycodes.h`. -/
def PS2_KEY_F12 : Nat := 0xAB

/-- Scancode table `unshifted[128]`. -/
def unshifted : List Nat :=
  [0x00, 0x00, 0x00, 0x00, 0x00, 0x00, 0x00, 0x00, 0x00, 0x00, 0x00, 0x00, 0x00, 0x09, 0x60, 0x00,
   0x00, 0x00, 0x00, 0x00, 0x00, 0x71, 0x31, 0x00, 0x00, 0x00, 0x7A, 0x73, 0x61, 0x77, 0x32, 0x00,
   0x00, 0x63, 0x78, 0x64, 0x65, 0x34, 0x33, 0x00, 0x00, 0x20, 0x76, 0x66, 0x74, 0x72, 0x35, 0x00,
   0x00, 0x6E, 0x62, 0x68, 0x67, 0x79, 0x36, 0x00, 0x00, 0x00, 0x6D, 0x6A, 0x75, 0x37, 0x38, 0x00,
   0x00, 0x2C, 0x6B, 0x69, 0x6F, 0x30, 0x39, 0x00, 0x00, 0x2E, 0x2F, 0x6C, 0x3B, 0x70, 0x2D, 0x00,
   0x00, 0x00, 0x27, 0x00, 0x5B, 0x3D, 0x00, 0x00, 0x00, 0x00, 0x0D, 0x5D, 0x00, 0x5C, 0x00, 0x00,
   0x00, 0x00, 0x00, 0x00, 0x00, 0x00, 0x08, 0x00, 0x00, 0x00, 0x00, 0x00, 0x00, 0x00, 0x00, 0x00,
   0x00, 0x7F, 0x00, 0x00, 0x00, 0x00, 0x1B, 0x00, 0x00, 0x2B, 0x00, 0x2D, 0x2A, 0x00, 0x00, 0x00]

/-- Scancode table `shifted[128]`. -/
def shifted : List Nat :=
  [0x00, 0x00, 0x00, 0x00, 0x00, 0x00, 0x00, 0x00, 0x00, 0x00, 0x00, 0x00, 0x00, 0x09, 0x7E, 0x00,
   0x00, 0x00, 0x00, 0x00, 0x00, 0x51, 0x21, 0x00, 0x00, 0x00, 0x5A, 0x53, 0x41, 0x57, 0x40, 0x00,
   0x00, 0x43, 0x58, 0x44, 0x45, 0x24, 0x23, 0x00, 0x00, 0x20, 0x56, 0x46, 0x54, 0x52, 0x25, 0x00,
   0x00, 0x4E, 0x42, 0x48, 0x47, 0x59, 0x5E, 0x00, 0x00, 0x00, 0x4D, 0x4A, 0x55, 0x26, 0x2A, 0x00,
   0x00, 0x3C, 0x4B, 0x49, 0x4F, 0x29, 0x28, 0x00, 0x00, 0x3E, 0x3F, 0x4C, 0x3A, 0x50, 0x5F, 0x00,
   0x00, 0x00, 0x22, 0x00, 0x7B, 0x2B, 0x00, 0x00, 0x00, 0x00, 0x0D, 0x7D, 0x00, 0x7C, 0x00, 0x00,
   0x00, 0x00, 0x00, 0x00, 0x00, 0x00, 0x08, 0x00, 0x00, 0x00, 0x00, 0x00, 0x00, 0x00, 0x00, 0x00,
   0x00, 0x7F, 0x00, 0x00, 0x00, 0x00, 0x1B, 0x00, 0x00, 0x2B, 0x00, 0x5F, 0x2A, 0x00, 0x00, 0x00]

/-! ## keyboard.c -/

/-- Lock bit `SCROLL_LOCK`. -/
def SCROLL_LOCK : Nat := 0x01

/-- Lock bit `NUM_LOCK`. -/
def NUM_LOCK : Nat := 0x02

/-- Lock bit `CAPS_LOCK`. -/
def CAPS_LOCK : Nat := 0x04

/-- Modifier bits of `keyboard.c`, the statics `kb_state` and `kb_leds` of
`kb_decode_scancode`, and the trace of the command bytes handed to
`kb_send_cmd`. -/
structure Kb where
  kb_ctrl : Bool := false
  kb_alt : Bool := false
  kb_shift : Bool := false
  kb_state : Nat := 0
  kb_leds : Nat := 0
  sendCalls : List Nat := []
  deriving DecidableEq, Repr

/-- The statements `if (kb_send_cmd(0xED)) kb_send_cmd(kb_leds);`, where `ack`
is the result of the first call. -/
def kb_update_leds (ack : Bool) (k : Kb) : Kb :=
  let k := { k with sendCalls := k.sendCalls ++ [0xED] }
  if ack then { k with sendCalls := k.sendCalls ++ [k.kb_leds] } else k

/-- State `kb_state == 0` of `kb_decode_scancode`. -/
def kb_decode_idle (ack : Bool) (scancode : Nat) (k : Kb) : Except Fault (Nat × Kb) :=
  if scancode = 0xE0 then pure (0, { k with kb_state := 1 })
  else if scancode = 0xE1 then pure (0, { k with kb_state := 6 })
  else if scancode = 0xF0 then pure (0, { k with kb_state := 3 })
  else if scancode = 0x01 then pure (PS2_KEY_F1, k)
  else if scancode = 0x03 then pure (PS2_KEY_F5, k)
  else if scancode = 0x04 then pure (PS2_KEY_F3, k)
  else if scancode = 0x05 then pure (PS2_KEY_F1, k)
  else if scancode = 0x06 then pure (PS2_KEY_F2, k)
  else if scancode = 0x07 then pure (PS2_KEY_F12, k)
  else if scancode = 0x09 then pure (PS2_KEY_F10, k)
  else if scancode = 0x0A then pure (PS2_KEY_F8, k)
  else if scancode = 0x0B then pure (PS2_KEY_F6, k)
  else if scancode = 0x0C then pure (PS2_KEY_F4, k)
  else if scancode = 0x0D then pure (PS2_KEY_TAB, k)
  else if scancode = 0x11 then pure (0, { k with kb_alt := true })
  else if scancode = 0x12 then pure (0, { k with kb_shift := true })
  else if scancode = 0x14 then pure (0, { k with kb_ctrl := true })
  else if scancode = 0x29 then pure (PS2_KEY_SPACE, k)
  else if scancode = 0x58 then
    pure (0, kb_update_leds ack { k with kb_leds := k.kb_leds ^^^ CAPS_LOCK })
  else if scancode = 0x59 then pure (0, { k with kb_shift := true })
  else if scancode = 0x5A then pure (PS2_KEY_ENTER, k)
  else if scancode = 0x66 then pure (PS2_KEY_BACKSPACE, k)
  else if scancode = 0x69 then
    pure (if k.kb_leds &&& NUM_LOCK ≠ 0 then 0x31 else PS2_KEY_KP_END, k)
  else if scancode = 0x6B then
    pure (if k.kb_leds &&& NUM_LOCK ≠ 0 then 0x34 else PS2_KEY_KP_LT_ARROW, k)
  else if scancode = 0x6C then
    pure (if k.kb_leds &&& NUM_LOCK ≠ 0 then 0x37 else PS2_KEY_KP_HOME, k)
  else if scancode = 0x70 then
    pure (if k.kb_leds &&& NUM_LOCK ≠ 0 then 0x30 else PS2_KEY_KP_INSERT, k)
  else if scancode = 0x71 then
    pure (if k.kb_leds &&& NUM_LOCK ≠ 0 then 0x2E else PS2_KEY_KP_DELETE, k)
  else if scancode = 0x72 then
    pure (if k.kb_leds &&& NUM_LOCK ≠ 0 then 0x32 else PS2_KEY_KP_DN_ARROW, k)
  else if scancode = 0x73 then pure (0x35, k)
  else if scancode = 0x74 then
    pure (if k.kb_leds &&& NUM_LOCK ≠ 0 then 0x36 else PS2_KEY_KP_RT_ARROW, k)
  else if scancode = 0x75 then
    pure (if k.kb_leds &&& NUM_LOCK ≠ 0 then 0x38 else PS2_KEY_KP_UP_ARROW, k)
  else if scancode = 0x76 then pure (PS2_KEY_ESCAPE, k)
  else if scancode = 0x77 then
    pure (0, kb_update_leds ack { k with kb_leds := k.kb_leds ^^^ NUM_LOCK })
  else if scancode = 0x78 then pure (PS2_KEY_F11, k)
  else if scancode = 0x79 then pure (PS2_KEY_KP_PLUS, k)
  else if scancode = 0x7A then
    pure (if k.kb_leds &&& NUM_LOCK ≠ 0 then 0x33 else PS2_KEY_KP_PGDN, k)
  else if scancode = 0x7B then pure (PS2_KEY_KP_MINUS, k)
  else if scancode = 0x7C then pure (PS2_KEY_KP_MULT, k)
  else if scancode = 0x7D then
    pure (if k.kb_leds &&& NUM_LOCK ≠ 0 then 0x39 else PS2_KEY_KP_PGUP, k)
  else if scancode = 0x7E then
    pure (0, kb_update_leds ack { k with kb_leds := k.kb_leds ^^^ SCROLL_LOCK })
  else if scancode = 0x83 then pure (PS2_KEY_F7, k)
  else if k.kb_shift ∧ ¬ (k.kb_leds &&& CAPS_LOCK ≠ 0) then do
    let r ← readCode shifted scancode
    pure (r, k)
  else do
    let result ← readCode unshifted scancode
    let result :=
      if (k.kb_leds &&& CAPS_LOCK ≠ 0) ∧ ¬ k.kb_shift then
        if result > 0x60 ∧ result < 0x7B then result - 0x20 else result
      else result
    pure (result, k)

/-- State `kb_state == 1` of `kb_decode_scancode`: after 0xE0. -/
def kb_decode_ext (scancode : Nat) (k : Kb) : Nat × Kb :=
  if scancode = 0xF0 then (0, { k with kb_state := 2 })
  else if scancode = 0x11 then (0, { k with kb_alt := true, kb_state := 0 })
  else if scancode = 0x12 then (0, { k with kb_state := 4 })
  else if scancode = 0x14 then (0, { k with kb_ctrl := true, kb_state := 0 })
  else if scancode = 0x1F then (PS2_KEY_LT_GUI, { k with kb_state := 0 })
  else if scancode = 0x27 then (PS2_KEY_RT_GUI, { k with kb_state := 0 })
  else if scancode = 0x2F then (PS2_KEY_MENU, { k with kb_state := 0 })
  else if scancode = 0x4A then (PS2_KEY_KP_DIV, { k with kb_state := 0 })
  else if scancode = 0x5A then (PS2_KEY_KP_ENTER, { k with kb_state := 0 })
  else if scancode = 0x69 then (PS2_KEY_END, { k with kb_state := 0 })
  else if scancode = 0x6B then (PS2_KEY_LT_ARROW, { k with kb_state := 0 })
  else if scancode = 0x6C then (PS2_KEY_HOME, { k with kb_state := 0 })
  else if scancode = 0x70 then (PS2_KEY_INSERT, { k with kb_state := 0 })
  else if scancode = 0x71 then (PS2_KEY_DELETE, { k with kb_state := 0 })
  else if scancode = 0x72 then (PS2_KEY_DN_ARROW, { k with kb_state := 0 })
  else if scancode = 0x74 then (PS2_KEY_RT_ARROW, { k with kb_state := 0 })
  else if scancode = 0x75 then (PS2_KEY_UP_ARROW, { k with kb_state := 0 })
  else if scancode = 0x7A then (PS2_KEY_PGDN, { k with kb_state := 0 })
  else if scancode = 0x7D then (PS2_KEY_PGUP, { k with kb_state := 0 })
  else (0, { k with kb_state := 0 })

/-- State `kb_state == 2` of `kb_decode_scancode`: after 0xE0, 0xF0. -/
def kb_decode_ext_release (scancode : Nat) (k : Kb) : Nat × Kb :=
  let k :=
    if scancode = 0x11 then { k with kb_alt := false }
    else if scancode = 0x14 then { k with kb_ctrl := false }
    else k
  (0, { k with kb_state := 0 })

/-- State `kb_state == 3` of `kb_decode_scancode`: after 0xF0. -/
def kb_decode_release (scancode : Nat) (k : Kb) : Nat × Kb :=
  let k :=
    if scancode = 0x12 then { k with kb_shift := false }
    else if scancode = 0x59 then { k with kb_shift := false }
    else if scancode = 0x14 then { k with kb_ctrl := false }
    else if scancode = 0x11 then { k with kb_alt := false }
    else k
  (0, { k with kb_state := 0 })

/-- Embedding of `kb_decode_scancode`: returns the decoded character and the
new decoder state; `ack` is the result `kb_send_cmd(0xED)` has if a lock key
makes the function call it. -/
def kb_decode_scancode (ack : Bool) (scancode : Nat) (k : Kb) : Except Fault (Nat × Kb) :=
  if k.kb_state = 0 then kb_decode_idle ack scancode k
  else if k.kb_state = 1 then pure (kb_decode_ext scancode k)
  else if k.kb_state = 2 then pure (kb_decode_ext_release scancode k)
  else if k.kb_state = 3 then pure (kb_decode_release scancode k)
  else if k.kb_state = 4 then
    if scancode = 0xE0 then pure (0, { k with kb_state := 5 })
    else pure (0, { k with kb_state := 0 })
  else if k.kb_state = 5 then
    let k := { k with kb_state := 0 }
    if scancode = 0x7C then pure (PS2_KEY_PRTSCR, k) else pure (0, k)
  else if k.kb_state = 6 then
    if scancode = 0x14 then pure (0, { k with kb_state := 7 })
    else pure (0, { k with kb_state := 0 })
  else if k.kb_state = 7 then
    if scancode = 0x77 then pure (0, { k with kb_state := 8 })
    else pure (0, { k with kb_state := 0 })
  else if k.kb_state = 8 then
    if scancode = 0xE1 then pure (0, { k with kb_state := 9 })
    else pure (0, { k with kb_state := 0 })
  else if k.kb_state = 9 then
    if scancode = 0xF0 then pure (0, { k with kb_state := 10 })
    else pure (0, { k with kb_state := 0 })
  else if k.kb_state = 10 then
    if scancode = 0x14 then pure (0, { k with kb_state := 11 })
    else pure (0, { k with kb_state := 0 })
  else if k.kb_state = 11 then
    if scancode = 0xF0 then pure (0, { k with kb_state := 12 })
    else pure (0, { k with kb_state := 0 })
  else if k.kb_state = 12 then
    let k := { k with kb_state := 0 }
    if scancode = 0x77 then pure (PS2_KEY_PAUSE, k) else pure (0, k)
  else pure (0, { k with kb_state := 0 })

/-- Feeds the bytes of a list to `kb_decode_scancode`, first byte first, and
collects the returned characters in order. -/
def kb_decode_all (ack : Bool) : List Nat → Kb → Except Fault (List Nat × Kb)
  | [], k => pure ([], k)
  | c :: cs, k => do
    let (r, k) ← kb_decode_scancode ack c k
    let (rs, k) ← kb_decode_all ack cs k
    pure (r :: rs, k)

/-- Scancodes that have a `case` of their own in the idle-state switch of
`kb_decode_scancode`, in the order of the source. -/
def idleCaseLabels : List Nat :=
  [0xE0, 0xE1, 0xF0, 0x01, 0x03, 0x04, 0x05, 0x06, 0x07, 0x09, 0x0A, 0x0B, 0x0C, 0x0D, 0x11, 0x12,
   0x14, 0x29, 0x58, 0x59, 0x5A, 0x66, 0x69, 0x6B, 0x6C, 0x70, 0x71, 0x72, 0x73, 0x74, 0x75, 0x76,
   0x77, 0x78, 0x79, 0x7A, 0x7B, 0x7C, 0x7D, 0x7E, 0x83]


/-! ## keyboard.c: receiver and command sender -/

/-- Write of entry `i` of an array in data memory. -/
def writeXdata (buf : List Nat) (i : Nat) (v : Nat) : Except Fault (List Nat) :=
  if i < buf.length then .ok (buf.set i v) else .error (.oobWrite i)

/-- Read of entry `i` of an array in data memory. -/
def readXdata (buf : List Nat) (i : Nat) : Except Fault Nat :=
  if i < buf.length then .ok (buf.getD i 0) else .error (.oobRead i)

/-- Receiver variables of `keyboard.c` (`kb_bitcount`, `kb_out`, `kb_in`,
`kb_buf[16]`), the statics `kb_parity` and `recdbits` of `kb_isr`, and the traces
of the levels written to the pins `kb_clock_out` and `kb_data_out`. -/
structure KbLink where
  kb_bitcount : Nat := 0
  kb_out : Nat := 0
  kb_in : Nat := 0
  kb_buf : List Nat := List.replicate 16 0
  kb_parity : Bool := false
  recdbits : Nat := 0
  clockOut : List Bool := []
  dataOut : List Bool := []
  deriving DecidableEq, Repr

/-- Embedding of `kb_isr`, run on a falling clock edge; `kb_data_in` is the level
of the data line. The switch has no default case. -/
def kb_isr (kb_data_in : Bool) (s : KbLink) : Except Fault KbLink :=
  if s.kb_bitcount = 0 then
    if ¬ kb_data_in then pure { s with kb_bitcount := (s.kb_bitcount + 1) % 256 }
    else pure s
  else if 1 ≤ s.kb_bitcount ∧ s.kb_bitcount ≤ 8 then
    let s := { s with recdbits := s.recdbits >>> 1 }
    let s :=
      if kb_data_in then { s with recdbits := s.recdbits ||| 0x80, kb_parity := !s.kb_parity }
      else s
    pure { s with kb_bitcount := (s.kb_bitcount + 1) % 256 }
  else if s.kb_bitcount = 9 then
    let s := if kb_data_in then { s with kb_parity := !s.kb_parity } else s
    pure { s with kb_bitcount := (s.kb_bitcount + 1) % 256 }
  else if s.kb_bitcount = 10 then do
    let s ←
      if kb_data_in ∧ s.kb_parity then do
        let buf ← writeXdata s.kb_buf s.kb_in s.recdbits
        pure { s with kb_buf := buf, kb_in := ((s.kb_in + 1) % 256) &&& 0x0F }
      else pure s
    pure { s with kb_bitcount := 0, recdbits := 0, kb_parity := false }
  else pure s

/-- Runs `kb_isr` once for each sample of a list, first sample first. -/
def kb_isr_run : List Bool → KbLink → Except Fault KbLink
  | [], s => pure s
  | d :: ds, s => do
    let s ← kb_isr d s
    kb_isr_run ds s

/-- Embedding of `kb_scancode_avail`. -/
def kb_scancode_avail (s : KbLink) : Bool :=
  s.kb_in ≠ s.kb_out

/-- Embedding of `kb_get_scancode`. With an empty queue the function waits for
an interrupt, which is no part of the call. -/
def kb_get_scancode (s : KbLink) : Except Fault (Nat × KbLink) :=
  if s.kb_in = s.kb_out then throw .hang
  else do
    let buf ← readXdata s.kb_buf s.kb_out
    pure (buf, { s with kb_out := ((s.kb_out + 1) % 256) &&& 0x0F })

/-- The loop `for (k = 0; k < 8; k++)` of `kb_send_cmd`, with `n` passes left:
puts the low bit of `kbcmd` on the data line, complements `paritybit` for a 1,
shifts `kbcmd` right. The keyboard is taken to clock every bit. -/
def kb_send_bits : Nat → Nat → Bool → KbLink → Nat × Bool × KbLink
  | 0, kbcmd, paritybit, s => (kbcmd, paritybit, s)
  | n + 1, kbcmd, paritybit, s =>
    if kbcmd &&& 0x01 ≠ 0 then
      kb_send_bits n (kbcmd >>> 1) (!paritybit) { s with dataOut := s.dataOut ++ [true] }
    else
      kb_send_bits n (kbcmd >>> 1) paritybit { s with dataOut := s.dataOut ++ [false] }

/-- First part of `kb_send_cmd`, up to the wait for the reply: the request to
send, the eight data bits, the parity bit and the stop bit. `respond` tells
whether the keyboard pulls the clock low before the 16-bit counter of the first
wait wraps; the flag returned is `false` at that timeout. The later waits on the
clock and data lines are taken to end, and no clock edge of this part is taken
to be serviced by `kb_isr`. -/
def kb_send_frame (kbcmd : Nat) (respond : Bool) (s : KbLink) : Bool × KbLink :=
  let s := { s with clockOut := s.clockOut ++ [false] }
  let s := { s with dataOut := s.dataOut ++ [false] }
  let s := { s with clockOut := s.clockOut ++ [true] }
  if ¬ respond then (false, s)
  else
    let (_, paritybit, s) := kb_send_bits 8 kbcmd true s
    let s := { s with dataOut := s.dataOut ++ [paritybit] }
    (true, { s with dataOut := s.dataOut ++ [true] })

/-- The loop `while(++k && (kb_in == kb_out));` of `kb_send_cmd`, entered with
counter value `k`; `env i` lists the data-line samples of the clock edges that
`kb_isr` services before the queue test of the pass in which `k` becomes `i`.
Returns the final `k`. At most 65536 passes are made. -/
def kb_wait_reply (env : Nat → List Bool) : Nat → Nat → KbLink → Except Fault (Nat × KbLink)
  | 0, k, s => pure (k, s)
  | fuel + 1, k, s =>
    if (k + 1) % 65536 = 0 then pure (0, s)
    else do
      let s ← kb_isr_run (env ((k + 1) % 65536)) s
      if s.kb_in = s.kb_out then kb_wait_reply env fuel ((k + 1) % 65536) s
      else pure ((k + 1) % 65536, s)

/-- Embedding of `kb_send_cmd`: returns 1 (TRUE) for an acknowledge, else 0.
The first loop `while (kb_bitcount);` waits for the receiver to finish a frame,
which no input of the call provides. -/
def kb_send_cmd (kbcmd : Nat) (respond : Bool) (env : Nat → List Bool) (s : KbLink) :
    Except Fault (Nat × KbLink) :=
  if s.kb_bitcount ≠ 0 then throw .hang
  else
    let (clocked, s) := kb_send_frame kbcmd respond s
    if ¬ clocked then pure (0, s)
    else do
      let (k, s) ← kb_wait_reply env 65536 0 s
      if k = 0 then pure (0, s)
      else do
        let (c, s) ← kb_get_scancode s
        pure (if c = 0xFA then 1 else 0, s)

/-- The eight bits of a byte, least significant first (`n` bits of `b`). -/
def bitsLSB : Nat → Nat → List Bool
  | 0, _ => []
  | n + 1, b => (b % 2 = 1) :: bitsLSB n (b / 2)

/-- State of the receiver after the edges of the passes 1 to `n` of the reply
loop have been serviced. -/
def kb_env_run (env : Nat → List Bool) : Nat → KbLink → Except Fault KbLink
  | 0, s => pure s
  | n + 1, s => do
    let s ← kb_env_run env n s
    kb_isr_run (env (n + 1)) s

/-! ## wheelwriter.c: reading the receive queue -/

/-- Embedding of `ww_data_avail`. -/
def ww_data_avail (w : WW) : Bool :=
  w.rx1_head ≠ w.rx1_tail

/-- Embedding of `ww_get_data`. With an empty queue the function waits for an
interrupt, which is no part of the call. -/
def ww_get_data (w : WW) : Except Fault (Nat × WW) :=
  if w.rx1_head = w.rx1_tail then throw .hang
  else do
    let buf ← readXdata w.rx1_buf (w.rx1_tail &&& 0x07)
    pure (buf, { w with rx1_tail := (w.rx1_tail + 1) % 256 })

/-- An event at the serial 1 receive queue: a word arrives and `uart1_isr` runs,
or the main program calls `ww_get_data`. -/
inductive RxEvent where
  | arrive (x : Nat)
  | get
  deriving DecidableEq, Repr

/-- Runs a list of events, first event first, and collects the words returned
by the calls of `ww_get_data`. -/
def rx_run : List RxEvent → WW → Except Fault (List Nat × WW)
  | [], w => pure ([], w)
  | .arrive x :: es, w => rx_run es (uart1_receive [x] w)
  | .get :: es, w => do
    let (y, w) ← ww_get_data w
    let (ys, w) ← rx_run es w
    pure (y :: ys, w)

/-- The unread words of the receive queue, oldest first: the entries of
`rx1_buf` from index `rx1_tail` up to `rx1_head`, indices taken modulo 8 and
their distance modulo 256. -/
def rx_unread (w : WW) : List Nat :=
  (List.range ((w.rx1_head + 256 - w.rx1_tail) % 256)).map
    (fun i => w.rx1_buf.getD ((w.rx1_tail + i) % 8) 0)

/-- Reference model, from the words of the specification: a first-in first-out
queue of capacity 8. An arriving word is appended at the back, a read takes the
word at the front; the run is undefined (`none`) if a word arrives while 8 are
unread or a read finds the queue empty. Returns the words read and the words
left. -/
def fifo_run : List RxEvent → List Nat → Option (List Nat × List Nat)
  | [], q => some ([], q)
  | .arrive x :: es, q => if q.length < 8 then fifo_run es (q ++ [x]) else none
  | .get :: es, q =>
    match q with
    | [] => none
    | y :: q => (fifo_run es q).map (fun r => (y :: r.1, r.2))

/-! ## keyboard.c: modifier queries -/

/-- Embedding of `kb_ctrl_pressed`. -/
def kb_ctrl_pressed (k : Kb) : Bool :=
  k.kb_ctrl

/-- Embedding of `kb_alt_pressed`. -/
def kb_alt_pressed (k : Kb) : Bool :=
  k.kb_alt

/-- Embedding of `kb_shift_pressed`. -/
def kb_shift_pressed (k : Kb) : Bool :=
  k.kb_shift

/-! ## main.c: handle_key -/

/-- Globals used by `handle_key`: those of `print_character`, the flag
`centered`, and the statics `keybuffer[64]` and `keybufptr` of `handle_key`. -/
structure Editor where
  printer : Printer := {}
  centered : Bool := false
  keybuffer : List Nat := List.replicate 64 0
  keybufptr : Nat := 0
  deriving DecidableEq, Repr

/-- The statement `keybuffer[keybufptr++ &0x3F] = c;`. -/
def keybuffer_put (c : Nat) (e : Editor) : Except Fault Editor := do
  let buf ← writeXdata e.keybuffer (e.keybufptr &&& 0x3F) c
  pure { e with keybuffer := buf, keybufptr := (e.keybufptr + 1) % 256 }

/-- A call `print_character(c)` made by `handle_key`. -/
def editor_print (c : Nat) (e : Editor) : Except Fault Editor := do
  let p ← print_character c e.printer
  pure { e with printer := p }

/-- Body of the loop `for(i=0; i<t; i++)` of the Tab key, run `n` times. -/
def keyTabLoop : Nat → Editor → Except Fault Editor
  | 0, e => pure e
  | n + 1, e => do
    let p := putchar SP { e.printer with column := (e.printer.column + 1) % 256 }
    let e ← keybuffer_put SP { e with printer := p }
    keyTabLoop n e

/-- The branch of `handle_key` taken while the control key is pressed; the
switch has no default case. -/
def handle_key_ctrl (key : Nat) (e : Editor) : Except Fault Editor :=
  let p := e.printer
  if key = 0x62 ∨ key = 0x42 then
    pure { e with printer := { p with ww := ww_spin p.ww, attrib := p.attrib ^^^ 0x01 } }
  else if key = 0x63 ∨ key = 0x43 then
    pure { e with printer := { p with ww := ww_spin p.ww }, centered := !e.centered }
  else if key = 0x69 ∨ key = 0x49 then
    pure { e with printer := { p with ww := ww_spin p.ww, attrib := p.attrib ^^^ 0x04 } }
  else if key = 0x75 ∨ key = 0x55 then
    pure { e with printer := { p with ww := ww_spin p.ww, attrib := p.attrib ^^^ 0x02 } }
  else if key = 0x7A ∨ key = 0x5A then editor_print 0x1A e
  else if key = PS2_KEY_KP_UP_ARROW ∨ key = PS2_KEY_UP_ARROW then
    pure { e with printer := { p with ww := ww_micro_up p.ww } }
  else if key = PS2_KEY_KP_DN_ARROW ∨ key = PS2_KEY_DN_ARROW then
    pure { e with printer := { p with ww := ww_micro_down p.ww } }
  else pure e

/-- The branch of `handle_key` taken with neither the control nor the alt key
pressed: the switch on the special keys, and the printable keys of its default
case. -/
def handle_key_plain (key : Nat) (e : Editor) : Except Fault Editor :=
  if key = PS2_KEY_KP_DELETE ∨ key = PS2_KEY_DELETE then
    if e.keybufptr ≠ 0 then do
      let e := { e with keybufptr := (e.keybufptr + 255) % 256 }
      let letter ← readXdata e.keybuffer e.keybufptr
      let w ← ww_erase_letter letter e.printer.ww
      let p := { e.printer with ww := w }
      let p := { p with column := (p.column + 255) % 256 }
      let p := putchar BS p
      let p := putchar SP p
      let p := putchar BS p
      pure { e with printer := p }
    else pure e
  else if key = PS2_KEY_TAB then
    if e.printer.tabStop = 0 then throw .divZero
    else
      let t := (e.printer.tabStop - e.printer.column % e.printer.tabStop) % 256
      let e := { e with printer := { e.printer with ww := ww_horizontal_tab t e.printer.ww } }
      keyTabLoop t e
  else if key = PS2_KEY_BACKSPACE then
    if e.keybufptr ≠ 0 then do
      let e ← editor_print BS e
      pure { e with keybufptr := (e.keybufptr + 255) % 256 }
    else pure e
  else if key = PS2_KEY_KP_ENTER ∨ key = PS2_KEY_ENTER then do
    let e ← editor_print CR e
    let e ← editor_print LF e
    pure { e with keybufptr := 0 }
  else if key = PS2_KEY_KP_LT_ARROW ∨ key = PS2_KEY_LT_ARROW then
    if e.keybufptr ≠ 0 then do
      let e ← editor_print BS e
      pure { e with keybufptr := (e.keybufptr + 255) % 256 }
    else pure e
  else if key = PS2_KEY_RT_ARROW ∨ key = PS2_KEY_KP_RT_ARROW then do
    let e ← editor_print SP e
    keybuffer_put SP e
  else if key = PS2_KEY_KP_UP_ARROW ∨ key = PS2_KEY_UP_ARROW then do
    let e ← editor_print LF e
    pure { e with keybufptr := 0 }
  else if key = PS2_KEY_KP_DN_ARROW ∨ key = PS2_KEY_DN_ARROW then do
    let e ← editor_print ESC e
    let e ← editor_print LF e
    pure { e with keybufptr := 0 }
  else if key = PS2_KEY_ESCAPE then editor_print ESC e
  else if key = PS2_KEY_KP_DIV then do
    let e ← keybuffer_put 0x2F e
    editor_print 0x2F e
  else if key = PS2_KEY_KP_MULT then do
    let e ← keybuffer_put 0x2A e
    editor_print 0x2A e
  else if key = PS2_KEY_KP_MINUS then do
    let e ← keybuffer_put 0x2D e
    editor_print 0x2D e
  else if key = PS2_KEY_KP_PLUS then do
    let e ← keybuffer_put 0x2B e
    editor_print 0x2B e
  else if key > 0x1F ∧ key < 0x7F then do
    let e ← keybuffer_put key e
    editor_print key e
  else pure e

/-- Embedding of `handle_key`; `k` holds the modifier latches the function
queries with `kb_ctrl_pressed` and `kb_alt_pressed`. -/
def handle_key (k : Kb) (key : Nat) (e : Editor) : Except Fault Editor :=
  if kb_ctrl_pressed k then handle_key_ctrl key e
  else if kb_alt_pressed k then pure e
  else handle_key_plain key e

/-- Passes the keys of a list to `handle_key`, first key first, with the
modifier latches unchanged in between. -/
def handle_keys (k : Kb) : List Nat → Editor → Except Fault Editor
  | [], e => pure e
  | key :: keys, e => do
    let e ← handle_key k key e
    handle_keys k keys e

/-! ## SDCC/main.c: bus monitor -/

/-- Table `printwheel2ASCII[96]` of `SDCC/main.c`; the entries are kept as byte
values (the table has type `const char`). -/
def printwheel2ASCII : List Nat :=
  [0x61, 0x6E, 0x72, 0x6D, 0x63, 0x73, 0x64, 0x68, 0x6C, 0x66, 0x6B, 0x2C, 0x56, 0x2D, 0x47, 0x55,
   0x46, 0x42, 0x5A, 0x48, 0x50, 0x29, 0x52, 0x4C, 0x53, 0x4E, 0x43, 0x54, 0x44, 0x45, 0x49, 0x41,
   0x4A, 0x4F, 0x28, 0x4D, 0x2E, 0x59, 0x2C, 0x2F, 0x57, 0x39, 0x4B, 0x33, 0x58, 0x31, 0x32, 0x30,
   0x35, 0x34, 0x36, 0x38, 0x37, 0x2A, 0x24, 0x23, 0x25, 0xA2, 0x2B, 0xB1, 0x40, 0x51, 0x26, 0x5D,
   0x5B, 0xB3, 0xB2, 0xBA, 0xA7, 0xB6, 0xBD, 0xBC, 0x21, 0x3F, 0x22, 0x60, 0x3D, 0x3A, 0x5F, 0x3B,
   0x78, 0x71, 0x76, 0x7A, 0x77, 0x6A, 0x2E, 0x79, 0x62, 0x67, 0x75, 0x70, 0x69, 0x74, 0x6F, 0x65]

/-- The static `state` of `parseWWdata` and the bytes it has written with
`putchar`. -/
structure Monitor where
  state : Nat := 0
  echo : List Nat := []
  deriving DecidableEq, Repr

/-- Embedding of `parseWWdata` of `SDCC/main.c`; `uSpacesPerChar` and
`uLinesPerLine` are the globals the function compares with. The outer switch has
no default case. -/
def parseWWdata (uSpacesPerChar uLinesPerLine : Nat) (WWdata : Nat) (m : Monitor) :
    Except Fault Monitor :=
  if m.state = 0 then
    if WWdata = 0x121 then pure { m with state := 1 } else pure m
  else if m.state = 1 then
    if WWdata = 0x003 then pure { m with state := 2 }
    else if WWdata = 0x004 then pure { m with echo := m.echo ++ [0x20, 0x08], state := 0 }
    else if WWdata = 0x005 then pure { m with state := 6 }
    else if WWdata = 0x006 then pure { m with state := 3 }
    else pure { m with state := 0 }
  else if m.state = 2 then
    if WWdata ≠ 0 then do
      let c ← readCode printwheel2ASCII ((WWdata : Int) - 1)
      pure { m with echo := m.echo ++ [c], state := 0 }
    else pure { m with echo := m.echo ++ [SP], state := 0 }
  else if m.state = 3 then
    if WWdata &&& 0x080 ≠ 0 then pure { m with state := 4 } else pure { m with state := 5 }
  else if m.state = 4 then
    let m := { m with state := 0 }
    if WWdata > uSpacesPerChar then pure { m with echo := m.echo ++ [0x09] }
    else pure { m with echo := m.echo ++ [0x20] }
  else if m.state = 5 then
    let m := if WWdata = uSpacesPerChar then { m with echo := m.echo ++ [0x08] } else m
    pure { m with state := 0 }
  else if m.state = 6 then
    let m := if WWdata &&& 0x1F = uLinesPerLine then { m with echo := m.echo ++ [0x0D] } else m
    pure { m with state := 0 }
  else pure m

/-- Passes the words of a list to `parseWWdata`, first word first. -/
def parseWWwords (uSpacesPerChar uLinesPerLine : Nat) : List Nat → Monitor → Except Fault Monitor
  | [], m => pure m
  | x :: xs, m => do
    let m ← parseWWdata uSpacesPerChar uLinesPerLine x m
    parseWWwords uSpacesPerChar uLinesPerLine xs m

/-! ## Observers on the bus trace -/

/-- Number of commands `0x121, cmd` in a list of bus words: the places where
the attention word 0x121 is directly followed by the word `cmd`. -/
def countCmd (cmd : Nat) : List Nat → Nat
  | a :: b :: rest => (if a = 0x121 ∧ b = cmd then 1 else 0) + countCmd cmd (b :: rest)
  | _ => 0

/-! ## Helper lemmas -/

theorem wireWord_of_lt (x : Nat) (h : x < 512) : wireWord x = x := by
  unfold wireWord
  interval_cases x <;> rfl

set_option maxRecDepth 100000 in
theorem printwheelChar_lt : ∀ x ∈ printwheelChar, x < 128 := by decide

theorem printwheelChar_getD_lt (i : Nat) : printwheelChar.getD i 0 < 128 := by
  by_cases h : i < printwheelChar.length
  · rw [List.getD_eq_getElem _ _ h]
    exact printwheelChar_lt _ (List.getElem_mem h)
  · rw [List.getD_eq_default _ _ (by omega)]
    decide

theorem readCode_printwheelChar (letter : Nat) (h1 : 0x20 ≤ letter) (h2 : letter ≤ 0xBF) :
    readCode printwheelChar ((letter : Int) - 0x20) = .ok (printwheelChar.getD (letter - 0x20) 0) := by
  have hlen : printwheelChar.length = 160 := rfl
  unfold readCode
  rw [if_pos (by rw [hlen]; omega)]
  congr 2
  omega


theorem wire_and7 (x : Nat) : wireWord (x &&& 0x007) = x &&& 0x007 :=
  wireWord_of_lt _ (lt_of_le_of_lt Nat.and_le_right (by decide))

theorem wire_andFF (x : Nat) : wireWord (x &&& 0xFF) = x &&& 0xFF :=
  wireWord_of_lt _ (lt_of_le_of_lt Nat.and_le_right (by decide))

theorem wire_getD (i : Nat) : wireWord (printwheelChar.getD i 0) = printwheelChar.getD i 0 :=
  wireWord_of_lt _ (lt_trans (printwheelChar_getD_lt i) (by decide))


@[simp]
theorem ww_put_data_bus (x : Nat) (w : WW) :
    (ww_put_data x w).bus = w.bus ++ [wireWord x] := rfl

@[simp]
theorem ww_put_data_uSpaceCount (x : Nat) (w : WW) :
    (ww_put_data x w).uSpaceCount = w.uSpaceCount := rfl

@[simp]
theorem ww_put_data_uSpacesPerChar (x : Nat) (w : WW) :
    (ww_put_data x w).uSpacesPerChar = w.uSpacesPerChar := rfl

@[simp]
theorem ww_put_data_uLinesPerLine (x : Nat) (w : WW) :
    (ww_put_data x w).uLinesPerLine = w.uLinesPerLine := rfl

theorem ww_carriage_return_bus (w : WW) :
    (ww_carriage_return w).bus
      = w.bus ++ [0x121, 0x006, (w.uSpaceCount >>> 8) &&& 0x007, w.uSpaceCount &&& 0xFF] := by
  simp [ww_carriage_return, wire_and7, wire_andFF, wireWord_of_lt]

@[simp]
theorem ww_carriage_return_uSpaceCount (w : WW) :
    (ww_carriage_return w).uSpaceCount = 0 := rfl

@[simp]
theorem ww_carriage_return_uSpacesPerChar (w : WW) :
    (ww_carriage_return w).uSpacesPerChar = w.uSpacesPerChar := rfl

@[simp]
theorem ww_carriage_return_uLinesPerLine (w : WW) :
    (ww_carriage_return w).uLinesPerLine = w.uLinesPerLine := rfl

theorem ww_print_letter_aux (cU cB : Prop) [Decidable cU] [Decidable cB] (c : Nat) (w : WW) :
    ∃ w',
      (let w := { w with amberLED := ON }
       let w := ww_put_data 0x121 w
       let w := ww_put_data 0x003 w
       let w := ww_put_data c w
       let w :=
         if cU then
           let w := ww_put_data 0x000 w
           let w := ww_put_data 0x121 w
           let w := ww_put_data 0x003 w
           ww_put_data 0x04F w
         else w
       let w :=
         if cB then
           let w := ww_put_data 0x001 w
           let w := ww_put_data 0x121 w
           let w := ww_put_data 0x003 w
           let w := ww_put_data c w
           ww_put_data ((w.uSpacesPerChar + 65535) % 65536) w
         else
           ww_put_data w.uSpacesPerChar w
       let w := { w with uSpaceCount := (w.uSpaceCount + w.uSpacesPerChar) % 65536 }
       let w := if w.uSpaceCount > 1319 then ww_carriage_return w else w
       ({ w with amberLED := OFF } : WW)) = w' ∧
      w'.bus = w.bus
        ++ [wireWord 0x121, wireWord 0x003, wireWord c]
        ++ (if cU then [wireWord 0x000, wireWord 0x121, wireWord 0x003, wireWord 0x04F] else [])
        ++ (if cB
              then [wireWord 0x001, wireWord 0x121, wireWord 0x003, wireWord c,
                    wireWord ((w.uSpacesPerChar + 65535) % 65536)]
              else [wireWord w.uSpacesPerChar])
        ++ (if (w.uSpaceCount + w.uSpacesPerChar) % 65536 > 1319
              then [0x121, 0x006, (((w.uSpaceCount + w.uSpacesPerChar) % 65536) >>> 8) &&& 0x007,
                    ((w.uSpaceCount + w.uSpacesPerChar) % 65536) &&& 0xFF]
              else []) ∧
      w'.uSpaceCount = (if (w.uSpaceCount + w.uSpacesPerChar) % 65536 > 1319 then 0
                        else (w.uSpaceCount + w.uSpacesPerChar) % 65536) ∧
      w'.uSpacesPerChar = w.uSpacesPerChar ∧ w'.uLinesPerLine = w.uLinesPerLine := by
  refine ⟨_, rfl, ?_⟩
  by_cases hU : cU <;> by_cases hB : cB <;>
  by_cases hW : (w.uSpaceCount + w.uSpacesPerChar) % 65536 > 1319 <;>
  simp [hU, hB, hW, ww_carriage_return_bus]


theorem ww_print_letter_spec (letter attrib : Nat) (w : WW)
    (h1 : 0x20 ≤ letter) (h2 : letter ≤ 0xBF) :
    ∃ w', ww_print_letter letter attrib w = .ok w' ∧
      w'.bus = w.bus
        ++ [0x121, 0x003, printwheelChar.getD (letter - 0x20) 0]
        ++ (if (attrib &&& 0x06 ≠ 0) ∧ (letter ≠ 0x20 ∨ attrib &&& 0x02 ≠ 0)
              then [0x000, 0x121, 0x003, 0x04F] else [])
        ++ (if attrib &&& 0x01 ≠ 0
              then [0x001, 0x121, 0x003, printwheelChar.getD (letter - 0x20) 0,
                    wireWord ((w.uSpacesPerChar + 65535) % 65536)]
              else [wireWord w.uSpacesPerChar])
        ++ (if (w.uSpaceCount + w.uSpacesPerChar) % 65536 > 1319
              then [0x121, 0x006, (((w.uSpaceCount + w.uSpacesPerChar) % 65536) >>> 8) &&& 0x007,
                    ((w.uSpaceCount + w.uSpacesPerChar) % 65536) &&& 0xFF]
              else []) ∧
      w'.uSpaceCount = (if (w.uSpaceCount + w.uSpacesPerChar) % 65536 > 1319 then 0
                        else (w.uSpaceCount + w.uSpacesPerChar) % 65536) ∧
      w'.uSpacesPerChar = w.uSpacesPerChar ∧ w'.uLinesPerLine = w.uLinesPerLine := by
  obtain ⟨w', hw, hbus, hrest⟩ := ww_print_letter_aux
    ((attrib &&& 0x06 ≠ 0) ∧ (letter ≠ 0x20 ∨ attrib &&& 0x02 ≠ 0)) (attrib &&& 0x01 ≠ 0)
    (printwheelChar.getD (letter - 0x20) 0) w
  refine ⟨w', ?_, ?_, hrest⟩
  · unfold ww_print_letter
    rw [readCode_printwheelChar letter h1 h2]
    exact congrArg Except.ok hw
  · rw [hbus, wire_getD, show wireWord 0x121 = 0x121 from rfl, show wireWord 0x003 = 0x003 from rfl,
      show wireWord 0x000 = 0x000 from rfl, show wireWord 0x001 = 0x001 from rfl,
      show wireWord 0x04F = 0x04F from rfl]



theorem and_six_of_and_seven (a : Nat) (h : a &&& 0x07 = 0) : a &&& 0x06 = 0 := by
  rw [show (0x06 : Nat) = 0x07 &&& 0x06 from rfl, ← Nat.land_assoc, h, Nat.zero_and]

theorem and_one_of_and_seven (a : Nat) (h : a &&& 0x07 = 0) : a &&& 0x01 = 0 := by
  rw [show (0x01 : Nat) = 0x07 &&& 0x01 from rfl, ← Nat.land_assoc, h, Nat.zero_and]


theorem print_character_ground_letter (c : Nat) (p : Printer) (w' : WW) (hc : 0x20 ≤ c)
    (hw : ww_print_letter c p.attrib p.ww = .ok w') :
    ∃ p', print_character_ground c p = .ok p' ∧ p'.ww = w' ∧ p'.attrib = p.attrib ∧
      p'.column = (p.column + 1) % 256 ∧ p'.escape = p.escape ∧ p'.tabStop = p.tabStop ∧
      p'.switch1 = p.switch1 ∧ p'.console = p.console ++ [.char c] := by
  unfold print_character_ground
  rw [if_neg (by unfold NUL; omega), if_neg (by unfold BEL; omega), if_neg (by unfold BS; omega),
    if_neg (by unfold HT; omega), if_neg (by unfold LF; omega), if_neg (by unfold VT; omega),
    if_neg (by unfold CR; omega), if_neg (by unfold ESC; omega), hw]
  exact ⟨_, rfl, rfl, rfl, rfl, rfl, rfl, rfl, rfl⟩

theorem print_character_ESC (p : Printer) (hg : p.escape = 0) :
    print_character ESC p = .ok { p with escape := 1 } := by
  unfold print_character
  rw [if_pos hg]
  unfold print_character_ground
  rw [if_neg (by decide), if_neg (by decide), if_neg (by decide), if_neg (by decide),
    if_neg (by decide), if_neg (by decide), if_neg (by decide), if_pos rfl]
  rfl

theorem print_character_ESC_O (p : Printer) (he : p.escape = 1) :
    print_character 0x4F p = .ok { p with attrib := p.attrib ||| 0x01, escape := 0 } := by
  unfold print_character
  rw [if_neg (by omega), if_pos he]
  unfold print_character_esc1
  rw [if_pos rfl]
  rfl


theorem wireWord_pred (n : Nat) (hn : n < 256) :
    wireWord ((n + 65535) % 65536) = (n + 511) % 512 := by
  rcases Nat.eq_zero_or_pos n with h | h
  · subst h
    rfl
  · rw [show (n + 65535) % 65536 = n - 1 by omega, show (n + 511) % 512 = n - 1 by omega]
    exact wireWord_of_lt _ (by omega)

theorem countCmd_own (W x : Nat) (cU cB : Prop) [Decidable cU] [Decidable cB] (tail : List Nat)
    (hW : W ≠ 0x121) :
    countCmd 0x006 ([0x121, 0x003, W] ++ (if cU then [0x000, 0x121, 0x003, 0x04F] else [])
      ++ (if cB then [0x001, 0x121, 0x003, W, x] else [x]) ++ tail)
      = countCmd 0x006 (x :: tail) := by
  by_cases hU : cU <;> by_cases hB : cB <;> simp [hU, hB, countCmd, hW]


set_option maxRecDepth 1000000 in
theorem printwheelChar_indexOf :
    ∀ i, i < 160 → printwheelChar.getD i 0 ≠ 0 →
      printwheelChar.indexOf (printwheelChar.getD i 0) = i := by
  decide

theorem ww_print_letter_head (letter attrib : Nat) (w : WW)
    (h1 : 0x20 ≤ letter) (h2 : letter ≤ 0xBF) :
    ∃ w' rest, ww_print_letter letter attrib w = .ok w' ∧
      w'.bus = w.bus ++ [0x121, 0x003, printwheelChar.getD (letter - 0x20) 0] ++ rest := by
  obtain ⟨w', hw, hbus, _⟩ := ww_print_letter_spec letter attrib w h1 h2
  refine ⟨w', (if (attrib &&& 0x06 ≠ 0) ∧ (letter ≠ 0x20 ∨ attrib &&& 0x02 ≠ 0)
              then [0x000, 0x121, 0x003, 0x04F] else [])
        ++ ((if attrib &&& 0x01 ≠ 0
              then [0x001, 0x121, 0x003, printwheelChar.getD (letter - 0x20) 0,
                    wireWord ((w.uSpacesPerChar + 65535) % 65536)]
              else [wireWord w.uSpacesPerChar])
        ++ (if (w.uSpaceCount + w.uSpacesPerChar) % 65536 > 1319
              then [0x121, 0x006, (((w.uSpaceCount + w.uSpacesPerChar) % 65536) >>> 8) &&& 0x007,
                    ((w.uSpaceCount + w.uSpacesPerChar) % 65536) &&& 0xFF]
              else [])), hw, ?_⟩
  rw [hbus]
  simp only [List.append_assoc]


theorem kb_decode_idle_default (ack : Bool) (scancode : Nat) (k : Kb)
    (h : scancode ∉ idleCaseLabels) :
    kb_decode_idle ack scancode k =
      (if k.kb_shift ∧ ¬ (k.kb_leds &&& CAPS_LOCK ≠ 0) then
        (readCode shifted scancode).bind (fun r => pure (r, k))
      else
        (readCode unshifted scancode).bind (fun result =>
          pure (if (k.kb_leds &&& CAPS_LOCK ≠ 0) ∧ ¬ k.kb_shift then
                  if result > 0x60 ∧ result < 0x7B then result - 0x20 else result
                else result, k))) := by
  simp only [idleCaseLabels, List.mem_cons, List.mem_singleton, List.mem_nil_iff, not_or,
    or_false] at h
  obtain ⟨h1, h2, h3, h4, h5, h6, h7, h8, h9, h10, h11, h12, h13, h14, h15, h16, h17, h18, h19, h20, h21, h22, h23, h24, h25, h26, h27, h28, h29, h30, h31, h32, h33, h34, h35, h36, h37, h38, h39, h40, h41⟩ := h
  unfold kb_decode_idle
  rw [if_neg h1, if_neg h2, if_neg h3, if_neg h4, if_neg h5, if_neg h6, if_neg h7, if_neg h8, if_neg h9, if_neg h10, if_neg h11, if_neg h12, if_neg h13, if_neg h14, if_neg h15, if_neg h16, if_neg h17, if_neg h18, if_neg h19, if_neg h20, if_neg h21, if_neg h22, if_neg h23, if_neg h24, if_neg h25, if_neg h26, if_neg h27, if_neg h28, if_neg h29, if_neg h30, if_neg h31, if_neg h32, if_neg h33, if_neg h34, if_neg h35, if_neg h36, if_neg h37, if_neg h38, if_neg h39, if_neg h40, if_neg h41]
  rfl

theorem readCode_nat (tbl : List Nat) (n : Nat) (h : n < tbl.length) :
    readCode tbl (n : Int) = .ok (tbl.getD n 0) := by
  unfold readCode
  rw [if_pos (by omega)]
  rfl

theorem kb_decode_idle_table (ack : Bool) (scancode : Nat) (k : Kb)
    (h : scancode ∉ idleCaseLabels) (hsc : scancode < 0x80)
    (hcaps : k.kb_leds &&& CAPS_LOCK = 0) :
    kb_decode_idle ack scancode k
      = .ok ((if k.kb_shift then shifted else unshifted).getD scancode 0, k) := by
  rw [kb_decode_idle_default ack scancode k h, hcaps,
    readCode_nat shifted scancode hsc, readCode_nat unshifted scancode hsc]
  cases hs : k.kb_shift <;> simp [Except.bind, pure, Except.pure]

theorem and_six_of_and_two (a : Nat) (h : a &&& 0x02 ≠ 0) : a &&& 0x06 ≠ 0 := by
  intro h6
  apply h
  rw [show (0x02 : Nat) = 0x06 &&& 0x02 from rfl, ← Nat.land_assoc, h6, Nat.zero_and]

theorem ite_mod_two (x : Nat) : (if x % 2 = 1 then 128 else 0) = 128 * (x % 2) := by
  split <;> omega

theorem shift_chain (r c0 c1 c2 c3 c4 c5 c6 c7 : Nat) (hr : r < 256) :
    (((((((r / 2 + 128 * c0) / 2 + 128 * c1) / 2 + 128 * c2) / 2 + 128 * c3) / 2 + 128 * c4) / 2
      + 128 * c5) / 2 + 128 * c6) / 2 + 128 * c7
      = c0 + 2 * c1 + 4 * c2 + 8 * c3 + 16 * c4 + 32 * c5 + 64 * c6 + 128 * c7 := by
  omega

theorem byte_bits (b : Nat) (hb : b < 256) :
    b % 2 + 2 * (b / 2 % 2) + 4 * (b / 2 / 2 % 2) + 8 * (b / 2 / 2 / 2 % 2)
      + 16 * (b / 2 / 2 / 2 / 2 % 2) + 32 * (b / 2 / 2 / 2 / 2 / 2 % 2)
      + 64 * (b / 2 / 2 / 2 / 2 / 2 / 2 % 2) + 128 * (b / 2 / 2 / 2 / 2 / 2 / 2 / 2 % 2) = b := by
  omega

theorem foldl_bitsLSB (r b : Nat) (hr : r < 256) (hb : b < 256) :
    (bitsLSB 8 b).foldl (fun r d => r / 2 + if d then 128 else 0) r = b := by
  simp only [bitsLSB, List.foldl, decide_eq_true_eq, ite_mod_two]
  rw [shift_chain r _ _ _ _ _ _ _ _ hr]
  exact byte_bits b hb

theorem bitsLSB_length (n b : Nat) : (bitsLSB n b).length = n := by
  induction n generalizing b with
  | zero => rfl
  | succ n ih => simp [bitsLSB, ih]

theorem shift_or_80 (r : Nat) (h : r < 256) : (r >>> 1) ||| 0x80 = r / 2 + 128 := by
  interval_cases r <;> rfl

theorem kb_isr_start (s : KbLink) (h : s.kb_bitcount = 0) :
    kb_isr false s = .ok { s with kb_bitcount := 1 } := by
  unfold kb_isr
  rw [if_pos h, if_pos (by simp), h]
  rfl

theorem kb_isr_data (d : Bool) (s : KbLink) (h1 : 1 ≤ s.kb_bitcount) (h2 : s.kb_bitcount ≤ 8)
    (hr : s.recdbits < 256) :
    kb_isr d s = .ok { s with recdbits := s.recdbits / 2 + (if d then 128 else 0),
                              kb_parity := (if d then !s.kb_parity else s.kb_parity),
                              kb_bitcount := s.kb_bitcount + 1 } := by
  unfold kb_isr
  rw [if_neg (by omega), if_pos ⟨h1, h2⟩]
  have hm : (s.kb_bitcount + 1) % 256 = s.kb_bitcount + 1 := by omega
  cases d
  · simp [hm, Nat.shiftRight_eq_div_pow, pure, Except.pure]
  · simp [hm, shift_or_80 _ hr, pure, Except.pure]

theorem kb_isr_run_data (ds : List Bool) (s : KbLink) (h1 : 1 ≤ s.kb_bitcount)
    (h2 : s.kb_bitcount + ds.length ≤ 9) (hr : s.recdbits < 256) :
    kb_isr_run ds s = .ok
      { s with recdbits := ds.foldl (fun r d => r / 2 + if d then 128 else 0) s.recdbits,
               kb_parity := ds.foldl (fun p d => if d then !p else p) s.kb_parity,
               kb_bitcount := s.kb_bitcount + ds.length } := by
  induction ds generalizing s with
  | nil => rfl
  | cons d ds ih =>
    simp only [List.length_cons] at h2
    simp only [kb_isr_run, kb_isr_data d s h1 (by omega) hr, bind, Except.bind]
    rw [ih _ (by simp) (by simp; omega) (by simp; split <;> omega)]
    simp only [List.foldl_cons, List.length_cons]
    congr 2
    omega

theorem kb_isr_parity (p : Bool) (s : KbLink) (h : s.kb_bitcount = 9) :
    kb_isr p s = .ok { s with kb_parity := (if p then !s.kb_parity else s.kb_parity),
                              kb_bitcount := 10 } := by
  unfold kb_isr
  rw [if_neg (by omega), if_neg (by omega), if_pos h]
  have hm : (s.kb_bitcount + 1) % 256 = 10 := by omega
  cases p <;> simp [hm, pure, Except.pure]

theorem kb_isr_stop (stop : Bool) (s : KbLink) (h : s.kb_bitcount = 10)
    (hin : s.kb_in < s.kb_buf.length) :
    kb_isr stop s = .ok
      (if stop ∧ s.kb_parity then
        { s with kb_buf := s.kb_buf.set s.kb_in s.recdbits,
                 kb_in := ((s.kb_in + 1) % 256) &&& 0x0F,
                 kb_bitcount := 0, recdbits := 0, kb_parity := false }
      else { s with kb_bitcount := 0, recdbits := 0, kb_parity := false }) := by
  unfold kb_isr
  rw [if_neg (by omega), if_neg (by omega), if_neg (by omega), if_pos h]
  by_cases hc : stop = true ∧ s.kb_parity = true
  · simp only [if_pos hc, writeXdata, if_pos hin, bind, Except.bind, pure, Except.pure]
  · simp only [if_neg hc, bind, Except.bind, pure, Except.pure]

theorem foldl_parity (ds : List Bool) (q : Bool) :
    ds.foldl (fun p d => if d then !p else p) q = (q ^^ decide (ds.count true % 2 = 1)) := by
  induction ds generalizing q with
  | nil => simp
  | cons d ds ih =>
    rw [List.foldl_cons, ih]
    cases d <;> cases q <;> simp [List.count_cons]
    all_goals
      rcases Nat.mod_two_eq_zero_or_one (List.count true ds) with h | h <;>
        simp [h, Nat.add_mod]

theorem kb_isr_run_append (a b : List Bool) (s : KbLink) :
    kb_isr_run (a ++ b) s = (kb_isr_run a s).bind (kb_isr_run b) := by
  induction a generalizing s with
  | nil => rfl
  | cons d a ih =>
    simp only [List.cons_append, kb_isr_run, bind]
    cases kb_isr d s with
    | error e => rfl
    | ok t => exact ih t

theorem and_0F (x : Nat) : ((x + 1) % 256) &&& 0x0F = (x + 1) % 16 := by
  rw [show (0x0F : Nat) = 2 ^ 4 - 1 from rfl, Nat.and_pow_two_sub_one_eq_mod]
  omega

/-- One frame of eleven samples seen from rest: start bit, eight data samples,
parity sample, stop sample. -/
theorem kb_isr_frame (ds : List Bool) (p stop : Bool) (s : KbLink) (hlen : ds.length = 8)
    (h0 : s.kb_bitcount = 0) (hpar : s.kb_parity = false) (hr : s.recdbits < 256)
    (hin : s.kb_in < s.kb_buf.length) :
    kb_isr_run ([false] ++ ds ++ [p, stop]) s = .ok
      (if stop = true ∧ (ds ++ [p]).count true % 2 = 1 then
        { s with kb_buf := s.kb_buf.set s.kb_in
                   (ds.foldl (fun r d => r / 2 + if d then 128 else 0) s.recdbits),
                 kb_in := (s.kb_in + 1) % 16, recdbits := 0 }
      else { s with recdbits := 0 }) := by
  rw [kb_isr_run_append, kb_isr_run_append]
  have e1 : kb_isr_run [false] s = .ok { s with kb_bitcount := 1 } := by
    simp only [kb_isr_run, kb_isr_start s h0, bind, Except.bind, pure, Except.pure]
  rw [e1]
  simp only [Except.bind]
  rw [kb_isr_run_data ds { s with kb_bitcount := 1 } (by simp) (by simp; omega) hr]
  simp only [Except.bind, kb_isr_run, bind]
  rw [kb_isr_parity p _ (by simp; omega)]
  simp only [Except.bind]
  rw [kb_isr_stop stop
    { s with kb_bitcount := 10,
             kb_parity := (if p = true then
                 !List.foldl (fun p d => if d = true then !p else p) s.kb_parity ds
               else List.foldl (fun p d => if d = true then !p else p) s.kb_parity ds),
             recdbits := List.foldl (fun r d => r / 2 + if d = true then 128 else 0) s.recdbits ds }
    rfl hin]
  simp only [pure, Except.pure, foldl_parity, hpar, Bool.false_bne, and_0F]
  have hc : (if p = true then !decide (List.count true ds % 2 = 1)
      else decide (List.count true ds % 2 = 1)) = true ↔ (ds ++ [p]).count true % 2 = 1 := by
    cases p <;> simp [List.count_append]
    omega
  simp only [hc]
  split
  · cases s; simp_all
  · cases s; simp_all

theorem kb_isr_safe (d : Bool) (s : KbLink) (hin : s.kb_in < 16) (hlen : s.kb_buf.length = 16) :
    ∃ s', kb_isr d s = .ok s' ∧ s'.kb_in < 16 ∧ s'.kb_buf.length = 16 ∧
      s'.kb_out = s.kb_out ∧ s'.dataOut = s.dataOut ∧ s'.clockOut = s.clockOut := by
  by_cases h10 : s.kb_bitcount = 10
  · rw [kb_isr_stop d s h10 (by omega)]
    refine ⟨_, rfl, ?_⟩
    split
    · refine ⟨?_, by simpa using hlen, rfl, rfl, rfl⟩
      show ((s.kb_in + 1) % 256) &&& 0x0F < 16
      rw [and_0F]
      omega
    · exact ⟨hin, hlen, rfl, rfl, rfl⟩
  · unfold kb_isr
    rw [if_neg h10]
    split_ifs <;> exact ⟨_, rfl, hin, hlen, rfl, rfl, rfl⟩

theorem kb_isr_run_safe (ds : List Bool) (s : KbLink) (hin : s.kb_in < 16)
    (hlen : s.kb_buf.length = 16) :
    ∃ s', kb_isr_run ds s = .ok s' ∧ s'.kb_in < 16 ∧ s'.kb_buf.length = 16 ∧
      s'.kb_out = s.kb_out ∧ s'.dataOut = s.dataOut ∧ s'.clockOut = s.clockOut := by
  induction ds generalizing s with
  | nil => exact ⟨s, rfl, hin, hlen, rfl, rfl, rfl⟩
  | cons d ds ih =>
    obtain ⟨t, ht, h1, h2, h3, h4, h5⟩ := kb_isr_safe d s hin hlen
    obtain ⟨u, hu, g1, g2, g3, g4, g5⟩ := ih t h1 h2
    refine ⟨u, ?_, g1, g2, g3.trans h3, g4.trans h4, g5.trans h5⟩
    simp only [kb_isr_run, ht, bind, Except.bind]
    exact hu

theorem kb_wait_reply_safe (env : Nat → List Bool) (fuel k : Nat) (s : KbLink)
    (hk : k < 65536) (hf : 65536 - k ≤ fuel) (hin : s.kb_in < 16)
    (hlen : s.kb_buf.length = 16) :
    ∃ k' s', kb_wait_reply env fuel k s = .ok (k', s') ∧ s'.kb_in < 16 ∧
      s'.kb_buf.length = 16 ∧ s'.kb_out = s.kb_out ∧ s'.dataOut = s.dataOut ∧
      s'.clockOut = s.clockOut ∧ (k' = 0 ∨ s'.kb_in ≠ s'.kb_out) := by
  induction fuel generalizing k s with
  | zero => omega
  | succ fuel ih =>
    unfold kb_wait_reply
    by_cases hw : (k + 1) % 65536 = 0
    · rw [if_pos hw]
      exact ⟨0, s, rfl, hin, hlen, rfl, rfl, rfl, Or.inl rfl⟩
    · rw [if_neg hw]
      have hk1 : (k + 1) % 65536 = k + 1 := by omega
      obtain ⟨t, ht, h1, h2, h3, h4, h5⟩ := kb_isr_run_safe (env ((k + 1) % 65536)) s hin hlen
      simp only [ht, bind, Except.bind]
      by_cases hq : t.kb_in = t.kb_out
      · rw [if_pos hq]
        obtain ⟨k', u, hu, g1, g2, g3, g4, g5, g6⟩ := ih ((k + 1) % 65536) t (by omega) (by omega) h1 h2
        exact ⟨k', u, hu, g1, g2, g3.trans h3, g4.trans h4, g5.trans h5, g6⟩
      · rw [if_neg hq]
        exact ⟨_, t, rfl, h1, h2, h3, h4, h5, Or.inr hq⟩

theorem kb_send_bits_spec (n kbcmd : Nat) (paritybit : Bool) (s : KbLink) :
    kb_send_bits n kbcmd paritybit s =
      (kbcmd / 2 ^ n, (paritybit ^^ decide ((bitsLSB n kbcmd).count true % 2 = 1)),
        { s with dataOut := s.dataOut ++ bitsLSB n kbcmd }) := by
  induction n generalizing kbcmd paritybit s with
  | zero => simp [kb_send_bits, bitsLSB]
  | succ n ih =>
    unfold kb_send_bits
    rw [Nat.and_one_is_mod, Nat.shiftRight_eq_div_pow, pow_one]
    have hd : kbcmd / 2 / 2 ^ n = kbcmd / 2 ^ (n + 1) := by
      rw [Nat.div_div_eq_div_mul, pow_succ, Nat.mul_comm]
    rcases Nat.mod_two_eq_zero_or_one kbcmd with h | h
    · rw [if_neg (by omega), ih, hd]
      simp [bitsLSB, h]
    · rw [if_pos (by omega), ih, hd]
      simp only [bitsLSB, h, decide_True, List.count_cons_self, List.append_assoc,
        List.singleton_append]
      rcases Nat.mod_two_eq_zero_or_one (List.count true (bitsLSB n (kbcmd / 2))) with g | g <;>
        cases paritybit <;> simp [g, Nat.add_mod]

theorem kb_send_frame_spec (kbcmd : Nat) (s : KbLink) :
    kb_send_frame kbcmd true s =
      (true, { s with clockOut := s.clockOut ++ [false, true],
                      dataOut := s.dataOut ++ [false] ++ bitsLSB 8 kbcmd ++
                        [!decide ((bitsLSB 8 kbcmd).count true % 2 = 1), true] }) := by
  unfold kb_send_frame
  simp [kb_send_bits_spec]

theorem kb_send_frame_silent (kbcmd : Nat) (s : KbLink) :
    kb_send_frame kbcmd false s =
      (false, { s with clockOut := s.clockOut ++ [false, true],
                       dataOut := s.dataOut ++ [false] }) := by
  unfold kb_send_frame
  simp

theorem kb_env_run_succ (env : Nat → List Bool) (n : Nat) (s0 s : KbLink)
    (h : kb_env_run env n s0 = .ok s) :
    kb_env_run env (n + 1) s0 = kb_isr_run (env (n + 1)) s := by
  simp only [kb_env_run, h, bind, Except.bind]

theorem kb_wait_reply_arrives (env : Nat → List Bool) (s0 s1 : KbLink) (n : Nat)
    (hn : n ≤ 65535)
    (hwait : ∀ i, i < n → ∃ t, kb_env_run env i s0 = .ok t ∧ t.kb_in = t.kb_out)
    (harr : kb_env_run env n s0 = .ok s1) (hne : s1.kb_in ≠ s1.kb_out)
    (fuel k : Nat) (s : KbLink) (hk : k < n) (hf : n - k ≤ fuel)
    (hs : kb_env_run env k s0 = .ok s) :
    kb_wait_reply env fuel k s = .ok (n, s1) := by
  induction fuel generalizing k s with
  | zero => omega
  | succ fuel ih =>
    unfold kb_wait_reply
    have hk1 : (k + 1) % 65536 = k + 1 := by omega
    rw [if_neg (by omega), hk1, ← kb_env_run_succ env k s0 s hs]
    by_cases hkn : k + 1 = n
    · rw [hkn, harr]
      simp only [bind, Except.bind, if_neg hne, pure, Except.pure]
    · obtain ⟨t, ht, hq⟩ := hwait (k + 1) (by omega)
      rw [ht]
      simp only [bind, Except.bind, if_pos hq]
      exact ih (k + 1) t (by omega) (by omega) ht

theorem kb_wait_reply_timeout (env : Nat → List Bool) (s0 : KbLink)
    (hwait : ∀ i, i ≤ 65535 → ∃ t, kb_env_run env i s0 = .ok t ∧ t.kb_in = t.kb_out)
    (fuel k : Nat) (s : KbLink) (hk : k ≤ 65535) (hf : 65536 - k ≤ fuel)
    (hs : kb_env_run env k s0 = .ok s) :
    ∃ t, kb_env_run env 65535 s0 = .ok t ∧ kb_wait_reply env fuel k s = .ok (0, t) := by
  induction fuel generalizing k s with
  | zero => omega
  | succ fuel ih =>
    unfold kb_wait_reply
    by_cases hw : k = 65535
    · rw [if_pos (by omega)]
      exact ⟨s, hw ▸ hs, rfl⟩
    · have hk1 : (k + 1) % 65536 = k + 1 := by omega
      rw [if_neg (by omega), hk1, ← kb_env_run_succ env k s0 s hs]
      obtain ⟨t, ht, hq⟩ := hwait (k + 1) (by omega)
      rw [ht]
      simp only [bind, Except.bind, if_pos hq]
      exact ih (k + 1) t (by omega) (by omega) ht

theorem kb_env_run_quiet (env : Nat → List Bool) (henv : ∀ i, env i = []) (n : Nat)
    (s : KbLink) : kb_env_run env n s = .ok s := by
  induction n with
  | zero => rfl
  | succ n ih => rw [kb_env_run_succ env n s s ih, henv]; rfl

theorem kb_send_cmd_unfold (kbcmd : Nat) (env : Nat → List Bool) (s : KbLink)
    (hb : s.kb_bitcount = 0) :
    kb_send_cmd kbcmd true env s =
      (kb_wait_reply env 65536 0 (kb_send_frame kbcmd true s).2).bind (fun r =>
        if r.1 = 0 then .ok (0, r.2)
        else (kb_get_scancode r.2).bind (fun g => .ok (if g.1 = 0xFA then 1 else 0, g.2))) := by
  unfold kb_send_cmd
  rw [if_neg (by simp [hb]), kb_send_frame_spec]
  simp only [Bool.not_true, Bool.false_eq_true, if_false, bind, pure, Except.pure]
  rfl

theorem parity_bit_odd (bs : List Bool) :
    (bs ++ [!decide (bs.count true % 2 = 1)]).count true % 2 = 1 := by
  rw [List.count_append]
  rcases Nat.mod_two_eq_zero_or_one (List.count true bs) with h | h
  · simp [h, Nat.add_mod]
  · simp [h]

theorem or_100 (y : Nat) (h : y < 256) : y ||| 0x0100 = y + 256 := by
  interval_cases y <;> rfl

theorem uart1_word (x : Nat) (hx : x < 512) :
    (if decide (x / 256 % 2 = 1) = true then x % 256 ||| 0x0100 else x % 256) = x := by
  by_cases h : x / 256 % 2 = 1
  · rw [if_pos (by simpa using h), or_100 _ (Nat.mod_lt _ (by decide))]
    omega
  · rw [if_neg (by simpa using h)]
    omega

theorem uart1_isr_word (x : Nat) (w : WW) (hx : x < 512) :
    uart1_isr false true (x % 256) (x / 256 % 2 = 1) w =
      if w.waitingForAcknowledge = true then
        if x ≠ 0 then
          { w with waitingForAcknowledge := false,
                   rx1_buf := w.rx1_buf.set (w.rx1_head &&& 7) x,
                   rx1_head := (w.rx1_head + 1) % 256 }
        else { w with waitingForAcknowledge := false }
      else if x ≠ 0 ∨ (if x = 0x121 then 1 else (w.count + 1) % 256) % 2 ≠ 0 then
        { w with count := (if x = 0x121 then 1 else (w.count + 1) % 256),
                 rx1_buf := w.rx1_buf.set (w.rx1_head &&& 7) x,
                 rx1_head := (w.rx1_head + 1) % 256 }
      else { w with count := (if x = 0x121 then 1 else (w.count + 1) % 256) } := by
  unfold uart1_isr
  simp only [Bool.false_eq_true, if_false, if_true, uart1_word x hx, BSIZE]
  by_cases ha : w.waitingForAcknowledge = true
  · simp only [ha, if_true]
  · simp only [ha, if_false, Bool.false_eq_true]
    by_cases h1 : x = 0x121
    · simp only [h1, if_true]
    · simp only [h1, if_false]

theorem uart1_receive_append (a b : List Nat) (w : WW) :
    uart1_receive (a ++ b) w = uart1_receive b (uart1_receive a w) := by
  induction a generalizing w with
  | nil => rfl
  | cons x a ih => exact ih _

theorem uart1_receive_count (ws : List Nat) (w : WW) (hw : w.waitingForAcknowledge = false)
    (hws : ∀ x ∈ ws, x < 512 ∧ x ≠ 0x121) :
    (uart1_receive ws w).waitingForAcknowledge = false ∧
      (uart1_receive ws w).count % 2 = (w.count + ws.length) % 2 := by
  induction ws generalizing w with
  | nil => exact ⟨hw, rfl⟩
  | cons x ws ih =>
    obtain ⟨hx, hx1⟩ := hws x (List.mem_cons_self x ws)
    have hstep := uart1_isr_word x w hx
    rw [if_neg (by simp [hw]), if_neg hx1] at hstep
    have h1 : (uart1_isr false true (x % 256) (x / 256 % 2 = 1) w).waitingForAcknowledge
        = false := by
      rw [hstep]; split <;> exact hw
    have h2 : (uart1_isr false true (x % 256) (x / 256 % 2 = 1) w).count
        = (w.count + 1) % 256 := by
      rw [hstep]; split <;> rfl
    obtain ⟨g1, g2⟩ := ih _ h1 (fun y hy => hws y (List.mem_cons_of_mem x hy))
    refine ⟨g1, ?_⟩
    show (uart1_receive ws _).count % 2 = _
    rw [g2, h2, List.length_cons]
    omega

theorem kb_decode_idle_F0 (ack : Bool) (k : Kb) :
    kb_decode_idle ack 0xF0 k = .ok (0, { k with kb_state := 3 }) := by
  unfold kb_decode_idle
  rw [if_neg (by decide), if_neg (by decide), if_pos rfl]
  rfl

theorem xor_two_and_two (a : Nat) : ((a ^^^ 2) &&& 2 ≠ 0) ↔ a &&& 2 = 0 := by
  have h1 : (a ^^^ 2) &&& 2 = (a &&& 2) ^^^ 2 := by
    rw [Nat.and_xor_distrib_right, show (2 : Nat) &&& 2 = 2 from rfl]
  rw [h1]
  have h2 : a &&& 2 = 0 ∨ a &&& 2 = 2 := by
    have hle : a &&& 2 ≤ 2 := Nat.and_le_right
    have hodd : (a &&& 2) &&& 1 = 0 := by
      rw [Nat.land_assoc, show (2 : Nat) &&& 1 = 0 from rfl, Nat.and_zero]
    rcases Nat.lt_or_ge (a &&& 2) 1 with h | h
    · left; omega
    · rcases Nat.lt_or_ge (a &&& 2) 2 with g | g
      · have : a &&& 2 = 1 := by omega
        rw [this] at hodd
        exact absurd hodd (by decide)
      · right; omega
  rcases h2 with h | h <;> rw [h] <;> decide

theorem readCode_oob (tbl : List Nat) (n : Nat) (h : tbl.length ≤ n) :
    readCode tbl (n : Int) = .error (.oobRead n) := by
  unfold readCode
  rw [if_neg (by omega)]

theorem print_character_ground_BS (p : Printer) :
    print_character_ground BS p =
      .ok (if p.column > 1 then
        putchar BS { p with ww := ww_backspace p.ww, column := (p.column + 255) % 256 }
      else p) := by
  unfold print_character_ground
  rw [if_neg (by decide), if_neg (by decide), if_pos rfl]
  split <;> rfl

theorem print_character_ground_HT (p : Printer) (ht : p.tabStop ≠ 0) :
    print_character_ground HT p =
      .ok (tabLoop (if (p.tabStop - p.column % p.tabStop) % 256 < 128
                    then (p.tabStop - p.column % p.tabStop) % 256 else 0)
        { p with ww := ww_horizontal_tab ((p.tabStop - p.column % p.tabStop) % 256) p.ww }) := by
  unfold print_character_ground
  rw [if_neg (by decide), if_neg (by decide), if_neg (by decide), if_pos rfl, if_neg ht]
  rfl

theorem print_character_ground_LF (p : Printer) :
    print_character_ground LF p = .ok (putchar LF { p with ww := ww_linefeed p.ww }) := by
  unfold print_character_ground
  rw [if_neg (by decide), if_neg (by decide), if_neg (by decide), if_neg (by decide),
    if_pos rfl]
  rfl

theorem print_character_ground_CR (p : Printer) :
    print_character_ground CR p =
      .ok (putchar CR
        { p with ww := (if p.switch1 = false then ww_linefeed (ww_carriage_return p.ww)
                        else ww_carriage_return p.ww),
                 column := 1, attrib := 0 }) := by
  unfold print_character_ground
  rw [if_neg (by decide), if_neg (by decide), if_neg (by decide), if_neg (by decide),
    if_neg (by decide), if_neg (by decide), if_pos rfl]
  cases hs : p.switch1 <;> simp only [hs, if_true, if_false, Bool.true_eq_false] <;> rfl

theorem print_character_ground_other (c : Nat) (p : Printer)
    (hc : c ∉ [NUL, BEL, BS, HT, LF, VT, CR, ESC]) :
    print_character_ground c p =
      (ww_print_letter c p.attrib p.ww).bind (fun w =>
        .ok { p with ww := w, console := p.console ++ [.char c],
                     column := (p.column + 1) % 256 }) := by
  simp only [List.mem_cons, List.mem_singleton, List.mem_nil_iff, not_or, or_false] at hc
  obtain ⟨h1, h2, h3, h4, h5, h6, h7, h8⟩ := hc
  unfold print_character_ground
  rw [if_neg h1, if_neg h2, if_neg h3, if_neg h4, if_neg h5, if_neg h6, if_neg h7, if_neg h8]
  rfl

theorem tabLoop_frame (n : Nat) (p : Printer) :
    (tabLoop n p).ww = p.ww ∧ (tabLoop n p).tabStop = p.tabStop ∧
      (tabLoop n p).escape = p.escape ∧ (tabLoop n p).attrib = p.attrib := by
  induction n generalizing p with
  | zero => exact ⟨rfl, rfl, rfl, rfl⟩
  | succ n ih =>
    obtain ⟨h1, h2, h3, h4⟩ := ih (putchar SP { p with column := (p.column + 1) % 256 })
    exact ⟨h1, h2, h3, h4⟩

theorem ww_print_letter_oob (letter attrib : Nat) (w : WW)
    (hr : ¬ (0x20 ≤ letter ∧ letter ≤ 0xBF)) :
    ww_print_letter letter attrib w = .error (.oobRead ((letter : Int) - 0x20)) := by
  have he : readCode printwheelChar ((letter : Int) - 0x20) =
      .error (.oobRead ((letter : Int) - 0x20)) := by
    unfold readCode
    rw [if_neg]
    rw [show printwheelChar.length = 160 from rfl]
    omega
  unfold ww_print_letter
  rw [he]
  rfl

theorem ww_linefeed_frame (w : WW) :
    (ww_linefeed w).uSpacesPerChar = w.uSpacesPerChar ∧
      (ww_linefeed w).uLinesPerLine = w.uLinesPerLine ∧
      (ww_linefeed w).uSpaceCount = w.uSpaceCount := ⟨rfl, rfl, rfl⟩

theorem ww_carriage_return_linefeed_frame (b : Bool) (w : WW) :
    (if b = false then ww_linefeed (ww_carriage_return w)
      else ww_carriage_return w).uSpacesPerChar = w.uSpacesPerChar ∧
    (if b = false then ww_linefeed (ww_carriage_return w)
      else ww_carriage_return w).uLinesPerLine = w.uLinesPerLine ∧
    (if b = false then ww_linefeed (ww_carriage_return w)
      else ww_carriage_return w).uSpaceCount = 0 := by
  cases b
  · exact ⟨(ww_linefeed_frame _).1.trans (ww_carriage_return_uSpacesPerChar w),
      (ww_linefeed_frame _).2.1.trans (ww_carriage_return_uLinesPerLine w),
      (ww_linefeed_frame _).2.2.trans (ww_carriage_return_uSpaceCount w)⟩
  · exact ⟨ww_carriage_return_uSpacesPerChar w, ww_carriage_return_uLinesPerLine w,
      ww_carriage_return_uSpaceCount w⟩

theorem print_character_of_esc1 (c : Nat) (p : Printer) (he : p.escape = 1) :
    print_character c p = .ok (print_character_esc1 c p) := by
  unfold print_character
  rw [if_neg (by omega), if_pos he]
  rfl

theorem ww_backspace_spec (w : WW) (hu : w.uSpacesPerChar < 256) :
    (ww_backspace w).bus = w.bus ++ [0x121, 0x006, 0x000, w.uSpacesPerChar] ∧
      (ww_backspace w).uSpaceCount = (w.uSpaceCount + 65536 - w.uSpacesPerChar) % 65536 ∧
      (ww_backspace w).uSpacesPerChar = w.uSpacesPerChar ∧
      (ww_backspace w).uLinesPerLine = w.uLinesPerLine := by
  refine ⟨?_, ?_, rfl, rfl⟩
  · unfold ww_backspace
    simp only [ww_put_data_bus, ww_put_data_uSpacesPerChar, wireWord_of_lt _ (show
      w.uSpacesPerChar < 512 by omega), List.append_assoc, List.singleton_append,
      List.cons_append, List.nil_append]
    rfl
  · unfold ww_backspace
    simp only [ww_put_data_uSpaceCount, ww_put_data_uSpacesPerChar,
      Nat.mod_eq_of_lt (show w.uSpacesPerChar < 65536 by omega)]

theorem print_string_ESC_cons (cs : List Nat) (p : Printer) (hg : p.escape = 0) :
    print_string (ESC :: cs) p = print_string cs { p with escape := 1 } := by
  simp only [print_string, print_character_ESC p hg, bind, Except.bind]

theorem print_string_esc1_cons (c : Nat) (cs : List Nat) (p : Printer) (he : p.escape = 1) :
    print_string (c :: cs) p = print_string cs (print_character_esc1 c p) := by
  simp only [print_string, print_character, he, bind, Except.bind, pure, Except.pure]
  rfl

theorem print_string_esc2_cons (c : Nat) (cs : List Nat) (p : Printer) (he : p.escape = 2) :
    print_string (c :: cs) p = print_string cs (print_character_esc2 c p) := by
  simp only [print_string, print_character, he, bind, Except.bind, pure, Except.pure]
  rfl

theorem print_string_esc3_cons (c : Nat) (cs : List Nat) (p : Printer) (he : p.escape = 3) :
    print_string (c :: cs) p = print_string cs (print_character_esc3 c p) := by
  simp only [print_string, print_character, he, bind, Except.bind, pure, Except.pure]
  rfl

theorem print_string_esc4_cons (c : Nat) (cs : List Nat) (p : Printer) (he : p.escape = 4) :
    print_string (c :: cs) p = print_string cs (print_character_esc4 c p) := by
  simp only [print_string, print_character, he, bind, Except.bind, pure, Except.pure]
  rfl

theorem print_string_esc6_cons (c : Nat) (cs : List Nat) (p : Printer) (he : p.escape = 6) :
    print_string (c :: cs) p = print_string cs (print_character_esc6 c p) := by
  simp only [print_string, print_character, he, bind, Except.bind, pure, Except.pure]
  rfl

theorem tabLoop_spec (n : Nat) (p : Printer) (h : p.column + n ≤ 255) :
    tabLoop n p = { p with column := p.column + n,
                           console := p.console ++ List.replicate n (.char SP) } := by
  induction n generalizing p with
  | zero => simp [tabLoop]
  | succ n ih =>
    have hm : (p.column + 1) % 256 = p.column + 1 := by omega
    rw [tabLoop, ih _ (by simp only [putchar]; omega)]
    simp only [putchar, hm, List.replicate_succ, List.append_assoc, List.singleton_append]
    congr 1
    omega

theorem wire_tab_high (x : Nat) : wireWord ((x &&& 0x007) ||| 0x80) = 0x80 ||| (x &&& 0x07) := by
  rw [wireWord_of_lt, Nat.lor_comm]
  have h7 : x &&& 0x007 < 2 ^ 8 := lt_of_le_of_lt Nat.and_le_right (by decide)
  exact lt_trans (Nat.or_lt_two_pow h7 (by decide)) (by decide)

theorem ww_horizontal_tab_spec (t : Nat) (w : WW) (h : t * w.uSpacesPerChar < 65536) :
    (ww_horizontal_tab t w).bus = w.bus ++ [0x121, 0x006,
        0x80 ||| (((t * w.uSpacesPerChar) >>> 8) &&& 0x07), (t * w.uSpacesPerChar) &&& 0xFF] ∧
      (ww_horizontal_tab t w).uSpaceCount = (w.uSpaceCount + t * w.uSpacesPerChar) % 65536 ∧
      (ww_horizontal_tab t w).uSpacesPerChar = w.uSpacesPerChar ∧
      (ww_horizontal_tab t w).uLinesPerLine = w.uLinesPerLine := by
  refine ⟨?_, ?_, rfl, rfl⟩
  · unfold ww_horizontal_tab
    simp only [Nat.mod_eq_of_lt h, ww_put_data_bus, ww_put_data_uSpacesPerChar, wire_tab_high,
      wire_andFF, List.append_assoc, List.singleton_append, List.cons_append, List.nil_append]
    rfl
  · unfold ww_horizontal_tab
    simp only [Nat.mod_eq_of_lt h, ww_put_data_uSpaceCount, ww_put_data_uSpacesPerChar]

theorem ww_micro_backspace_count (w : WW) (hc : w.uSpaceCount < 65536) :
    (ww_micro_backspace w).uSpaceCount = w.uSpaceCount - 1 := by
  unfold ww_micro_backspace
  split
  · show (w.uSpaceCount + 65535) % 65536 = w.uSpaceCount - 1
    omega
  · omega

/-- One step of the count invariant: a backspace, carriage return, line feed or
printable character keeps `uSpaceCount = uSpacesPerChar * (column - 1)` while the
line stays short of the automatic return. -/
theorem print_character_count_step (c : Nat) (p : Printer) (hg : p.escape = 0)
    (hu : p.ww.uSpacesPerChar < 256) (h1 : 1 ≤ p.column)
    (hinv : p.ww.uSpaceCount = p.ww.uSpacesPerChar * (p.column - 1))
    (hb : p.ww.uSpacesPerChar * p.column ≤ 1319) (hcol : p.column + 1 ≤ 255)
    (hc : c = BS ∨ c = CR ∨ c = LF ∨ (0x20 ≤ c ∧ c ≤ 0x7E)) :
    ∃ p', print_character c p = .ok p' ∧ p'.escape = 0 ∧
      p'.ww.uSpacesPerChar = p.ww.uSpacesPerChar ∧ 1 ≤ p'.column ∧
      p'.ww.uSpaceCount = p'.ww.uSpacesPerChar * (p'.column - 1) ∧
      p'.column ≤ p.column + 1 := by
  unfold print_character
  rw [if_pos hg]
  rcases hc with hc | hc | hc | hc
  · subst hc
    rw [print_character_ground_BS]
    obtain ⟨_, hcnt, hp, _⟩ := ww_backspace_spec p.ww hu
    by_cases h2 : p.column > 1
    · rw [if_pos h2]
      refine ⟨_, rfl, hg, hp, ?_, ?_, ?_⟩
      · show 1 ≤ (p.column + 255) % 256
        omega
      · show (ww_backspace p.ww).uSpaceCount
          = (ww_backspace p.ww).uSpacesPerChar * ((p.column + 255) % 256 - 1)
        rw [hcnt, hp, hinv, show (p.column + 255) % 256 - 1 = p.column - 1 - 1 by omega,
          Nat.mul_sub_one p.ww.uSpacesPerChar (p.column - 1)]
        have hle : p.ww.uSpacesPerChar * (p.column - 1) ≤ 1319 :=
          le_trans (Nat.mul_le_mul_left _ (Nat.sub_le _ _)) hb
        have hge : p.ww.uSpacesPerChar ≤ p.ww.uSpacesPerChar * (p.column - 1) :=
          Nat.le_mul_of_pos_right _ (by omega)
        omega
      · show (p.column + 255) % 256 ≤ p.column + 1
        omega
    · rw [if_neg h2]
      exact ⟨p, rfl, hg, rfl, h1, hinv, by omega⟩
  · subst hc
    rw [print_character_ground_CR]
    obtain ⟨a, _, b⟩ := ww_carriage_return_linefeed_frame p.switch1 p.ww
    refine ⟨_, rfl, hg, a, le_refl 1, ?_, ?_⟩
    · show (if p.switch1 = false then ww_linefeed (ww_carriage_return p.ww)
          else ww_carriage_return p.ww).uSpaceCount = _
      rw [b]
      show 0 = _ * (1 - 1)
      omega
    · show 1 ≤ p.column + 1
      omega
  · subst hc
    rw [print_character_ground_LF]
    exact ⟨_, rfl, hg, rfl, h1, hinv, by show p.column ≤ p.column + 1; omega⟩
  · obtain ⟨w', hw, _, hcnt, hp, _⟩ :=
      ww_print_letter_spec c p.attrib p.ww hc.1 (by omega)
    obtain ⟨p', hp', hww, _, hcolumn, hesc, _⟩ := print_character_ground_letter c p w' hc.1 hw
    have hsum : p.ww.uSpaceCount + p.ww.uSpacesPerChar = p.ww.uSpacesPerChar * p.column := by
      rw [hinv, ← Nat.mul_succ, show (p.column - 1).succ = p.column by omega]
    rw [hsum, Nat.mod_eq_of_lt (by omega), if_neg (by omega)] at hcnt
    refine ⟨p', hp', hesc.trans hg, by rw [hww]; exact hp, ?_, ?_, ?_⟩
    · rw [hcolumn]; omega
    · rw [hww, hcnt, hp, hcolumn, show (p.column + 1) % 256 - 1 = p.column by omega]
    · rw [hcolumn]; omega

theorem print_string_count (cs : List Nat) (p : Printer) (hg : p.escape = 0)
    (hu : p.ww.uSpacesPerChar < 256) (h1 : 1 ≤ p.column)
    (hinv : p.ww.uSpaceCount = p.ww.uSpacesPerChar * (p.column - 1))
    (hb : p.ww.uSpacesPerChar * (p.column - 1 + cs.length) ≤ 1319)
    (hcol : p.column + cs.length ≤ 255)
    (hcs : ∀ c ∈ cs, c = BS ∨ c = CR ∨ c = LF ∨ (0x20 ≤ c ∧ c ≤ 0x7E)) :
    ∃ p', print_string cs p = .ok p' ∧ p'.escape = 0 ∧
      p'.ww.uSpacesPerChar = p.ww.uSpacesPerChar ∧ 1 ≤ p'.column ∧
      p'.ww.uSpaceCount = p'.ww.uSpacesPerChar * (p'.column - 1) ∧
      p'.column ≤ p.column + cs.length := by
  induction cs generalizing p with
  | nil => exact ⟨p, rfl, hg, rfl, h1, hinv, by simp⟩
  | cons c cs ih =>
    simp only [List.length_cons] at hb hcol
    have hb1 : p.ww.uSpacesPerChar * p.column ≤ 1319 :=
      le_trans (Nat.mul_le_mul_left _ (by omega)) hb
    obtain ⟨q, hq, qg, qu, q1, qinv, qcol⟩ := print_character_count_step c p hg hu h1 hinv hb1
      (by omega) (hcs c (List.mem_cons_self c cs))
    obtain ⟨p', hp', pg, pu, pp1, pinv, pcol⟩ := ih q qg (by rw [qu]; exact hu) q1 qinv
      (by rw [qu]; exact le_trans (Nat.mul_le_mul_left _ (by omega)) hb) (by omega)
      (fun x hx => hcs x (List.mem_cons_of_mem c hx))
    refine ⟨p', ?_, pg, pu.trans qu, pp1, pinv, ?_⟩
    · simp only [print_string, hq, bind, Except.bind]
      exact hp'
    · simp only [List.length_cons]
      omega

theorem and_7 (x : Nat) : x &&& 0x07 = x % 8 := by
  rw [show (0x07 : Nat) = 2 ^ 3 - 1 from rfl, Nat.and_pow_two_sub_one_eq_mod]

theorem getD_set_ne (l : List Nat) (i j x : Nat) (h : i ≠ j) :
    (l.set i x).getD j 0 = l.getD j 0 := by
  simp [List.getD_eq_getElem?_getD, List.getElem?_set_ne h]

theorem getD_set_self (l : List Nat) (i x : Nat) (h : i < l.length) :
    (l.set i x).getD i 0 = x := by
  simp [List.getD_eq_getElem?_getD, h]

/-- What one receive interrupt does to the queue: the word is stored at
`rx1_buf[rx1_head & 7]` and `rx1_head` advances, or nothing of the queue
changes; a non-zero word is always stored. -/
theorem uart1_receive_one (x : Nat) (w : WW) (hx : x < 512) :
    (uart1_receive [x] w).rx1_tail = w.rx1_tail ∧
    (((uart1_receive [x] w).rx1_buf = w.rx1_buf.set (w.rx1_head % 8) x ∧
        (uart1_receive [x] w).rx1_head = (w.rx1_head + 1) % 256) ∨
      (x = 0 ∧ (uart1_receive [x] w).rx1_buf = w.rx1_buf ∧
        (uart1_receive [x] w).rx1_head = w.rx1_head)) := by
  show (uart1_isr false true (x % 256) (x / 256 % 2 = 1) w).rx1_tail = _ ∧ _
  rw [show uart1_receive [x] w = uart1_isr false true (x % 256) (x / 256 % 2 = 1) w from rfl,
    uart1_isr_word x w hx, and_7]
  by_cases ha : w.waitingForAcknowledge = true
  · rw [if_pos ha]
    by_cases h0 : x = 0
    · rw [if_neg (not_not.mpr h0)]
      exact ⟨rfl, Or.inr ⟨h0, rfl, rfl⟩⟩
    · rw [if_pos h0]
      exact ⟨rfl, Or.inl ⟨rfl, rfl⟩⟩
  · rw [if_neg ha]
    by_cases hs : x ≠ 0 ∨ (if x = 0x121 then 1 else (w.count + 1) % 256) % 2 ≠ 0
    · rw [if_pos hs]
      exact ⟨rfl, Or.inl ⟨rfl, rfl⟩⟩
    · rw [if_neg hs]
      exact ⟨rfl, Or.inr ⟨by_contra fun h => hs (Or.inl h), rfl, rfl⟩⟩

theorem rx_unread_store (w w' : WW) (x : Nat) (hlen : w.rx1_buf.length = 8)
    (hh : w.rx1_head < 256) (ht : w.rx1_tail < 256) (hn : (rx_unread w).length < 8)
    (hb : w'.rx1_buf = w.rx1_buf.set (w.rx1_head % 8) x)
    (hd : w'.rx1_head = (w.rx1_head + 1) % 256) (htl : w'.rx1_tail = w.rx1_tail) :
    rx_unread w' = rx_unread w ++ [x] := by
  unfold rx_unread at hn ⊢
  simp only [List.length_map, List.length_range] at hn
  rw [hb, hd, htl]
  have hcount : ((w.rx1_head + 1) % 256 + 256 - w.rx1_tail) % 256
      = (w.rx1_head + 256 - w.rx1_tail) % 256 + 1 := by omega
  rw [hcount, List.range_succ, List.map_append]
  congr 1
  · apply List.map_congr_left
    intro i hi
    rw [List.mem_range] at hi
    exact getD_set_ne _ _ _ _ (by omega)
  · simp only [List.map_cons, List.map_nil]
    rw [show (w.rx1_tail + (w.rx1_head + 256 - w.rx1_tail) % 256) % 8 = w.rx1_head % 8 by omega,
      getD_set_self _ _ _ (by omega)]

theorem rx_unread_get (w : WW) (y : Nat) (rest : List Nat) (hlen : w.rx1_buf.length = 8)
    (hh : w.rx1_head < 256) (hq : rx_unread w = y :: rest) :
    ww_get_data w = .ok (y, { w with rx1_tail := (w.rx1_tail + 1) % 256 }) ∧
      rx_unread { w with rx1_tail := (w.rx1_tail + 1) % 256 } = rest := by
  unfold rx_unread at hq
  have hpos : (w.rx1_head + 256 - w.rx1_tail) % 256 ≠ 0 := by
    intro h0
    rw [h0] at hq
    cases hq
  obtain ⟨n, hn⟩ := Nat.exists_eq_succ_of_ne_zero hpos
  rw [hn, List.range_succ_eq_map, List.map_cons, List.map_map] at hq
  have hy := (List.cons.inj hq).1
  have hr := (List.cons.inj hq).2
  constructor
  · unfold ww_get_data
    rw [if_neg (by omega), and_7]
    unfold readXdata
    rw [if_pos (by omega)]
    simp only [Nat.add_zero] at hy
    simp only [bind, Except.bind, pure, Except.pure, hy]
  · unfold rx_unread
    show List.map (fun i => w.rx1_buf.getD (((w.rx1_tail + 1) % 256 + i) % 8) 0)
      (List.range ((w.rx1_head + 256 - (w.rx1_tail + 1) % 256) % 256)) = rest
    rw [← hr, show (w.rx1_head + 256 - (w.rx1_tail + 1) % 256) % 256 = n by omega]
    apply List.map_congr_left
    intro i _
    show w.rx1_buf.getD (((w.rx1_tail + 1) % 256 + i) % 8) 0
      = w.rx1_buf.getD ((w.rx1_tail + (i + 1)) % 8) 0
    congr 1
    omega

theorem ww_data_avail_iff (w : WW) (hh : w.rx1_head < 256) (ht : w.rx1_tail < 256) :
    ww_data_avail w = true ↔ rx_unread w ≠ [] := by
  unfold ww_data_avail rx_unread
  simp only [decide_eq_true_eq, ne_eq, List.map_eq_nil_iff, List.range_eq_nil]
  omega

theorem rx_run_fifo (es : List RxEvent) (w : WW) (hlen : w.rx1_buf.length = 8)
    (hh : w.rx1_head < 256) (ht : w.rx1_tail < 256)
    (hes : ∀ x, RxEvent.arrive x ∈ es → 0 < x ∧ x < 512) (outs q' : List Nat)
    (hf : fifo_run es (rx_unread w) = some (outs, q')) :
    ∃ w', rx_run es w = .ok (outs, w') ∧ rx_unread w' = q' ∧ w'.rx1_buf.length = 8 ∧
      w'.rx1_head < 256 ∧ w'.rx1_tail < 256 := by
  induction es generalizing w outs with
  | nil =>
    simp only [fifo_run, Option.some.injEq, Prod.mk.injEq] at hf
    obtain ⟨h1, h2⟩ := hf
    subst h1
    exact ⟨w, rfl, h2, hlen, hh, ht⟩
  | cons e es ih =>
    cases e with
    | arrive x =>
      obtain ⟨hx0, hx⟩ := hes x (List.mem_cons_self _ _)
      simp only [fifo_run] at hf
      by_cases hn : (rx_unread w).length < 8
      · rw [if_pos hn] at hf
        obtain ⟨htl, hst⟩ := uart1_receive_one x w hx
        rcases hst with ⟨hb, hd⟩ | ⟨h0, _⟩
        · have hu := rx_unread_store w (uart1_receive [x] w) x hlen hh ht hn hb hd htl
          rw [← hu] at hf
          obtain ⟨w', hr, hq, g1, g2, g3⟩ := ih (uart1_receive [x] w)
            (by rw [hb, List.length_set]; exact hlen) (by rw [hd]; omega) (by rw [htl]; exact ht)
            (fun y hy => hes y (List.mem_cons_of_mem _ hy)) outs hf
          exact ⟨w', hr, hq, g1, g2, g3⟩
        · omega
      · rw [if_neg hn] at hf
        cases hf
    | get =>
      simp only [fifo_run] at hf
      cases hq : rx_unread w with
      | nil =>
        rw [hq] at hf
        cases hf
      | cons y rest =>
        rw [hq] at hf
        simp only [Option.map_eq_some', Prod.mk.injEq] at hf
        obtain ⟨⟨o, q⟩, hfo, ho, hq2⟩ := hf
        simp only at ho hq2
        subst ho
        subst hq2
        obtain ⟨hg, hu⟩ := rx_unread_get w y rest hlen hh hq
        obtain ⟨w', hr, hq3, g1, g2, g3⟩ := ih { w with rx1_tail := (w.rx1_tail + 1) % 256 }
          hlen hh (Nat.mod_lt _ (by decide)) (fun z hz => hes z (List.mem_cons_of_mem _ hz)) o
          (by rw [hu]; exact hfo)
        refine ⟨w', ?_, hq3, g1, g2, g3⟩
        simp only [rx_run, hg, hr, bind, Except.bind, pure, Except.pure]

theorem and_3F_lt (n : Nat) : n &&& 0x3F < 64 :=
  Nat.lt_succ_of_le Nat.and_le_right

theorem and_3F_of_lt (n : Nat) (h : n < 64) : n &&& 0x3F = n := by
  rw [show (0x3F : Nat) = 2 ^ 6 - 1 from rfl, Nat.and_pow_two_sub_one_eq_mod]
  exact Nat.mod_eq_of_lt h

theorem keybuffer_put_spec (c : Nat) (e : Editor) (hlen : e.keybuffer.length = 64) :
    keybuffer_put c e =
      .ok { e with keybuffer := e.keybuffer.set (e.keybufptr &&& 0x3F) c,
                   keybufptr := (e.keybufptr + 1) % 256 } := by
  unfold keybuffer_put writeXdata
  rw [if_pos (by rw [hlen]; exact and_3F_lt _)]
  rfl

theorem ww_erase_letter_spec (letter : Nat) (w : WW) (h1 : 0x20 ≤ letter) (h2 : letter ≤ 0xBF) :
    ∃ w', ww_erase_letter letter w = .ok w' ∧
      w'.bus = w.bus ++ [0x121, 0x006, 0x000, wireWord w.uSpacesPerChar, 0x121, 0x004,
        printwheelChar.getD (letter - 0x20) 0, wireWord w.uSpacesPerChar] ∧
      w'.uSpaceCount = (w.uSpaceCount + 65536 - w.uSpacesPerChar % 65536) % 65536 ∧
      w'.uSpacesPerChar = w.uSpacesPerChar := by
  unfold ww_erase_letter
  rw [readCode_printwheelChar letter h1 h2]
  simp only [bind, Except.bind, pure, Except.pure]
  refine ⟨_, rfl, ?_, ?_, ?_⟩
  · simp only [ww_put_data_bus, List.append_assoc, List.cons_append, List.nil_append, wire_getD,
      ww_put_data]
    rfl
  · simp only [ww_put_data]
  · simp only [ww_put_data]

theorem handle_key_plain_printable (key : Nat) (e : Editor) (h1 : 0x20 ≤ key) (h2 : key ≤ 0x7E) :
    handle_key_plain key e = (keybuffer_put key e >>= fun e => editor_print key e) := by
  unfold handle_key_plain
  simp only [PS2_KEY_KP_DELETE, PS2_KEY_DELETE, PS2_KEY_TAB, PS2_KEY_BACKSPACE, PS2_KEY_KP_ENTER,
    PS2_KEY_ENTER, PS2_KEY_KP_LT_ARROW, PS2_KEY_LT_ARROW, PS2_KEY_RT_ARROW, PS2_KEY_KP_RT_ARROW,
    PS2_KEY_KP_UP_ARROW, PS2_KEY_UP_ARROW, PS2_KEY_KP_DN_ARROW, PS2_KEY_DN_ARROW, PS2_KEY_ESCAPE,
    PS2_KEY_KP_DIV, PS2_KEY_KP_MULT, PS2_KEY_KP_MINUS, PS2_KEY_KP_PLUS]
  rw [if_neg (show ¬ (key = 0x9A ∨ key = 0x90) by omega),
    if_neg (show ¬ key = 0x09 by omega),
    if_neg (show ¬ key = 0x08 by omega),
    if_neg (show ¬ (key = 0x9F ∨ key = 0x0D) by omega),
    if_neg (show ¬ (key = 0x96 ∨ key = 0x8B) by omega),
    if_neg (show ¬ (key = 0x8C ∨ key = 0x95) by omega),
    if_neg (show ¬ (key = 0x93 ∨ key = 0x8D) by omega),
    if_neg (show ¬ (key = 0x94 ∨ key = 0x8E) by omega),
    if_neg (show ¬ key = 0x1B by omega),
    if_neg (show ¬ key = 0x9B by omega),
    if_neg (show ¬ key = 0x9C by omega),
    if_neg (show ¬ key = 0x9D by omega),
    if_neg (show ¬ key = 0x9E by omega),
    if_pos (show key > 0x1F ∧ key < 0x7F by omega)]

theorem handle_key_plain_delete (del : Nat) (e : Editor)
    (hdel : del = PS2_KEY_DELETE ∨ del = PS2_KEY_KP_DELETE) :
    handle_key_plain del e =
      if e.keybufptr ≠ 0 then
        (readXdata e.keybuffer ((e.keybufptr + 255) % 256) >>= fun letter =>
          ww_erase_letter letter e.printer.ww >>= fun w =>
            pure { e with
              keybufptr := (e.keybufptr + 255) % 256,
              printer := putchar BS (putchar SP (putchar BS
                { e.printer with ww := w, column := (e.printer.column + 255) % 256 })) })
      else pure e := by
  unfold handle_key_plain
  rw [if_pos (by rcases hdel with h | h <;> simp [h])]

theorem handle_key_plain_of (k : Kb) (key : Nat) (e : Editor) (hctrl : k.kb_ctrl = false)
    (halt : k.kb_alt = false) : handle_key k key e = handle_key_plain key e := by
  unfold handle_key kb_ctrl_pressed kb_alt_pressed
  rw [hctrl, halt]
  rfl

theorem handle_key_printable (k : Kb) (key : Nat) (e : Editor) (hctrl : k.kb_ctrl = false)
    (halt : k.kb_alt = false) (hg : e.printer.escape = 0) (h1 : 0x20 ≤ key) (h2 : key ≤ 0x7E)
    (hlen : e.keybuffer.length = 64) :
    ∃ e1, handle_key k key e = .ok e1 ∧
      e1.keybuffer = e.keybuffer.set (e.keybufptr &&& 0x3F) key ∧
      e1.keybufptr = (e.keybufptr + 1) % 256 ∧
      e1.printer.escape = 0 ∧
      e1.printer.column = (e.printer.column + 1) % 256 ∧
      e1.printer.ww.uSpacesPerChar = e.printer.ww.uSpacesPerChar ∧
      e1.printer.ww.uSpaceCount =
        (if (e.printer.ww.uSpaceCount + e.printer.ww.uSpacesPerChar) % 65536 > 1319 then 0
          else (e.printer.ww.uSpaceCount + e.printer.ww.uSpacesPerChar) % 65536) := by
  obtain ⟨w', hw, _, hcnt, hsp, _⟩ :=
    ww_print_letter_spec key e.printer.attrib e.printer.ww h1 (by omega)
  obtain ⟨p', hp', hww, _, hcol, hesc, _⟩ := print_character_ground_letter key e.printer w' h1 hw
  have hp : print_character key e.printer = .ok p' := by
    unfold print_character
    rw [if_pos hg]
    exact hp'
  refine ⟨{ e with keybuffer := e.keybuffer.set (e.keybufptr &&& 0x3F) key,
                   keybufptr := (e.keybufptr + 1) % 256, printer := p' }, ?_, rfl, rfl,
    by show p'.escape = 0; rw [hesc, hg], hcol, by show p'.ww.uSpacesPerChar = _; rw [hww, hsp],
    by show p'.ww.uSpaceCount = _; rw [hww, hcnt]⟩
  rw [handle_key_plain_of k key e hctrl halt, handle_key_plain_printable key e h1 h2,
    keybuffer_put_spec key e hlen]
  show editor_print key _ = _
  unfold editor_print
  show (print_character key e.printer >>= _) = _
  rw [hp]
  rfl

theorem handle_keys_printable (k : Kb) (hctrl : k.kb_ctrl = false) (halt : k.kb_alt = false)
    (keys : List Nat) :
    ∀ e : Editor, e.printer.escape = 0 → e.keybuffer.length = 64 → e.keybufptr < 256 →
      (∀ key ∈ keys, 0x20 ≤ key ∧ key ≤ 0x7E) →
      ∃ e1, handle_keys k keys e = .ok e1 ∧ e1.keybuffer.length = 64 ∧
        e1.printer.escape = 0 ∧ e1.keybufptr = (e.keybufptr + keys.length) % 256 := by
  induction keys with
  | nil =>
    intro e hg hlen hptr _
    exact ⟨e, rfl, hlen, hg, by rw [List.length_nil, Nat.add_zero, Nat.mod_eq_of_lt hptr]⟩
  | cons key keys ih =>
    intro e hg hlen hptr h
    obtain ⟨e1, h1, hb, hp, he, _⟩ := handle_key_printable k key e hctrl halt hg
      (h key (List.mem_cons_self key keys)).1 (h key (List.mem_cons_self key keys)).2 hlen
    obtain ⟨e2, h2, l2, g2, p2⟩ := ih e1 he (by rw [hb, List.length_set]; exact hlen)
      (by rw [hp]; exact Nat.mod_lt _ (by decide))
      (fun x hx => h x (List.mem_cons_of_mem key hx))
    refine ⟨e2, ?_, l2, g2, ?_⟩
    · show (handle_key k key e >>= fun q => handle_keys k keys q) = .ok e2
      rw [h1]
      exact h2
    · rw [p2, hp, List.length_cons]
      omega

theorem kb_decode_scancode_idle (ack : Bool) (s : Nat) (k : Kb) (hk : k.kb_state = 0) :
    kb_decode_scancode ack s k = kb_decode_idle ack s k := by
  unfold kb_decode_scancode
  rw [if_pos hk]

theorem uart1_receive_idle (x : Nat) (w : WW) (hx : x < 512)
    (hw : w.waitingForAcknowledge = false) :
    (uart1_receive [x] w).count = (if x = 0x121 then 1 else (w.count + 1) % 256) ∧
    (uart1_receive [x] w).waitingForAcknowledge = false ∧
    ((x ≠ 0 ∨ (if x = 0x121 then 1 else (w.count + 1) % 256) % 2 ≠ 0) →
      (uart1_receive [x] w).rx1_buf = w.rx1_buf.set (w.rx1_head &&& 7) x ∧
      (uart1_receive [x] w).rx1_head = (w.rx1_head + 1) % 256) ∧
    (¬ (x ≠ 0 ∨ (if x = 0x121 then 1 else (w.count + 1) % 256) % 2 ≠ 0) →
      (uart1_receive [x] w).rx1_buf = w.rx1_buf ∧
      (uart1_receive [x] w).rx1_head = w.rx1_head) := by
  have hstep := uart1_isr_word x w hx
  rw [if_neg (by simp [hw])] at hstep
  have hone : uart1_receive [x] w = uart1_isr false true (x % 256) (x / 256 % 2 = 1) w := rfl
  rw [hone, hstep]
  by_cases hP : x ≠ 0 ∨ (if x = 0x121 then 1 else (w.count + 1) % 256) % 2 ≠ 0
  · rw [if_pos hP]
    exact ⟨rfl, hw, fun _ => ⟨rfl, rfl⟩, fun h => absurd hP h⟩
  · rw [if_neg hP]
    exact ⟨rfl, hw, fun h => absurd h hP, fun _ => ⟨rfl, rfl⟩⟩

set_option maxRecDepth 100000 in
theorem shifted_of_letter :
    ∀ s, s < 128 → 0x60 < unshifted.getD s 0 ∧ unshifted.getD s 0 < 0x7B →
      shifted.getD s 0 = unshifted.getD s 0 - 0x20 := by
  decide

set_option maxRecDepth 100000 in
theorem printwheelChar_le_96 : ∀ x ∈ printwheelChar, x ≤ 96 := by decide

set_option maxRecDepth 100000 in
theorem printwheel_tables :
    ∀ c, c < 0x7F → 0x21 ≤ c → printwheelChar.getD (c - 0x20) 0 ≠ 0 →
      1 ≤ printwheelChar.getD (c - 0x20) 0 ∧ printwheelChar.getD (c - 0x20) 0 ≤ 96 ∧
      (c ≠ 0x27 → printwheel2ASCII.getD (printwheelChar.getD (c - 0x20) 0 - 1) 0 = c) := by
  decide

theorem parseWWwords_letter (u l x : Nat) (h1 : 1 ≤ x) (h2 : x ≤ 96) :
    parseWWwords u l [0x121, 0x003, x] {} =
      .ok { state := 0, echo := [printwheel2ASCII.getD (x - 1) 0] } := by
  have hr : readCode printwheel2ASCII ((x : Int) - 1) = .ok (printwheel2ASCII.getD (x - 1) 0) := by
    unfold readCode
    rw [if_pos (by rw [show printwheel2ASCII.length = 96 from rfl]; omega)]
    congr 2
    omega
  have s1 : parseWWdata u l 0x121 {} = .ok { state := 1 } := rfl
  have s2 : parseWWdata u l 0x003 { state := 1 } = .ok { state := 2 } := rfl
  have s3 : parseWWdata u l x { state := 2 } =
      .ok { state := 0, echo := [printwheel2ASCII.getD (x - 1) 0] } := by
    unfold parseWWdata
    rw [if_neg (by decide), if_neg (by decide), if_pos rfl, if_pos (by omega), hr]
    rfl
  simp only [parseWWwords, s1, s2, s3, bind, Except.bind, pure, Except.pure]

theorem print_character_count_le (c : Nat) (p : Printer) (hg : p.escape = 0)
    (hu : p.ww.uSpacesPerChar < 256) (hc : p.ww.uSpaceCount ≤ 1319)
    (h : c = CR ∨ c = LF ∨ (0x20 ≤ c ∧ c ≤ 0x7E)) :
    ∃ p', print_character c p = .ok p' ∧ p'.escape = 0 ∧ p'.ww.uSpacesPerChar < 256 ∧
      p'.ww.uSpaceCount ≤ 1319 := by
  have hp : print_character c p = print_character_ground c p := by
    unfold print_character
    rw [if_pos hg]
  rw [hp]
  rcases h with h | h | h
  · subst h
    rw [print_character_ground_CR]
    obtain ⟨f1, _, f3⟩ := ww_carriage_return_linefeed_frame p.switch1 p.ww
    refine ⟨_, rfl, hg, ?_, ?_⟩
    · show (if p.switch1 = false then ww_linefeed (ww_carriage_return p.ww)
        else ww_carriage_return p.ww).uSpacesPerChar < 256
      rw [f1]; exact hu
    · show (if p.switch1 = false then ww_linefeed (ww_carriage_return p.ww)
        else ww_carriage_return p.ww).uSpaceCount ≤ 1319
      rw [f3]; omega
  · subst h
    rw [print_character_ground_LF]
    obtain ⟨f1, _, f3⟩ := ww_linefeed_frame p.ww
    refine ⟨_, rfl, hg, ?_, ?_⟩
    · show (ww_linefeed p.ww).uSpacesPerChar < 256
      rw [f1]; exact hu
    · show (ww_linefeed p.ww).uSpaceCount ≤ 1319
      rw [f3]; exact hc
  · obtain ⟨w', hw, _, hcnt, hsp, _⟩ := ww_print_letter_spec c p.attrib p.ww h.1 (by omega)
    obtain ⟨p', hp', hww, _, _, hesc, _⟩ := print_character_ground_letter c p w' h.1 hw
    refine ⟨p', hp', by rw [hesc, hg], by rw [hww, hsp]; exact hu, ?_⟩
    rw [hww, hcnt]
    split
    · omega
    · omega

theorem print_string_count_le (cs : List Nat) :
    ∀ p : Printer, p.escape = 0 → p.ww.uSpacesPerChar < 256 → p.ww.uSpaceCount ≤ 1319 →
      (∀ c ∈ cs, c = CR ∨ c = LF ∨ (0x20 ≤ c ∧ c ≤ 0x7E)) →
      ∃ p', print_string cs p = .ok p' ∧ p'.escape = 0 ∧ p'.ww.uSpacesPerChar < 256 ∧
        p'.ww.uSpaceCount ≤ 1319 := by
  induction cs with
  | nil => intro p hg hu hc _; exact ⟨p, rfl, hg, hu, hc⟩
  | cons c cs ih =>
    intro p hg hu hc h
    obtain ⟨p1, h1, g1, u1, c1⟩ :=
      print_character_count_le c p hg hu hc (h c (List.mem_cons_self c cs))
    obtain ⟨p2, h2, g2, u2, c2⟩ :=
      ih p1 g1 u1 c1 (fun x hx => h x (List.mem_cons_of_mem c hx))
    refine ⟨p2, ?_, g2, u2, c2⟩
    show (print_character c p >>= fun q => print_string cs q) = .ok p2
    rw [h1]
    exact h2

theorem distance_words_mod (n : Nat) :
    256 * ((n >>> 8) &&& 0x07) + (n &&& 0xFF) = n % 2048 := by
  rw [Nat.shiftRight_eq_div_pow, show (0x07 : Nat) = 2 ^ 3 - 1 from rfl,
    show (0xFF : Nat) = 2 ^ 8 - 1 from rfl, Nat.and_pow_two_sub_one_eq_mod,
    Nat.and_pow_two_sub_one_eq_mod]
  omega

theorem kb_wait_reply_first (env : Nat → List Bool) (fuel : Nat) (s s1 : KbLink)
    (h1 : kb_isr_run (env 1) s = .ok s1) (hne : s1.kb_in ≠ s1.kb_out) :
    kb_wait_reply env (fuel + 1) 0 s = .ok (1, s1) := by
  unfold kb_wait_reply
  rw [if_neg (by decide), show (0 + 1) % 65536 = 1 from rfl, h1]
  simp only [bind, Except.bind, if_neg hne, pure, Except.pure]

/-! ## Claims -/

/-- C1: for a letter in 0x20..0x7E and an attribute whose bits 0-2 are clear,
`ww_print_letter` puts exactly the words 0x121, 0x003, `printwheelChar[letter-0x20]`,
`uSpacesPerChar` on the bus, followed by the four carriage-return words exactly when
the count with `uSpacesPerChar` added exceeds 1319; the count is increased by
`uSpacesPerChar` (as a 16-bit number) before that test. -/
theorem ww_print_letter_plain (letter attrib : Nat) (w : WW)
    (hlo : 0x20 ≤ letter) (hhi : letter ≤ 0x7E) (hattr : attrib &&& 0x07 = 0)
    (hn : w.uSpacesPerChar < 256) :
    ∃ w', ww_print_letter letter attrib w = .ok w' ∧
      w'.bus = w.bus
        ++ [0x121, 0x003, printwheelChar.getD (letter - 0x20) 0, w.uSpacesPerChar]
        ++ (if (w.uSpaceCount + w.uSpacesPerChar) % 65536 > 1319
              then [0x121, 0x006, (((w.uSpaceCount + w.uSpacesPerChar) % 65536) >>> 8) &&& 0x007,
                    ((w.uSpaceCount + w.uSpacesPerChar) % 65536) &&& 0xFF]
              else []) ∧
      w'.uSpaceCount = (if (w.uSpaceCount + w.uSpacesPerChar) % 65536 > 1319 then 0
                        else (w.uSpaceCount + w.uSpacesPerChar) % 65536) := by
  obtain ⟨w', hw, hbus, hcount, _, _⟩ :=
    ww_print_letter_spec letter attrib w hlo (by omega)
  refine ⟨w', hw, ?_, hcount⟩
  have h6 : ¬ ((attrib &&& 0x06 ≠ 0) ∧ (letter ≠ 0x20 ∨ attrib &&& 0x02 ≠ 0)) :=
    fun h => h.1 (and_six_of_and_seven attrib hattr)
  have h1 : ¬ (attrib &&& 0x01 ≠ 0) := fun h => h (and_one_of_and_seven attrib hattr)
  rw [hbus, if_neg h6, if_neg h1, wireWord_of_lt _ (by omega)]
  simp only [List.append_nil, List.append_assoc, List.cons_append, List.nil_append]

/-- Witness of C1: the letter `a` printed from the initial state. -/
theorem ww_print_letter_plain_witness :
    ∃ w', ww_print_letter 0x61 0 {} = .ok w' ∧
      w'.bus = ({} : WW).bus
        ++ [0x121, 0x003, printwheelChar.getD (0x61 - 0x20) 0, ({} : WW).uSpacesPerChar]
        ++ (if (({} : WW).uSpaceCount + ({} : WW).uSpacesPerChar) % 65536 > 1319
              then [0x121, 0x006,
                    (((({} : WW).uSpaceCount + ({} : WW).uSpacesPerChar) % 65536) >>> 8) &&& 0x007,
                    ((({} : WW).uSpaceCount + ({} : WW).uSpacesPerChar) % 65536) &&& 0xFF]
              else []) ∧
      w'.uSpaceCount = (if (({} : WW).uSpaceCount + ({} : WW).uSpacesPerChar) % 65536 > 1319 then 0
                        else (({} : WW).uSpaceCount + ({} : WW).uSpacesPerChar) % 65536) :=
  ww_print_letter_plain 0x61 0 {} (by decide) (by decide) (by decide) (by decide)

/-- C5: `ww_carriage_return` puts exactly 0x121, 0x006, `(uSpaceCount>>8)&0x07`,
`uSpaceCount&0xFF` on the bus; bit 7 of the third word is clear; and for a count below
2048 the number `256*word3 + word4` is the count. -/
theorem ww_carriage_return_words (w : WW) :
    (ww_carriage_return w).bus
        = w.bus ++ [0x121, 0x006, (w.uSpaceCount >>> 8) &&& 0x07, w.uSpaceCount &&& 0xFF] ∧
      ((w.uSpaceCount >>> 8) &&& 0x07) &&& 0x80 = 0 ∧
      (w.uSpaceCount < 2048 →
        256 * ((w.uSpaceCount >>> 8) &&& 0x07) + (w.uSpaceCount &&& 0xFF) = w.uSpaceCount) := by
  refine ⟨ww_carriage_return_bus w, ?_, ?_⟩
  · have h : (w.uSpaceCount >>> 8) &&& 0x07 < 8 := by
      rw [show (0x07 : Nat) = 2 ^ 3 - 1 from rfl, Nat.and_pow_two_sub_one_eq_mod]
      omega
    generalize (w.uSpaceCount >>> 8) &&& 0x07 = y at h
    interval_cases y <;> rfl
  · intro h
    rw [Nat.shiftRight_eq_div_pow, show (0x07 : Nat) = 2 ^ 3 - 1 from rfl,
      Nat.and_pow_two_sub_one_eq_mod, show (0xFF : Nat) = 2 ^ 8 - 1 from rfl,
      Nat.and_pow_two_sub_one_eq_mod]
    omega

/-- Witness of C5: the return from count 1320, sent as the words 5 and 40. -/
theorem ww_carriage_return_words_witness :
    (ww_carriage_return { uSpaceCount := 1320 }).bus = [0x121, 0x006, 5, 40] ∧
      256 * ((({ uSpaceCount := 1320 } : WW).uSpaceCount >>> 8) &&& 0x07)
        + (({ uSpaceCount := 1320 } : WW).uSpaceCount &&& 0xFF)
        = ({ uSpaceCount := 1320 } : WW).uSpaceCount :=
  ⟨(ww_carriage_return_words { uSpaceCount := 1320 }).1,
   (ww_carriage_return_words { uSpaceCount := 1320 }).2.2 (by decide)⟩

/-- C3: for a call of `ww_print_letter` with prior count `n` and
`n + uSpacesPerChar < 65536`: the letter's own words hold no carriage-return
command; if `n + uSpacesPerChar > 1319` the bus receives the letter's own words
directly followed by one carriage-return command 0x121, 0x006, hi, lo encoding
`n + uSpacesPerChar`, that command is the only one, and the count ends at 0;
otherwise the bus receives the letter's own words only and the count ends at
`n + uSpacesPerChar`. The last word of the bold path is `uSpacesPerChar - 1`
as a nine-bit bus word. -/
theorem ww_print_letter_wrap (letter attrib : Nat) (w : WW)
    (hlo : 0x20 ≤ letter) (hhi : letter ≤ 0xBF) (hn : w.uSpacesPerChar < 256)
    (hsum : w.uSpaceCount + w.uSpacesPerChar < 65536) :
    ∃ w' own, ww_print_letter letter attrib w = .ok w' ∧
      own = [0x121, 0x003, printwheelChar.getD (letter - 0x20) 0]
        ++ (if (attrib &&& 0x06 ≠ 0) ∧ (letter ≠ 0x20 ∨ attrib &&& 0x02 ≠ 0)
              then [0x000, 0x121, 0x003, 0x04F] else [])
        ++ (if attrib &&& 0x01 ≠ 0
              then [0x001, 0x121, 0x003, printwheelChar.getD (letter - 0x20) 0,
                    (w.uSpacesPerChar + 511) % 512]
              else [w.uSpacesPerChar]) ∧
      countCmd 0x006 own = 0 ∧
      (w.uSpaceCount + w.uSpacesPerChar > 1319 →
        w'.bus = w.bus ++ own
          ++ [0x121, 0x006, ((w.uSpaceCount + w.uSpacesPerChar) >>> 8) &&& 0x007,
              (w.uSpaceCount + w.uSpacesPerChar) &&& 0xFF] ∧
        countCmd 0x006 (own
          ++ [0x121, 0x006, ((w.uSpaceCount + w.uSpacesPerChar) >>> 8) &&& 0x007,
              (w.uSpaceCount + w.uSpacesPerChar) &&& 0xFF]) = 1 ∧
        w'.uSpaceCount = 0) ∧
      (w.uSpaceCount + w.uSpacesPerChar ≤ 1319 →
        w'.bus = w.bus ++ own ∧ w'.uSpaceCount = w.uSpaceCount + w.uSpacesPerChar) := by
  obtain ⟨w', hw, hbus, hcount, _, _⟩ := ww_print_letter_spec letter attrib w hlo hhi
  rw [Nat.mod_eq_of_lt hsum] at hbus hcount
  rw [wireWord_pred _ hn, wireWord_of_lt _ (by omega)] at hbus
  have hW : printwheelChar.getD (letter - 0x20) 0 ≠ 0x121 :=
    Nat.ne_of_lt (lt_trans (printwheelChar_getD_lt _) (by decide))
  have hhi7 : ((w.uSpaceCount + w.uSpacesPerChar) >>> 8) &&& 0x007 ≠ 0x121 :=
    Nat.ne_of_lt (lt_of_le_of_lt Nat.and_le_right (by decide))
  refine ⟨w', _, hw, rfl, ?_, ?_, ?_⟩
  · by_cases hB : attrib &&& 0x01 ≠ 0
    · have h := countCmd_own (printwheelChar.getD (letter - 0x20) 0)
        ((w.uSpacesPerChar + 511) % 512)
        ((attrib &&& 0x06 ≠ 0) ∧ (letter ≠ 0x20 ∨ attrib &&& 0x02 ≠ 0)) (attrib &&& 0x01 ≠ 0)
        [] hW
      rw [List.append_nil, if_pos hB] at h
      rw [if_pos hB, h]
      rfl
    · have h := countCmd_own (printwheelChar.getD (letter - 0x20) 0) w.uSpacesPerChar
        ((attrib &&& 0x06 ≠ 0) ∧ (letter ≠ 0x20 ∨ attrib &&& 0x02 ≠ 0)) (attrib &&& 0x01 ≠ 0)
        [] hW
      rw [List.append_nil, if_neg hB] at h
      rw [if_neg hB, h]
      rfl
  · intro hwrap
    rw [if_pos hwrap] at hbus hcount
    refine ⟨by simp only [List.append_assoc] at hbus ⊢; exact hbus, ?_, hcount⟩
    by_cases hB : attrib &&& 0x01 ≠ 0
    · have h := countCmd_own (printwheelChar.getD (letter - 0x20) 0)
        ((w.uSpacesPerChar + 511) % 512)
        ((attrib &&& 0x06 ≠ 0) ∧ (letter ≠ 0x20 ∨ attrib &&& 0x02 ≠ 0)) (attrib &&& 0x01 ≠ 0)
        [0x121, 0x006, ((w.uSpaceCount + w.uSpacesPerChar) >>> 8) &&& 0x007,
          (w.uSpaceCount + w.uSpacesPerChar) &&& 0xFF] hW
      rw [if_pos hB] at h
      rw [if_pos hB, h]
      have hx : (w.uSpacesPerChar + 511) % 512 ≠ 0x121 := by omega
      simp [countCmd, hx, hhi7]
    · have h := countCmd_own (printwheelChar.getD (letter - 0x20) 0) w.uSpacesPerChar
        ((attrib &&& 0x06 ≠ 0) ∧ (letter ≠ 0x20 ∨ attrib &&& 0x02 ≠ 0)) (attrib &&& 0x01 ≠ 0)
        [0x121, 0x006, ((w.uSpaceCount + w.uSpacesPerChar) >>> 8) &&& 0x007,
          (w.uSpaceCount + w.uSpacesPerChar) &&& 0xFF] hW
      rw [if_neg hB] at h
      rw [if_neg hB, h]
      have hx : w.uSpacesPerChar ≠ 0x121 := by omega
      simp [countCmd, hx, hhi7]
  · intro hno
    have hno' : ¬ (w.uSpaceCount + w.uSpacesPerChar > 1319) := by omega
    rw [if_neg hno', List.append_nil] at hbus
    rw [if_neg hno'] at hcount
    exact ⟨by simp only [List.append_assoc] at hbus ⊢; exact hbus, hcount⟩

/-- Witness of C3: the letter `a` printed at count 1315 wraps, with the return
encoded as 5, 45 (1325 micro-spaces). -/
theorem ww_print_letter_wrap_witness :
    ∃ w', ww_print_letter 0x61 0 { uSpaceCount := 1315 } = .ok w' ∧
      w'.bus = [0x121, 0x003, 0x01, 10, 0x121, 0x006, 5, 45] ∧ w'.uSpaceCount = 0 := by
  obtain ⟨w', own, h, hown, _, hwrap, _⟩ :=
    ww_print_letter_wrap 0x61 0 { uSpaceCount := 1315 } (by decide) (by decide) (by decide)
      (by decide)
  obtain ⟨hbus, _, hcount⟩ := hwrap (by decide)
  subst hown
  exact ⟨w', h, hbus.trans rfl, hcount⟩

/-- C4: in ground state `print_character(CR)` returns normally and leaves
`uSpaceCount` 0, the attribute mask 0, the column 1 and the parser in ground
state, whatever the count, attribute and column were before. -/
theorem print_character_CR (p : Printer) (hg : p.escape = 0) :
    ∃ p', print_character CR p = .ok p' ∧
      p'.ww.uSpaceCount = 0 ∧ p'.attrib = 0 ∧ p'.column = 1 ∧ p'.escape = 0 := by
  unfold print_character
  rw [if_pos hg]
  unfold print_character_ground
  rw [if_neg (by decide), if_neg (by decide), if_neg (by decide), if_neg (by decide),
    if_neg (by decide), if_neg (by decide), if_pos rfl]
  refine ⟨_, rfl, ?_⟩
  by_cases hs : p.switch1 = false
  · simp only [if_pos hs]
    exact ⟨rfl, rfl, rfl, hg⟩
  · simp only [if_neg hs]
    exact ⟨rfl, rfl, rfl, hg⟩

/-- Witness of C4: carriage return from count 700, bold attribute, column 71. -/
theorem print_character_CR_witness :
    ∃ p', print_character CR { ww := { uSpaceCount := 700 }, attrib := 1, column := 71 } = .ok p' ∧
      p'.ww.uSpaceCount = 0 ∧ p'.attrib = 0 ∧ p'.column = 1 ∧ p'.escape = 0 :=
  print_character_CR { ww := { uSpaceCount := 700 }, attrib := 1, column := 71 } rfl

/-- C2: from ground state with attribute 0, the bytes ESC, `O` and a printable
byte `c` in 0x20..0x7E print `c` on the bold path: the words put on the bus are
0x121, 0x003, W, 0x001, 0x121, 0x003, W, `uSpacesPerChar-1` with
W = `printwheelChar[c-0x20]`, after which only the automatic carriage return can
follow (when the count exceeds 1319); this is not what the four-word path
0x121, 0x003, W, `uSpacesPerChar` puts there. -/
theorem print_string_ESC_O_bold (c : Nat) (p : Printer)
    (hg : p.escape = 0) (ha : p.attrib = 0) (hlo : 0x20 ≤ c) (hhi : c ≤ 0x7E)
    (hn1 : 1 ≤ p.ww.uSpacesPerChar) (hn2 : p.ww.uSpacesPerChar < 256) :
    ∃ p', print_string [ESC, 0x4F, c] p = .ok p' ∧
      p'.ww.bus = p.ww.bus
        ++ [0x121, 0x003, printwheelChar.getD (c - 0x20) 0, 0x001,
            0x121, 0x003, printwheelChar.getD (c - 0x20) 0, p.ww.uSpacesPerChar - 1]
        ++ (if (p.ww.uSpaceCount + p.ww.uSpacesPerChar) % 65536 > 1319
              then [0x121, 0x006,
                    (((p.ww.uSpaceCount + p.ww.uSpacesPerChar) % 65536) >>> 8) &&& 0x007,
                    ((p.ww.uSpaceCount + p.ww.uSpacesPerChar) % 65536) &&& 0xFF]
              else []) ∧
      p'.ww.bus ≠ p.ww.bus
        ++ [0x121, 0x003, printwheelChar.getD (c - 0x20) 0, p.ww.uSpacesPerChar]
        ++ (if (p.ww.uSpaceCount + p.ww.uSpacesPerChar) % 65536 > 1319
              then [0x121, 0x006,
                    (((p.ww.uSpaceCount + p.ww.uSpacesPerChar) % 65536) >>> 8) &&& 0x007,
                    ((p.ww.uSpaceCount + p.ww.uSpacesPerChar) % 65536) &&& 0xFF]
              else []) := by
  obtain ⟨w', hw, hbus, _, _, _⟩ := ww_print_letter_spec c 1 p.ww hlo (by omega)
  rw [if_neg (fun h => h.1 (by decide)), if_pos (by decide),
    wireWord_of_lt _ (by omega : (p.ww.uSpacesPerChar + 65535) % 65536 < 512),
    show (p.ww.uSpacesPerChar + 65535) % 65536 = p.ww.uSpacesPerChar - 1 by omega] at hbus
  have hattr : ({ ({ p with escape := 1 } : Printer) with
      attrib := ({ p with escape := 1 } : Printer).attrib ||| 0x01, escape := 0 } : Printer).attrib
      = 1 := by
    show p.attrib ||| 0x01 = 1
    rw [ha]
    rfl
  obtain ⟨p', hp, hww, _⟩ := print_character_ground_letter c
    ({ ({ p with escape := 1 } : Printer) with
      attrib := ({ p with escape := 1 } : Printer).attrib ||| 0x01, escape := 0 } : Printer)
    w' hlo (by rw [hattr]; exact hw)
  refine ⟨p', ?_, ?_, ?_⟩
  · simp only [print_string, bind, Except.bind, print_character_ESC p hg,
      print_character_ESC_O { p with escape := 1 } rfl]
    have h3 : print_character c ({ ({ p with escape := 1 } : Printer) with
        attrib := ({ p with escape := 1 } : Printer).attrib ||| 0x01, escape := 0 } : Printer)
        = .ok p' := by
      unfold print_character
      rw [if_pos rfl]
      exact hp
    rw [h3]
    rfl
  · rw [hww, hbus]
    simp only [List.append_nil, List.append_assoc, List.cons_append, List.nil_append]
  · rw [hww, hbus]
    intro h
    have hl := congrArg List.length h
    simp only [List.length_append, List.length_cons, List.length_nil] at hl
    omega

/-- Witness of C2: ESC, `O`, `a` from the initial state. -/
theorem print_string_ESC_O_bold_witness :
    ∃ p', print_string [ESC, 0x4F, 0x61] {} = .ok p' ∧
      p'.ww.bus = [0x121, 0x003, 0x01, 0x001, 0x121, 0x003, 0x01, 9] := by
  obtain ⟨p', h, hbus, _⟩ := print_string_ESC_O_bold 0x61 {} rfl rfl (by decide) (by decide)
    (by decide) (by decide)
  exact ⟨p', h, hbus.trans rfl⟩

/-- C6: the printwheel table is invertible on the characters present on the
wheel: two distinct characters of 0x20..0xBF with non-zero entries have
different codes, and for such a character the wheel code that `ww_print_letter`
puts on the bus (the third word) is found in the table at the position of that
same character. -/
theorem printwheelChar_invertible :
    (∀ c1 c2 : Nat, 0x20 ≤ c1 → c1 ≤ 0xBF → 0x20 ≤ c2 → c2 ≤ 0xBF →
      printwheelChar.getD (c1 - 0x20) 0 ≠ 0 → printwheelChar.getD (c2 - 0x20) 0 ≠ 0 →
      c1 ≠ c2 → printwheelChar.getD (c1 - 0x20) 0 ≠ printwheelChar.getD (c2 - 0x20) 0) ∧
    (∀ (c attrib : Nat) (w : WW), 0x20 ≤ c → c ≤ 0xBF →
      printwheelChar.getD (c - 0x20) 0 ≠ 0 →
      ∃ w', ww_print_letter c attrib w = .ok w' ∧
        printwheelChar.indexOf (w'.bus.getD (w.bus.length + 2) 0) + 0x20 = c) := by
  constructor
  · intro c1 c2 h1 h1' h2 h2' hz1 hz2 hne heq
    have e1 := printwheelChar_indexOf (c1 - 0x20) (by omega) hz1
    have e2 := printwheelChar_indexOf (c2 - 0x20) (by omega) hz2
    rw [heq, e2] at e1
    omega
  · intro c attrib w h1 h2 hz
    obtain ⟨w', rest, hw, hbus⟩ := ww_print_letter_head c attrib w h1 h2
    refine ⟨w', hw, ?_⟩
    have hget : w'.bus.getD (w.bus.length + 2) 0 = printwheelChar.getD (c - 0x20) 0 := by
      rw [hbus, List.append_assoc, List.getD_eq_getElem?_getD,
        List.getElem?_append_right (by omega)]
      simp
    rw [hget, printwheelChar_indexOf (c - 0x20) (by omega) hz]
    omega

/-- Witness of C6: `a` and `b` are on the wheel with different codes, and the
code emitted for `a` is found at the position of `a`. -/
theorem printwheelChar_invertible_witness :
    printwheelChar.getD (0x61 - 0x20) 0 ≠ printwheelChar.getD (0x62 - 0x20) 0 ∧
    ∃ w', ww_print_letter 0x61 0 {} = .ok w' ∧
      printwheelChar.indexOf (w'.bus.getD (({} : WW).bus.length + 2) 0) + 0x20 = 0x61 :=
  ⟨printwheelChar_invertible.1 0x61 0x62 (by decide) (by decide) (by decide) (by decide)
     (by decide) (by decide) (by decide),
   printwheelChar_invertible.2 0x61 0 {} (by decide) (by decide) (by decide)⟩

set_option maxRecDepth 100000 in
/-- C7, counterexample: `<` (0x3C) has the table entry 0x00, and both
`ww_print_letter` and `print_character` in ground state send a print command
0x121, 0x003 for it. -/
theorem absent_character_sent :
    printwheelChar.getD (0x3C - 0x20) 0 = 0 ∧
    (∃ w', ww_print_letter 0x3C 0 {} = .ok w' ∧
      w'.bus = [0x121, 0x003, 0x000, 0x00A] ∧ countCmd 0x003 w'.bus = 1) ∧
    (∃ p', print_character 0x3C {} = .ok p' ∧
      p'.ww.bus = [0x121, 0x003, 0x000, 0x00A] ∧ countCmd 0x003 p'.ww.bus = 1) :=
  ⟨rfl,
   ⟨{ uSpaceCount := 10, waitingForAcknowledge := true, bus := [0x121, 0x003, 0x000, 0x00A] },
     rfl, rfl, rfl⟩,
   ⟨{ ww := { uSpaceCount := 10, waitingForAcknowledge := true,
              bus := [0x121, 0x003, 0x000, 0x00A] },
      column := 2, console := [.char 0x3C] }, rfl, rfl, rfl⟩⟩

/-- C7, amended: for a character of 0x20..0xBF whose table entry is 0x00,
`ww_print_letter`, and `print_character` in ground state, still send the print
command, with wheel code 0: the words put on the bus begin 0x121, 0x003, 0x000. -/
theorem absent_character_blank (letter : Nat) (hlo : 0x20 ≤ letter) (hhi : letter ≤ 0xBF)
    (hz : printwheelChar.getD (letter - 0x20) 0 = 0) :
    (∀ (attrib : Nat) (w : WW), ∃ w' rest, ww_print_letter letter attrib w = .ok w' ∧
      w'.bus = w.bus ++ [0x121, 0x003, 0x000] ++ rest) ∧
    (∀ p : Printer, p.escape = 0 → ∃ p' rest, print_character letter p = .ok p' ∧
      p'.ww.bus = p.ww.bus ++ [0x121, 0x003, 0x000] ++ rest) := by
  constructor
  · intro attrib w
    obtain ⟨w', rest, hw, hbus⟩ := ww_print_letter_head letter attrib w hlo hhi
    rw [hz] at hbus
    exact ⟨w', rest, hw, hbus⟩
  · intro p hg
    obtain ⟨w', rest, hw, hbus⟩ := ww_print_letter_head letter p.attrib p.ww hlo hhi
    rw [hz] at hbus
    obtain ⟨p', hp, hww, _⟩ := print_character_ground_letter letter p w' hlo hw
    refine ⟨p', rest, ?_, by rw [hww]; exact hbus⟩
    unfold print_character
    rw [if_pos hg]
    exact hp

/-- Witness of C7, amended: the character `<`. -/
theorem absent_character_blank_witness :
    ∃ w' rest, ww_print_letter 0x3C 0 {} = .ok w' ∧
      w'.bus = ({} : WW).bus ++ [0x121, 0x003, 0x000] ++ rest :=
  (absent_character_blank 0x3C (by decide) (by decide) rfl).1 0 {}

/-- C8, counterexample: in idle state with no modifier and Caps Lock off the
scancode 0x05 (no prefix byte) decodes to `PS2_KEY_F1` (0xA0), while
`unshifted[0x05]` is 0. -/
theorem kb_decode_F1_not_table :
    kb_decode_scancode false 0x05 {} = .ok (0xA0, {}) ∧ unshifted.getD 0x05 0 = 0 :=
  ⟨rfl, rfl⟩

/-- C8, amended: in idle state with Caps Lock off, for every scancode below 0x80
other than the function-key codes 0x01, 0x03-0x07, 0x09-0x0C, 0x78 and the keypad
codes 0x69, 0x6B, 0x6C, 0x70-0x75, 0x79-0x7D, `kb_decode_scancode` returns
exactly `unshifted[scancode]` when Shift is not latched and `shifted[scancode]`
when it is. -/
theorem kb_decode_idle_tables (ack : Bool) (scancode : Nat) (k : Kb)
    (hidle : k.kb_state = 0) (hcaps : k.kb_leds &&& CAPS_LOCK = 0) (hsc : scancode < 0x80)
    (hex : scancode ∉ [0x01, 0x03, 0x04, 0x05, 0x06, 0x07, 0x09, 0x0A, 0x0B, 0x0C, 0x78,
      0x69, 0x6B, 0x6C, 0x70, 0x71, 0x72, 0x73, 0x74, 0x75, 0x79, 0x7A, 0x7B, 0x7C, 0x7D]) :
    ∃ k', kb_decode_scancode ack scancode k
      = .ok ((if k.kb_shift then shifted else unshifted).getD scancode 0, k') := by
  unfold kb_decode_scancode
  rw [if_pos hidle]
  by_cases hmem : scancode ∈ idleCaseLabels
  swap
  · exact ⟨k, kb_decode_idle_table ack scancode k hmem hsc hcaps⟩
  obtain ⟨c, a, s, st, l, t⟩ := k
  simp only [idleCaseLabels, List.mem_cons, List.mem_singleton, List.mem_nil_iff,
    or_false] at hmem
  rcases hmem with rfl | rfl | rfl | rfl | rfl | rfl | rfl | rfl | rfl | rfl | rfl | rfl | rfl | rfl | rfl | rfl | rfl | rfl | rfl | rfl | rfl | rfl | rfl | rfl | rfl | rfl | rfl | rfl | rfl | rfl | rfl | rfl | rfl | rfl | rfl | rfl | rfl | rfl | rfl | rfl | rfl
  · omega
  · omega
  · omega
  · exact absurd hex (by decide)
  · exact absurd hex (by decide)
  · exact absurd hex (by decide)
  · exact absurd hex (by decide)
  · exact absurd hex (by decide)
  · exact absurd hex (by decide)
  · exact absurd hex (by decide)
  · exact absurd hex (by decide)
  · exact absurd hex (by decide)
  · exact absurd hex (by decide)
  · cases s <;> exact ⟨_, rfl⟩
  · cases s <;> exact ⟨_, rfl⟩
  · cases s <;> exact ⟨_, rfl⟩
  · cases s <;> exact ⟨_, rfl⟩
  · cases s <;> exact ⟨_, rfl⟩
  · cases s <;> exact ⟨_, rfl⟩
  · cases s <;> exact ⟨_, rfl⟩
  · cases s <;> exact ⟨_, rfl⟩
  · cases s <;> exact ⟨_, rfl⟩
  · exact absurd hex (by decide)
  · exact absurd hex (by decide)
  · exact absurd hex (by decide)
  · exact absurd hex (by decide)
  · exact absurd hex (by decide)
  · exact absurd hex (by decide)
  · exact absurd hex (by decide)
  · exact absurd hex (by decide)
  · exact absurd hex (by decide)
  · cases s <;> exact ⟨_, rfl⟩
  · cases s <;> exact ⟨_, rfl⟩
  · exact absurd hex (by decide)
  · exact absurd hex (by decide)
  · exact absurd hex (by decide)
  · exact absurd hex (by decide)
  · exact absurd hex (by decide)
  · exact absurd hex (by decide)
  · cases s <;> exact ⟨_, rfl⟩
  · omega

/-- Witness of C8, amended: scancode 0x1C decodes to `a` (0x61), and to `A`
(0x41) with Shift latched. -/
theorem kb_decode_idle_tables_witness :
    (∃ k', kb_decode_scancode false 0x1C {} = .ok (0x61, k')) ∧
    (∃ k', kb_decode_scancode false 0x1C { kb_shift := true } = .ok (0x41, k')) := by
  obtain ⟨k1, h1⟩ := kb_decode_idle_tables false 0x1C {} rfl rfl (by decide) (by decide)
  obtain ⟨k2, h2⟩ :=
    kb_decode_idle_tables false 0x1C { kb_shift := true } rfl rfl (by decide) (by decide)
  exact ⟨⟨k1, h1⟩, ⟨k2, h2⟩⟩

/-- C9: from idle state the bytes 0xE0, 0x12, 0xE0, 0x7C return 0, 0, 0 and
`PS2_KEY_PRTSCR` (0x81), and leave the decoder as it was: idle, with the Ctrl,
Alt and Shift latches and the lock bits unchanged. -/
theorem kb_decode_print_screen (ack : Bool) (k : Kb) (hidle : k.kb_state = 0) :
    kb_decode_all ack [0xE0, 0x12, 0xE0, 0x7C] k = .ok ([0, 0, 0, 0x81], k) ∧
      PS2_KEY_PRTSCR = 0x81 := by
  obtain ⟨c, a, s, st, l, t⟩ := k
  simp only at hidle
  subst hidle
  exact ⟨rfl, rfl⟩

/-- Witness of C9: the sequence with Shift latched and Num Lock on. -/
theorem kb_decode_print_screen_witness :
    kb_decode_all false [0xE0, 0x12, 0xE0, 0x7C] { kb_shift := true, kb_leds := 2 }
      = .ok ([0, 0, 0, 0x81], { kb_shift := true, kb_leds := 2 }) :=
  (kb_decode_print_screen false { kb_shift := true, kb_leds := 2 } rfl).1

/-- C10, counterexample: from the initial state the bytes 0xE1, 0x14, 0x77,
0xE1, 0xF0, 0x14, 0xE0, 0x77 return 0 eight times. State 11 tests for 0xF0, so
the seventh byte 0xE0 puts the decoder back in idle state and the eighth byte
0x77 is decoded as the Num Lock key: the Num Lock bit is toggled and the LED
command 0xED is sent. -/
theorem pause_bytes_with_E0_not_matched :
    kb_decode_all false [0xE1, 0x14, 0x77, 0xE1, 0xF0, 0x14, 0xE0, 0x77] {}
      = .ok ([0, 0, 0, 0, 0, 0, 0, 0], { kb_leds := 2, sendCalls := [0xED] }) :=
  rfl

/-- C10, amended: from idle state the bytes 0xE1, 0x14, 0x77, 0xE1, 0xF0, 0x14,
0xF0, 0x77 (the make sequence of the Pause key, seventh byte 0xF0) return 0
seven times and `PS2_KEY_PAUSE` (0x82) for the eighth, and leave the decoder as
it was: idle, with the Ctrl, Alt and Shift latches, the lock bits and the
commands sent unchanged. With any other seventh byte the first seven bytes
return 0 and leave the decoder idle, so the eighth byte is decoded as a key of
its own. -/
theorem kb_decode_pause_key (ack : Bool) (k : Kb) (hidle : k.kb_state = 0) :
    kb_decode_all ack [0xE1, 0x14, 0x77, 0xE1, 0xF0, 0x14, 0xF0, 0x77] k
      = .ok ([0, 0, 0, 0, 0, 0, 0, 0x82], k) ∧
    PS2_KEY_PAUSE = 0x82 ∧
    (∀ x, x ≠ 0xF0 →
      kb_decode_all ack [0xE1, 0x14, 0x77, 0xE1, 0xF0, 0x14, x] k
        = .ok ([0, 0, 0, 0, 0, 0, 0], k)) := by
  obtain ⟨c, a, s, st, l, t⟩ := k
  simp only at hidle
  subst hidle
  refine ⟨rfl, rfl, fun x hx => ?_⟩
  have h7 : kb_decode_scancode ack x ⟨c, a, s, 11, l, t⟩ = .ok (0, ⟨c, a, s, 0, l, t⟩) := by
    simp [kb_decode_scancode, hx, pure, Except.pure]
  have e1 : kb_decode_scancode ack 0xE1 ⟨c, a, s, 0, l, t⟩ = .ok (0, ⟨c, a, s, 6, l, t⟩) := rfl
  have e2 : kb_decode_scancode ack 0x14 ⟨c, a, s, 6, l, t⟩ = .ok (0, ⟨c, a, s, 7, l, t⟩) := rfl
  have e3 : kb_decode_scancode ack 0x77 ⟨c, a, s, 7, l, t⟩ = .ok (0, ⟨c, a, s, 8, l, t⟩) := rfl
  have e4 : kb_decode_scancode ack 0xE1 ⟨c, a, s, 8, l, t⟩ = .ok (0, ⟨c, a, s, 9, l, t⟩) := rfl
  have e5 : kb_decode_scancode ack 0xF0 ⟨c, a, s, 9, l, t⟩ = .ok (0, ⟨c, a, s, 10, l, t⟩) := rfl
  have e6 : kb_decode_scancode ack 0x14 ⟨c, a, s, 10, l, t⟩ = .ok (0, ⟨c, a, s, 11, l, t⟩) := rfl
  simp only [kb_decode_all, e1, e2, e3, e4, e5, e6, h7, bind, Except.bind, pure, Except.pure]

/-- C10, instance: the Pause sequence with Shift latched and Num Lock on; and
the seventh byte 0xE0, after which the decoder is idle with nothing returned. -/
theorem kb_decode_pause_key_witness :
    kb_decode_all false [0xE1, 0x14, 0x77, 0xE1, 0xF0, 0x14, 0xF0, 0x77]
        { kb_shift := true, kb_leds := 2 }
      = .ok ([0, 0, 0, 0, 0, 0, 0, 0x82], { kb_shift := true, kb_leds := 2 }) ∧
    kb_decode_all false [0xE1, 0x14, 0x77, 0xE1, 0xF0, 0x14, 0xE0]
        { kb_shift := true, kb_leds := 2 }
      = .ok ([0, 0, 0, 0, 0, 0, 0], { kb_shift := true, kb_leds := 2 }) :=
  ⟨(kb_decode_pause_key false { kb_shift := true, kb_leds := 2 } rfl).1,
   (kb_decode_pause_key false { kb_shift := true, kb_leds := 2 } rfl).2.2 0xE0 (by decide)⟩

/-- C11: from rest (bit count 0, parity flag clear), the eleven samples start bit
0, the eight bits of a byte `b` least significant first, a parity bit `p` that
makes the number of 1s among data and parity odd, and a stop bit 1 make `kb_isr`
store `b` at `kb_buf[kb_in]`, advance `kb_in` by one modulo 16, leave `kb_out`
unchanged and return the bit count to 0. -/
theorem kb_isr_frame_stored (b : Nat) (p : Bool) (s : KbLink) (hb : b < 256)
    (hp : (bitsLSB 8 b ++ [p]).count true % 2 = 1)
    (h0 : s.kb_bitcount = 0) (hpar : s.kb_parity = false) (hr : s.recdbits < 256)
    (hin : s.kb_in < s.kb_buf.length) :
    ∃ s', kb_isr_run ([false] ++ bitsLSB 8 b ++ [p, true]) s = .ok s' ∧
      s'.kb_buf = s.kb_buf.set s.kb_in b ∧
      s'.kb_in = (s.kb_in + 1) % 16 ∧
      s'.kb_out = s.kb_out ∧
      s'.kb_bitcount = 0 := by
  refine ⟨_, kb_isr_frame (bitsLSB 8 b) p true s (bitsLSB_length 8 b) h0 hpar hr hin, ?_⟩
  rw [if_pos ⟨rfl, hp⟩]
  exact ⟨by simp only [foldl_bitsLSB _ b hr hb], rfl, rfl, h0⟩

/-- C11, instance: the frame of scancode 0x1C (three 1s among the data bits,
parity bit 0) received from the state left by `kb_init`. -/
theorem kb_isr_frame_stored_witness :
    ∃ s', kb_isr_run ([false] ++ bitsLSB 8 0x1C ++ [false, true]) {} = .ok s' ∧
      s'.kb_buf = (List.replicate 16 0).set 0 0x1C ∧
      s'.kb_in = 1 ∧ s'.kb_out = 0 ∧ s'.kb_bitcount = 0 :=
  kb_isr_frame_stored 0x1C false {} (by decide) (by decide) rfl rfl (by decide) (by decide)

/-- C12: a frame of eleven samples that begins with a low start bit and in which
the number of 1s among the eight data samples and the parity sample is even, or
the stop sample is 0, leaves the queue as it was and puts the receiver back at
rest (bit count 0, accumulator 0, parity flag 0); a valid frame that follows is
stored as from rest. -/
theorem kb_isr_frame_rejected (ds : List Bool) (p stop : Bool) (s : KbLink)
    (hlen : ds.length = 8)
    (hbad : (ds ++ [p]).count true % 2 = 0 ∨ stop = false)
    (h0 : s.kb_bitcount = 0) (hpar : s.kb_parity = false) (hr : s.recdbits < 256)
    (hin : s.kb_in < s.kb_buf.length) :
    ∃ s', kb_isr_run ([false] ++ ds ++ [p, stop]) s = .ok s' ∧
      s'.kb_buf = s.kb_buf ∧ s'.kb_in = s.kb_in ∧ s'.kb_out = s.kb_out ∧
      s'.kb_bitcount = 0 ∧ s'.recdbits = 0 ∧ s'.kb_parity = false ∧
      ∀ (b : Nat) (q : Bool), b < 256 → (bitsLSB 8 b ++ [q]).count true % 2 = 1 →
        ∃ s2, kb_isr_run ([false] ++ bitsLSB 8 b ++ [q, true]) s' = .ok s2 ∧
          s2.kb_buf = s.kb_buf.set s.kb_in b ∧
          s2.kb_in = (s.kb_in + 1) % 16 ∧
          s2.kb_out = s.kb_out ∧
          s2.kb_bitcount = 0 := by
  refine ⟨_, kb_isr_frame ds p stop s hlen h0 hpar hr hin, ?_⟩
  rw [if_neg (by rintro ⟨h1, h2⟩; rcases hbad with h | h <;> simp_all)]
  refine ⟨rfl, rfl, rfl, h0, rfl, hpar, ?_⟩
  intro b q hb hq
  refine ⟨_, kb_isr_frame (bitsLSB 8 b) q true { s with recdbits := 0 }
    (bitsLSB_length 8 b) h0 hpar (Nat.zero_lt_succ 255) hin, ?_⟩
  rw [if_pos ⟨rfl, hq⟩]
  exact ⟨by simp only [foldl_bitsLSB 0 b (Nat.zero_lt_succ 255) hb], rfl, rfl, h0⟩

/-- C12, instance: the data bits of 0x1C with parity bit 1 (four 1s in all)
are rejected from the state left by `kb_init`. -/
theorem kb_isr_frame_rejected_witness :
    ∃ s', kb_isr_run ([false] ++ bitsLSB 8 0x1C ++ [true, true]) {} = .ok s' ∧
      s'.kb_buf = List.replicate 16 0 ∧ s'.kb_in = 0 ∧ s'.kb_out = 0 ∧
      s'.kb_bitcount = 0 ∧ s'.recdbits = 0 ∧ s'.kb_parity = false := by
  obtain ⟨s', h, h1, h2, h3, h4, h5, h6, _⟩ :=
    kb_isr_frame_rejected (bitsLSB 8 0x1C) true true {} rfl (Or.inl (by decide)) rfl rfl
      (by decide) (by decide)
  exact ⟨s', h, h1, h2, h3, h4, h5, h6⟩

/-- C13: `kb_send_cmd` is called with the receiver at rest and the keyboard
clocks the command. With the queue empty at the call: if the queue stays empty
for the passes before pass `n` of the reply loop and holds a byte `c` at
`kb_out` after the edges of pass `n`, the call returns 1 when `c` is 0xFA and 0
otherwise; if the queue stays empty through pass 65535 the call returns 0; if
no edge is serviced at all, it returns 0 with `kb_in`, `kb_out`, the bit count,
the queue, the accumulator and the parity flag as before the call. Whatever the
queue held at the call: when the queue is not empty at the first test of the
loop, the byte at `kb_out` is taken as the reply. So a scancode `c` still queued
at the call is removed and compared with 0xFA, and the call returns 1 only when
that scancode is 0xFA, whatever the keyboard answers afterwards. -/
theorem kb_send_cmd_reply (kbcmd : Nat) (env : Nat → List Bool) (s : KbLink)
    (hb : s.kb_bitcount = 0) :
    (s.kb_in = s.kb_out →
      (∀ (n c : Nat) (s1 : KbLink), 1 ≤ n → n ≤ 65535 →
        (∀ i, i < n → ∃ t, kb_env_run env i (kb_send_frame kbcmd true s).2 = .ok t ∧
          t.kb_in = t.kb_out) →
        kb_env_run env n (kb_send_frame kbcmd true s).2 = .ok s1 →
        s1.kb_in ≠ s1.kb_out →
        readXdata s1.kb_buf s1.kb_out = .ok c →
        kb_send_cmd kbcmd true env s =
          .ok (if c = 0xFA then 1 else 0,
               { s1 with kb_out := ((s1.kb_out + 1) % 256) &&& 0x0F })) ∧
      ((∀ i, i ≤ 65535 → ∃ t, kb_env_run env i (kb_send_frame kbcmd true s).2 = .ok t ∧
          t.kb_in = t.kb_out) →
        ∃ t, kb_env_run env 65535 (kb_send_frame kbcmd true s).2 = .ok t ∧
          kb_send_cmd kbcmd true env s = .ok (0, t)) ∧
      ((∀ i, env i = []) →
        ∃ s', kb_send_cmd kbcmd true env s = .ok (0, s') ∧
          s'.kb_in = s.kb_in ∧ s'.kb_out = s.kb_out ∧ s'.kb_bitcount = s.kb_bitcount ∧
          s'.kb_buf = s.kb_buf ∧ s'.recdbits = s.recdbits ∧ s'.kb_parity = s.kb_parity)) ∧
    (∀ (c : Nat) (s1 : KbLink),
      kb_isr_run (env 1) (kb_send_frame kbcmd true s).2 = .ok s1 →
      s1.kb_in ≠ s1.kb_out →
      readXdata s1.kb_buf s1.kb_out = .ok c →
      kb_send_cmd kbcmd true env s =
        .ok (if c = 0xFA then 1 else 0,
             { s1 with kb_out := ((s1.kb_out + 1) % 256) &&& 0x0F })) ∧
    (s.kb_in ≠ s.kb_out → env 1 = [] →
      ∀ c, readXdata s.kb_buf s.kb_out = .ok c →
        ∃ s', kb_send_cmd kbcmd true env s = .ok (if c = 0xFA then 1 else 0, s') ∧
          s'.kb_out = ((s.kb_out + 1) % 256) &&& 0x0F ∧ s'.kb_in = s.kb_in ∧
          s'.kb_buf = s.kb_buf ∧ s'.kb_bitcount = s.kb_bitcount) := by
  have hfirst : ∀ (c : Nat) (s1 : KbLink),
      kb_isr_run (env 1) (kb_send_frame kbcmd true s).2 = .ok s1 →
      s1.kb_in ≠ s1.kb_out →
      readXdata s1.kb_buf s1.kb_out = .ok c →
      kb_send_cmd kbcmd true env s =
        .ok (if c = 0xFA then 1 else 0,
             { s1 with kb_out := ((s1.kb_out + 1) % 256) &&& 0x0F }) := by
    intro c s1 h1 hne hc
    rw [kb_send_cmd_unfold kbcmd env s hb,
      show kb_wait_reply env 65536 0 (kb_send_frame kbcmd true s).2 = .ok (1, s1) from
        kb_wait_reply_first env 65535 _ s1 h1 hne]
    simp only [Except.bind, if_neg (show ¬ (1 : Nat) = 0 by decide), kb_get_scancode, if_neg hne,
      hc, bind, pure, Except.pure]
  refine ⟨fun hq => ?_, hfirst, ?_⟩
  · have hq' : (kb_send_frame kbcmd true s).2.kb_in = (kb_send_frame kbcmd true s).2.kb_out := by
      rw [kb_send_frame_spec]; exact hq
    refine ⟨?_, ?_, ?_⟩
    · intro n c s1 hn1 hn2 hwait harr hne hc
      rw [kb_send_cmd_unfold kbcmd env s hb,
        kb_wait_reply_arrives env _ s1 n hn2 hwait harr hne 65536 0 _ (by omega) (by omega) rfl]
      simp only [Except.bind, if_neg (show ¬ n = 0 by omega), kb_get_scancode, if_neg hne, hc,
        bind, pure, Except.pure]
    · intro hwait
      obtain ⟨t, ht, hw⟩ := kb_wait_reply_timeout env _ hwait 65536 0 _ (by omega) (by omega) rfl
      refine ⟨t, ht, ?_⟩
      rw [kb_send_cmd_unfold kbcmd env s hb, hw]
      rfl
    · intro henv
      obtain ⟨t, ht, hw⟩ := kb_wait_reply_timeout env (kb_send_frame kbcmd true s).2
        (fun i _ => ⟨_, kb_env_run_quiet env henv i _, hq'⟩) 65536 0 _ (by omega) (by omega) rfl
      rw [kb_env_run_quiet env henv] at ht
      refine ⟨t, ?_, ?_⟩
      · rw [kb_send_cmd_unfold kbcmd env s hb, hw]
        rfl
      · cases ht
        rw [kb_send_frame_spec]
        exact ⟨rfl, rfl, rfl, rfl, rfl, rfl⟩
  · intro hne henv c hc
    have h1 : kb_isr_run (env 1) (kb_send_frame kbcmd true s).2 =
        .ok (kb_send_frame kbcmd true s).2 := by
      rw [henv]; rfl
    have hne' : (kb_send_frame kbcmd true s).2.kb_in ≠ (kb_send_frame kbcmd true s).2.kb_out := by
      rw [kb_send_frame_spec]; exact hne
    have hc' : readXdata (kb_send_frame kbcmd true s).2.kb_buf
        (kb_send_frame kbcmd true s).2.kb_out = .ok c := by
      rw [kb_send_frame_spec]; exact hc
    refine ⟨_, hfirst c _ h1 hne' hc', ?_⟩
    rw [kb_send_frame_spec]
    exact ⟨rfl, rfl, rfl, rfl⟩

/-- C13, instance: command 0xED sent from the state left by `kb_init`: the
frame of 0xFA arrives during pass 2 of the reply loop and the call returns 1;
with no edge at all the call returns 0 and the receiver is as before. With the
scancode 0x1C still queued at the call, the call returns 0 and has removed the
scancode, both when nothing is received and when the keyboard answers 0xFA
during pass 2 or during pass 1 (the acknowledge stays in the queue). -/
theorem kb_send_cmd_reply_witness :
    (∃ s', kb_send_cmd 0xED true
        (fun i => if i = 2 then [false] ++ bitsLSB 8 0xFA ++ [true, true] else []) {}
          = .ok (1, s')) ∧
    (∃ s', kb_send_cmd 0xED true (fun _ => []) {} = .ok (0, s') ∧
        s'.kb_in = 0 ∧ s'.kb_out = 0 ∧ s'.kb_bitcount = 0 ∧
        s'.kb_buf = List.replicate 16 0 ∧ s'.recdbits = 0 ∧ s'.kb_parity = false) ∧
    (∃ s', kb_send_cmd 0xED true
        (fun i => if i = 2 then [false] ++ bitsLSB 8 0xFA ++ [true, true] else [])
        { kb_in := 1, kb_buf := 0x1C :: List.replicate 15 0 } = .ok (0, s') ∧
        s'.kb_out = 1 ∧ s'.kb_in = 1 ∧ s'.kb_buf = 0x1C :: List.replicate 15 0 ∧
        s'.kb_bitcount = 0) ∧
    (kb_send_cmd 0xED true
        (fun i => if i = 1 then [false] ++ bitsLSB 8 0xFA ++ [true, true] else [])
        { kb_in := 1, kb_buf := 0x1C :: List.replicate 15 0 }).map
      (fun r => (r.1, r.2.kb_in, r.2.kb_out, r.2.kb_buf.take 2)) = .ok (0, 2, 1, [0x1C, 0xFA]) :=
  ⟨⟨_, ((kb_send_cmd_reply 0xED
      (fun i => if i = 2 then [false] ++ bitsLSB 8 0xFA ++ [true, true] else []) {} rfl).1 rfl).1
      2 0xFA _ (by decide) (by decide)
      (fun i hi => by interval_cases i <;> exact ⟨_, rfl, rfl⟩) rfl (by decide) rfl⟩,
   ((kb_send_cmd_reply 0xED (fun _ => []) {} rfl).1 rfl).2.2 (fun _ => rfl),
   (kb_send_cmd_reply 0xED
      (fun i => if i = 2 then [false] ++ bitsLSB 8 0xFA ++ [true, true] else [])
      { kb_in := 1, kb_buf := 0x1C :: List.replicate 15 0 } rfl).2.2 (by decide) rfl 0x1C rfl,
   by
    rw [(kb_send_cmd_reply 0xED
      (fun i => if i = 1 then [false] ++ bitsLSB 8 0xFA ++ [true, true] else [])
      { kb_in := 1, kb_buf := 0x1C :: List.replicate 15 0 } rfl).2.1 0x1C _ rfl (by decide) rfl]
    rfl⟩

/-- C14: when the keyboard clocks the command, `kb_send_cmd` returns, and what
it has written to the data line is the request-to-send low level, the eight bits
of the command least significant first, a parity bit that is the complement of
the parity of those eight bits, and the high level of the stop bit; data bits and
parity bit together hold an odd number of 1s. -/
theorem kb_send_cmd_data_line (kbcmd : Nat) (env : Nat → List Bool) (s : KbLink)
    (hb : s.kb_bitcount = 0) (hin : s.kb_in < 16) (hout : s.kb_out < 16)
    (hlen : s.kb_buf.length = 16) :
    ∃ r s', kb_send_cmd kbcmd true env s = .ok (r, s') ∧
      s'.dataOut = s.dataOut ++ [false] ++ bitsLSB 8 kbcmd ++
        [!decide ((bitsLSB 8 kbcmd).count true % 2 = 1), true] ∧
      (bitsLSB 8 kbcmd ++ [!decide ((bitsLSB 8 kbcmd).count true % 2 = 1)]).count true % 2
        = 1 := by
  have hf := kb_send_frame_spec kbcmd s
  obtain ⟨k, t, hw, h1, h2, h3, h4, _, h6⟩ :=
    kb_wait_reply_safe env 65536 0 (kb_send_frame kbcmd true s).2 (by omega) (by omega)
      (by rw [hf]; exact hin) (by rw [hf]; exact hlen)
  have hd : t.dataOut = s.dataOut ++ [false] ++ bitsLSB 8 kbcmd ++
      [!decide ((bitsLSB 8 kbcmd).count true % 2 = 1), true] := by
    rw [h4, hf]
  have ho : t.kb_out < t.kb_buf.length := by
    rw [h3, h2, hf]; exact hout
  rw [kb_send_cmd_unfold kbcmd env s hb, hw]
  by_cases hk : k = 0
  · exact ⟨0, t, by simp only [Except.bind, if_pos hk], hd, parity_bit_odd _⟩
  · have hne : t.kb_in ≠ t.kb_out := h6.resolve_left hk
    refine ⟨if t.kb_buf.getD t.kb_out 0 = 0xFA then 1 else 0,
      { t with kb_out := ((t.kb_out + 1) % 256) &&& 0x0F }, ?_, ?_, parity_bit_odd _⟩
    · simp only [Except.bind, if_neg hk, kb_get_scancode, if_neg hne, readXdata, if_pos ho,
        bind, pure, Except.pure]
    · exact hd

/-- C14, instance: command 0xED (six 1s, parity bit 1) sent from the state left
by `kb_init`, the keyboard answering 0xFA during pass 1. -/
theorem kb_send_cmd_data_line_witness :
    ∃ r s', kb_send_cmd 0xED true
        (fun i => if i = 1 then [false] ++ bitsLSB 8 0xFA ++ [true, true] else []) {}
          = .ok (r, s') ∧
      s'.dataOut = [false, true, false, true, true, false, true, true, true, true, true] := by
  obtain ⟨r, s', h, hd, _⟩ := kb_send_cmd_data_line 0xED
    (fun i => if i = 1 then [false] ++ bitsLSB 8 0xFA ++ [true, true] else []) {} rfl
    (by decide) (by decide) rfl
  exact ⟨r, s', h, hd.trans (by decide)⟩

/-- C15, counterexample: a word 0x121 received while `waitingForAcknowledge` is
set is written to `rx1_buf[0]` and `rx1_head` advances to 1. -/
theorem uart1_acknowledge_window_stores :
    uart1_isr false true 0x21 true
        { waitingForAcknowledge := true, rx1_buf := List.replicate 8 0x1FF } =
      { waitingForAcknowledge := false, rx1_head := 1,
        rx1_buf := [0x121, 0x1FF, 0x1FF, 0x1FF, 0x1FF, 0x1FF, 0x1FF, 0x1FF] } :=
  rfl

/-- C15, amended: with `waitingForAcknowledge` set, a received word `x` clears
the flag; the word is dropped (queue and `rx1_head` unchanged) when it is zero,
and is written to `rx1_buf[rx1_head & 7]` with `rx1_head` advanced when it is not
zero. -/
theorem uart1_isr_acknowledge (x : Nat) (w : WW) (hx : x < 512)
    (hw : w.waitingForAcknowledge = true) :
    (x = 0 → uart1_isr false true (x % 256) (x / 256 % 2 = 1) w =
      { w with waitingForAcknowledge := false }) ∧
    (x ≠ 0 → uart1_isr false true (x % 256) (x / 256 % 2 = 1) w =
      { w with waitingForAcknowledge := false,
               rx1_buf := w.rx1_buf.set (w.rx1_head &&& 7) x,
               rx1_head := (w.rx1_head + 1) % 256 }) := by
  rw [uart1_isr_word x w hx, if_pos hw]
  exact ⟨fun h => by rw [if_neg (not_not.mpr h)], fun h => by rw [if_pos h]⟩

/-- C15, instance: the all-zero acknowledge word after a send is dropped and the
flag is cleared. -/
theorem uart1_isr_acknowledge_witness :
    uart1_isr false true 0 false { waitingForAcknowledge := true, bus := [0x121] } =
      { waitingForAcknowledge := false, bus := [0x121] } :=
  (uart1_isr_acknowledge 0 { waitingForAcknowledge := true, bus := [0x121] } (by decide) rfl).1
    rfl

/-- C16, counterexample: with no acknowledge pending, a zero word that is the
fourth word after the prefix 0x121 is queued (five words stored, the zero at
`rx1_buf[4]`), and so is a zero word received before any prefix. -/
theorem uart1_isr_fourth_zero_queued :
    uart1_receive [0x121, 0x005, 0x090, 0x003, 0x000] { rx1_buf := List.replicate 8 0x1FF } =
      { count := 5, rx1_head := 5,
        rx1_buf := [0x121, 0x005, 0x090, 0x003, 0x000, 0x1FF, 0x1FF, 0x1FF] } ∧
    uart1_receive [0x000] { rx1_buf := List.replicate 8 0x1FF } =
      { count := 1, rx1_head := 1,
        rx1_buf := [0x000, 0x1FF, 0x1FF, 0x1FF, 0x1FF, 0x1FF, 0x1FF, 0x1FF] } :=
  ⟨rfl, rfl⟩

/-- C16, amended: with no acknowledge pending, every non-zero word is queued; a
zero word is queued exactly when `count` was even before it; and after the
prefix 0x121 followed by words `ws` other than 0x121, a zero word is queued when
the number of words in `ws` is odd (the zero is the second, fourth, ... word
after the prefix) and dropped when that number is even. -/
theorem uart1_isr_zero_word (w : WW) (hw : w.waitingForAcknowledge = false) :
    (∀ x, x < 512 → x ≠ 0 →
      (uart1_receive [x] w).rx1_buf = w.rx1_buf.set (w.rx1_head &&& 7) x ∧
      (uart1_receive [x] w).rx1_head = (w.rx1_head + 1) % 256) ∧
    ((uart1_receive [0] w).rx1_buf =
        (if w.count % 2 = 0 then w.rx1_buf.set (w.rx1_head &&& 7) 0 else w.rx1_buf) ∧
      (uart1_receive [0] w).rx1_head =
        (if w.count % 2 = 0 then (w.rx1_head + 1) % 256 else w.rx1_head)) ∧
    (∀ ws : List Nat, (∀ x ∈ ws, x < 512 ∧ x ≠ 0x121) →
      (uart1_receive (0x121 :: ws ++ [0]) w).rx1_buf =
        (if ws.length % 2 = 1 then
          (uart1_receive (0x121 :: ws) w).rx1_buf.set
            ((uart1_receive (0x121 :: ws) w).rx1_head &&& 7) 0
        else (uart1_receive (0x121 :: ws) w).rx1_buf) ∧
      (uart1_receive (0x121 :: ws ++ [0]) w).rx1_head =
        (if ws.length % 2 = 1 then ((uart1_receive (0x121 :: ws) w).rx1_head + 1) % 256
        else (uart1_receive (0x121 :: ws) w).rx1_head)) := by
  have zero : ∀ v : WW, v.waitingForAcknowledge = false →
      (uart1_receive [0] v).rx1_buf =
        (if v.count % 2 = 0 then v.rx1_buf.set (v.rx1_head &&& 7) 0 else v.rx1_buf) ∧
      (uart1_receive [0] v).rx1_head =
        (if v.count % 2 = 0 then (v.rx1_head + 1) % 256 else v.rx1_head) := by
    intro v hv
    have hstep := uart1_isr_word 0 v (by decide)
    simp only [hv, Bool.false_eq_true, if_false, show ¬ (0 : Nat) = 0x121 by decide, ne_eq,
      not_true_eq_false, false_or] at hstep
    show (uart1_isr false true (0 % 256) (0 / 256 % 2 = 1) v).rx1_buf = _ ∧
      (uart1_isr false true (0 % 256) (0 / 256 % 2 = 1) v).rx1_head = _
    rw [hstep]
    by_cases hc : v.count % 2 = 0
    · rw [if_pos (show ¬ (v.count + 1) % 256 % 2 = 0 by omega), if_pos hc, if_pos hc]
      exact ⟨rfl, rfl⟩
    · rw [if_neg (show ¬ ¬ (v.count + 1) % 256 % 2 = 0 by omega), if_neg hc, if_neg hc]
      exact ⟨rfl, rfl⟩
  refine ⟨?_, zero w hw, ?_⟩
  · intro x hx hx0
    have hstep := uart1_isr_word x w hx
    rw [if_neg (by simp [hw]), if_pos (Or.inl hx0)] at hstep
    show (uart1_isr false true (x % 256) (x / 256 % 2 = 1) w).rx1_buf = _ ∧
      (uart1_isr false true (x % 256) (x / 256 % 2 = 1) w).rx1_head = _
    rw [hstep]
    exact ⟨rfl, rfl⟩
  · intro ws hws
    have hstep := uart1_isr_word 0x121 w (by decide)
    rw [if_neg (by simp [hw]), if_pos (Or.inl (by decide))] at hstep
    have hp : uart1_receive (0x121 :: ws) w =
        uart1_receive ws (uart1_isr false true (0x121 % 256) (0x121 / 256 % 2 = 1) w) := rfl
    obtain ⟨g1, g2⟩ := uart1_receive_count ws
      (uart1_isr false true (0x121 % 256) (0x121 / 256 % 2 = 1) w) (by rw [hstep]; exact hw) hws
    rw [← hp] at g1 g2
    have hcount : (uart1_isr false true (0x121 % 256) (0x121 / 256 % 2 = 1) w).count = 1 := by
      rw [hstep]; rfl
    rw [hcount] at g2
    have hz := zero _ g1
    rw [show 0x121 :: ws ++ [0] = (0x121 :: ws) ++ [0] from rfl, uart1_receive_append]
    by_cases hl : ws.length % 2 = 1
    · rw [if_pos (by omega), if_pos (by omega)] at hz
      rw [if_pos hl, if_pos hl]
      exact hz
    · rw [if_neg (by omega), if_neg (by omega)] at hz
      rw [if_neg hl, if_neg hl]
      exact hz

/-- C16, instance: after 0x121 and one further word a zero word is queued (the
second word after the prefix); after 0x121 and two further words it is dropped. -/
theorem uart1_isr_zero_word_witness :
    (uart1_receive [0x121, 0x00E, 0x000] {}).rx1_head = 3 ∧
    (uart1_receive [0x121, 0x006, 0x080, 0x000] {}).rx1_head = 3 :=
  ⟨((uart1_isr_zero_word {} rfl).2.2 [0x00E] (by decide)).2,
   ((uart1_isr_zero_word {} rfl).2.2 [0x006, 0x080] (by decide)).2⟩

/-- C17, counterexample: after ESC the byte `Z` (0x5A), which is no command,
leaves the parser in state 1; likewise `Z` after ESC ^Z (state 2) and after
ESC ^Z `p` (state 3). -/
theorem print_character_escape_stays :
    print_character 0x5A { escape := 1 } = .ok { escape := 1 } ∧
    print_character 0x5A { escape := 2 } = .ok { escape := 2 } ∧
    print_character 0x5A { escape := 3 } = .ok { escape := 3 } :=
  ⟨rfl, rfl, rfl⟩

/-- C17, amended: in each of the escape states 1, 2 and 3 a byte that is not a
command recognised in that state changes nothing: no word is put on the bus and
the parser stays in the same escape state. -/
theorem print_character_escape_unrecognised (c : Nat) (p : Printer) :
    (p.escape = 1 →
      c ∉ [0x4F, 0x26, 0x45, 0x52, 0x58, 0x55, 0x44, 0x0A, 0x08, 0x62, 0x65, 0x70, 0x6D, 0x75,
        0x64, 0x1A, 0x48, 0x68] →
      print_character c p = .ok p) ∧
    (p.escape = 2 → c ∉ [0x61, 0x63, 0x65, 0x70, 0x72, 0x73, 0x75, 0x77] →
      print_character c p = .ok p) ∧
    (p.escape = 3 → c ∉ [0x30, 0x31, 0x32, 0x33] → print_character c p = .ok p) := by
  refine ⟨?_, ?_, ?_⟩
  · intro he h
    simp only [List.mem_cons, List.mem_singleton, List.mem_nil_iff, not_or, or_false] at h
    obtain ⟨h1, h2, h3, h4, h5, h6, h7, h8, h9, h10, h11, h12, h13, h14, h15, h16, h17, h18⟩ := h
    unfold print_character
    rw [if_neg (by omega), if_pos he]
    unfold print_character_esc1
    rw [if_neg h1, if_neg h2, if_neg h3, if_neg h4, if_neg h5, if_neg h6, if_neg h7, if_neg (show ¬ c = LF from h8), if_neg (show ¬ c = BS from h9), if_neg h10, if_neg h11, if_neg h12, if_neg h13, if_neg h14, if_neg h15, if_neg h16, if_neg (show ¬ (c = 0x48 ∨ c = 0x68) from fun h => h.elim h17 h18)]
    rfl
  · intro he h
    simp only [List.mem_cons, List.mem_singleton, List.mem_nil_iff, not_or, or_false] at h
    obtain ⟨h1, h2, h3, h4, h5, h6, h7, h8⟩ := h
    unfold print_character
    rw [if_neg (by omega), if_neg (by omega), if_pos he]
    unfold print_character_esc2
    rw [if_neg h1, if_neg h2, if_neg h3, if_neg h4, if_neg h5, if_neg h6, if_neg h7, if_neg h8]
    rfl
  · intro he h
    simp only [List.mem_cons, List.mem_singleton, List.mem_nil_iff, not_or, or_false] at h
    obtain ⟨h1, h2, h3, h4⟩ := h
    unfold print_character
    rw [if_neg (by omega), if_neg (by omega), if_neg (by omega), if_pos he]
    unfold print_character_esc3
    rw [if_neg h1, if_neg h2, if_neg h3, if_neg h4]
    rfl

/-- Witness of C17, amended: `Z` in state 1 with a non-empty bus trace. -/
theorem print_character_escape_unrecognised_witness :
    print_character 0x5A { ww := { bus := [0x121, 0x007] }, escape := 1 }
      = .ok { ww := { bus := [0x121, 0x007] }, escape := 1 } :=
  (print_character_escape_unrecognised 0x5A { ww := { bus := [0x121, 0x007] }, escape := 1 }).1
    rfl (by decide)

/-- C19: in `ww_print_letter`, with an underline bit set (`attribute & 0x06 != 0`)
a letter other than the space is followed by the words 0x000, 0x121, 0x003, 0x04F
before the advance words; the space 0x20 gets these words exactly when the
continuous-underline bit 0x02 is set, and without that bit (for instance with only
the broken-underline bit 0x04) the space is followed by the advance words directly.
The advance words are those of the bold or the plain path, then the automatic
carriage return if the count exceeds 1319. -/
theorem ww_print_letter_underline (letter attrib : Nat) (w : WW)
    (hlo : 0x20 ≤ letter) (hhi : letter ≤ 0xBF) (hn : w.uSpacesPerChar < 256) :
    ∃ w' adv, ww_print_letter letter attrib w = .ok w' ∧
      adv = (if attrib &&& 0x01 ≠ 0
              then [0x001, 0x121, 0x003, printwheelChar.getD (letter - 0x20) 0,
                    (w.uSpacesPerChar + 511) % 512]
              else [w.uSpacesPerChar])
        ++ (if (w.uSpaceCount + w.uSpacesPerChar) % 65536 > 1319
              then [0x121, 0x006, (((w.uSpaceCount + w.uSpacesPerChar) % 65536) >>> 8) &&& 0x007,
                    ((w.uSpaceCount + w.uSpacesPerChar) % 65536) &&& 0xFF]
              else []) ∧
      (letter ≠ 0x20 → attrib &&& 0x06 ≠ 0 →
        w'.bus = w.bus ++ [0x121, 0x003, printwheelChar.getD (letter - 0x20) 0]
          ++ [0x000, 0x121, 0x003, 0x04F] ++ adv) ∧
      (letter = 0x20 → attrib &&& 0x02 ≠ 0 →
        w'.bus = w.bus ++ [0x121, 0x003, 0x000] ++ [0x000, 0x121, 0x003, 0x04F] ++ adv) ∧
      (letter = 0x20 → attrib &&& 0x02 = 0 →
        w'.bus = w.bus ++ [0x121, 0x003, 0x000] ++ adv) := by
  obtain ⟨w', hw, hbus, _⟩ := ww_print_letter_spec letter attrib w hlo hhi
  rw [wireWord_pred _ hn, wireWord_of_lt _ (by omega)] at hbus
  refine ⟨w', _, hw, rfl, ?_, ?_, ?_⟩
  · intro hl h6
    rw [if_pos (show (attrib &&& 0x06 ≠ 0) ∧ (letter ≠ 0x20 ∨ attrib &&& 0x02 ≠ 0) from
      ⟨h6, Or.inl hl⟩)] at hbus
    rw [hbus]
    simp only [List.append_assoc]
  · intro hl h2
    rw [if_pos (show (attrib &&& 0x06 ≠ 0) ∧ (letter ≠ 0x20 ∨ attrib &&& 0x02 ≠ 0) from
      ⟨and_six_of_and_two attrib h2, Or.inr h2⟩)] at hbus
    rw [hbus, hl]
    simp only [List.append_assoc]
    rfl
  · intro hl h2
    rw [if_neg (show ¬ ((attrib &&& 0x06 ≠ 0) ∧ (letter ≠ 0x20 ∨ attrib &&& 0x02 ≠ 0)) from
      fun h => h.2.elim (fun h' => h' hl) (fun h' => h' h2)), List.append_nil] at hbus
    rw [hbus, hl]
    simp only [List.append_assoc]
    rfl

/-- Witness of C19: a space with only the broken-underline bit gets no underscore. -/
theorem ww_print_letter_underline_witness :
    ∃ w', ww_print_letter 0x20 0x04 {} = .ok w' ∧ w'.bus = [0x121, 0x003, 0x000, 10] := by
  obtain ⟨w', adv, h, hadv, _, _, h3⟩ :=
    ww_print_letter_underline 0x20 0x04 {} (by decide) (by decide) (by decide)
  subst hadv
  exact ⟨w', h, (h3 rfl rfl).trans rfl⟩

set_option maxRecDepth 100000 in
/-- C20, counterexample: with the bold attribute set by ESC `O`, the letter `a`
printed at count 1315 forces the automatic carriage return (the words 0x121,
0x006, 5, 45 end the bus trace) and the attribute mask is still 1 afterwards. -/
theorem auto_return_keeps_attribute :
    ∃ p', print_string [ESC, 0x4F, 0x61] { ww := { uSpaceCount := 1315 } } = .ok p' ∧
      p'.ww.bus = [0x121, 0x003, 0x01, 0x001, 0x121, 0x003, 0x01, 9, 0x121, 0x006, 5, 45] ∧
      p'.attrib = 1 :=
  ⟨{ ww := { uSpaceCount := 0, waitingForAcknowledge := true,
             bus := [0x121, 0x003, 0x01, 0x001, 0x121, 0x003, 0x01, 9, 0x121, 0x006, 5, 45] },
     attrib := 1, column := 2, console := [.char 0x61] }, rfl, rfl, rfl⟩

/-- C20, amended: the attribute mask is cleared by the carriage-return character:
after `print_character(CR)` in ground state it is 0. The automatic carriage
return forced inside print-letter leaves it as it was: when a printable byte
makes the count exceed 1319, the carriage-return command ends the words put on
the bus and the attribute mask is unchanged. -/
theorem attribute_cleared_by_CR_only (p : Printer) (hg : p.escape = 0) :
    (∃ p', print_character CR p = .ok p' ∧ p'.attrib = 0) ∧
    (∀ c : Nat, 0x20 ≤ c → c ≤ 0xBF →
      p.ww.uSpaceCount + p.ww.uSpacesPerChar < 65536 →
      p.ww.uSpaceCount + p.ww.uSpacesPerChar > 1319 →
      ∃ p' own, print_character c p = .ok p' ∧
        p'.ww.bus = p.ww.bus ++ own
          ++ [0x121, 0x006, ((p.ww.uSpaceCount + p.ww.uSpacesPerChar) >>> 8) &&& 0x007,
              (p.ww.uSpaceCount + p.ww.uSpacesPerChar) &&& 0xFF] ∧
        p'.attrib = p.attrib) := by
  constructor
  · unfold print_character
    rw [if_pos hg]
    unfold print_character_ground
    rw [if_neg (by decide), if_neg (by decide), if_neg (by decide), if_neg (by decide),
      if_neg (by decide), if_neg (by decide), if_pos rfl]
    refine ⟨_, rfl, ?_⟩
    by_cases hs : p.switch1 = false
    · simp only [if_pos hs]
      rfl
    · simp only [if_neg hs]
      rfl
  · intro c hlo hhi hsum hwrap
    obtain ⟨w', hw, hbus, _⟩ := ww_print_letter_spec c p.attrib p.ww hlo hhi
    rw [Nat.mod_eq_of_lt hsum, if_pos hwrap] at hbus
    obtain ⟨p', hp, hww, hattr, _⟩ := print_character_ground_letter c p w' hlo hw
    refine ⟨p', [0x121, 0x003, printwheelChar.getD (c - 0x20) 0]
        ++ ((if (p.attrib &&& 0x06 ≠ 0) ∧ (c ≠ 0x20 ∨ p.attrib &&& 0x02 ≠ 0)
              then [0x000, 0x121, 0x003, 0x04F] else [])
        ++ (if p.attrib &&& 0x01 ≠ 0
              then [0x001, 0x121, 0x003, printwheelChar.getD (c - 0x20) 0,
                    wireWord ((p.ww.uSpacesPerChar + 65535) % 65536)]
              else [wireWord p.ww.uSpacesPerChar])), ?_, ?_, hattr⟩
    · unfold print_character
      rw [if_pos hg]
      exact hp
    · rw [hww, hbus]
      simp only [List.append_assoc]

/-- Witness of C20, amended: `a` printed in bold at count 1315. -/
theorem attribute_cleared_by_CR_only_witness :
    ∃ p' own, print_character 0x61 { ww := { uSpaceCount := 1315 }, attrib := 1 } = .ok p' ∧
      p'.ww.bus = own ++ [0x121, 0x006, 5, 45] ∧ p'.attrib = 1 := by
  obtain ⟨p', own, h, hbus, hattr⟩ :=
    (attribute_cleared_by_CR_only { ww := { uSpaceCount := 1315 }, attrib := 1 } rfl).2 0x61
      (by decide) (by decide) (by decide) (by decide)
  exact ⟨p', own, h, hbus.trans rfl, hattr⟩

/-- C21: from idle state, for every byte `x`, the bytes 0xF0 and `x` both return
0 and leave the decoder idle; Shift is cleared when `x` is 0x12 or 0x59, Ctrl
when it is 0x14, Alt when it is 0x11, no other latch changes, and the lock bits
and the commands sent to the keyboard are as before. -/
theorem kb_decode_release_pair (ack : Bool) (x : Nat) (k : Kb) (hk : k.kb_state = 0) :
    kb_decode_all ack [0xF0, x] k = .ok ([0, 0],
      { kb_shift := if x = 0x12 ∨ x = 0x59 then false else k.kb_shift,
        kb_ctrl := if x = 0x14 then false else k.kb_ctrl,
        kb_alt := if x = 0x11 then false else k.kb_alt,
        kb_state := 0,
        kb_leds := k.kb_leds,
        sendCalls := k.sendCalls }) := by
  have h1 : kb_decode_scancode ack 0xF0 k = .ok (0, { k with kb_state := 3 }) := by
    unfold kb_decode_scancode
    rw [if_pos hk]
    exact kb_decode_idle_F0 ack k
  have h2 : kb_decode_scancode ack x { k with kb_state := 3 } =
      .ok (kb_decode_release x { k with kb_state := 3 }) := by
    unfold kb_decode_scancode
    rw [if_neg (by simp), if_neg (by simp), if_neg (by simp), if_pos rfl]
    rfl
  simp only [kb_decode_all, h1, h2, bind, Except.bind, pure, Except.pure]
  unfold kb_decode_release
  by_cases a : x = 0x12
  · subst a; rfl
  · by_cases b : x = 0x59
    · subst b; rfl
    · by_cases c : x = 0x14
      · subst c; rfl
      · by_cases d : x = 0x11
        · subst d; rfl
        · simp [a, b, c, d]

/-- C21, instance: left Shift released with Shift and Ctrl latched and Caps Lock
on. -/
theorem kb_decode_release_pair_witness :
    kb_decode_all false [0xF0, 0x12] { kb_shift := true, kb_ctrl := true, kb_leds := 0x04 } =
      .ok ([0, 0], { kb_shift := false, kb_ctrl := true, kb_leds := 0x04 }) :=
  kb_decode_release_pair false 0x12 { kb_shift := true, kb_ctrl := true, kb_leds := 0x04 } rfl

/-- C22: in idle state each of the keypad scancodes 0x69, 0x6B, 0x6C, 0x70, 0x71,
0x72, 0x74, 0x75, 0x7A, 0x7D returns its digit character when the Num Lock bit of
`kb_leds` is set and its editing key code when the bit is clear, and leaves the
decoder state as it was; the bit is clear initially, and a 0x77 received in idle
state returns 0 and complements it. -/
theorem kb_decode_keypad (ack : Bool) (k : Kb) (hk : k.kb_state = 0) :
    (∀ t ∈ [(0x69, 0x31, PS2_KEY_KP_END), (0x6B, 0x34, PS2_KEY_KP_LT_ARROW),
            (0x6C, 0x37, PS2_KEY_KP_HOME), (0x70, 0x30, PS2_KEY_KP_INSERT),
            (0x71, 0x2E, PS2_KEY_KP_DELETE), (0x72, 0x32, PS2_KEY_KP_DN_ARROW),
            (0x74, 0x36, PS2_KEY_KP_RT_ARROW), (0x75, 0x38, PS2_KEY_KP_UP_ARROW),
            (0x7A, 0x33, PS2_KEY_KP_PGDN), (0x7D, 0x39, PS2_KEY_KP_PGUP)],
      kb_decode_scancode ack t.1 k =
        .ok (if k.kb_leds &&& NUM_LOCK ≠ 0 then t.2.1 else t.2.2, k)) ∧
    ({} : Kb).kb_leds &&& NUM_LOCK = 0 ∧
    (∃ k', kb_decode_scancode ack 0x77 k = .ok (0, k') ∧ k'.kb_state = 0 ∧
      k'.kb_leds = k.kb_leds ^^^ NUM_LOCK ∧
      (k'.kb_leds &&& NUM_LOCK ≠ 0 ↔ k.kb_leds &&& NUM_LOCK = 0)) := by
  refine ⟨?_, rfl, ?_⟩
  · intro t ht
    unfold kb_decode_scancode
    rw [if_pos hk]
    simp only [List.mem_cons, List.mem_singleton, List.mem_nil_iff, or_false] at ht
    rcases ht with h | h | h | h | h | h | h | h | h | h <;> subst h <;> rfl
  · unfold kb_decode_scancode
    rw [if_pos hk]
    refine ⟨kb_update_leds ack { k with kb_leds := k.kb_leds ^^^ NUM_LOCK }, rfl, ?_, ?_, ?_⟩
    · cases ack <;> exact hk
    · cases ack <;> rfl
    · have : (kb_update_leds ack { k with kb_leds := k.kb_leds ^^^ NUM_LOCK }).kb_leds
          = k.kb_leds ^^^ 2 := by cases ack <;> rfl
      rw [this]
      exact xor_two_and_two k.kb_leds

/-- C22, instance: with Num Lock clear (initial state) 0x6C returns the keypad
Home code; after one 0x77 it returns the digit 7. -/
theorem kb_decode_keypad_witness :
    kb_decode_scancode true 0x6C {} = .ok (PS2_KEY_KP_HOME, {}) ∧
    kb_decode_all true [0x77, 0x6C] {} =
      .ok ([0, 0x37], { kb_leds := 0x02, sendCalls := [0xED, 0x02] }) :=
  ⟨(kb_decode_keypad true {} rfl).1 (0x6C, 0x37, PS2_KEY_KP_HOME) (by decide), rfl⟩

/-- C23: in idle state, for a scancode without a case of its own in the switch:
below 0x80, when both tables hold 0 for it, the decoder returns 0 and changes
nothing; from 0x80 up the decoder indexes the 128-entry table (`shifted` or
`unshifted`) with the scancode itself, a read past the end of the table. -/
theorem kb_decode_idle_unassigned (ack : Bool) (s : Nat) (k : Kb) (hk : k.kb_state = 0)
    (hl : s ∉ idleCaseLabels) :
    (s < 0x80 → unshifted.getD s 0 = 0 → shifted.getD s 0 = 0 →
      kb_decode_scancode ack s k = .ok (0, k)) ∧
    (0x80 ≤ s → kb_decode_scancode ack s k = .error (.oobRead s)) := by
  unfold kb_decode_scancode
  rw [if_pos hk, kb_decode_idle_default ack s k hl]
  constructor
  · intro h hu hs
    rw [readCode_nat shifted s h, readCode_nat unshifted s h, hu, hs]
    split <;> simp [Except.bind, pure, Except.pure]
  · intro h
    rw [readCode_oob shifted s h, readCode_oob unshifted s h]
    split <;> rfl

/-- C23, instance: scancode 0x84 (no case in the switch) received in the initial
state reads `unshifted[132]`; scancode 0x02 returns 0. -/
theorem kb_decode_idle_unassigned_witness :
    kb_decode_scancode false 0x84 {} = .error (.oobRead 132) ∧
    kb_decode_scancode false 0x02 {} = .ok (0, {}) :=
  ⟨(kb_decode_idle_unassigned false 0x84 {} rfl (by decide)).2 (by decide),
   (kb_decode_idle_unassigned false 0x02 {} rfl (by decide)).1 (by decide) rfl rfl⟩

/-- C24: in each state of the literal-byte matchers (4 and 5 of the Print-Screen
tail, 6 to 12 of the Pause sequence), every byte other than the one the state
tests for returns 0 and puts the decoder in idle state; the modifier latches,
the lock bits and the commands sent are unchanged. -/
theorem kb_decode_matcher_abort (ack : Bool) (x : Nat) (k : Kb) :
    ∀ t ∈ [(4, 0xE0), (5, 0x7C), (6, 0x14), (7, 0x77), (8, 0xE1), (9, 0xF0), (10, 0x14),
           (11, 0xF0), (12, 0x77)],
      k.kb_state = t.1 → x ≠ t.2 →
        kb_decode_scancode ack x k = .ok (0, { k with kb_state := 0 }) := by
  intro t ht hs hx
  simp only [List.mem_cons, List.mem_singleton, List.mem_nil_iff, or_false] at ht
  rcases ht with h | h | h | h | h | h | h | h | h <;> subst h <;>
    simp only [ne_eq] at hs hx <;>
    simp [kb_decode_scancode, hs, hx, pure, Except.pure]

/-- C24, instance: in state 11 of the Pause matcher, with Shift latched and Num
Lock on, the byte 0xE0 aborts to idle. -/
theorem kb_decode_matcher_abort_witness :
    kb_decode_scancode false 0xE0 { kb_state := 11, kb_shift := true, kb_leds := 0x02 } =
      .ok (0, { kb_state := 0, kb_shift := true, kb_leds := 0x02 }) :=
  kb_decode_matcher_abort false 0xE0 { kb_state := 11, kb_shift := true, kb_leds := 0x02 }
    (11, 0xF0) (by decide) rfl (by decide)

/-- C25: from ground state the escape state is 0 again after every two-byte
command ESC `O`, `&`, `E`, `R`, `X`, `U`, `D`, LF, BS, `b`, `e`, `p`, `m`, `u`,
`d`, after ESC ^Z followed by `c`, `s`, `u` or `w`, after ESC ^Z `p` and a digit
0 to 3, after ESC ^Z `e` and any byte, and after the help command ESC `H` or `h`
followed by a space or ESC. After ESC ^Z `a` the banner is on the console and
the escape state is 2, so that a following `c`, `s`, `u` or `w` is taken as the
third byte of a diagnostic command and not printed. ESC ^Z `r` writes the reset
request. -/
theorem escape_returns_to_ground (p : Printer) (hg : p.escape = 0) :
    (∀ c ∈ [0x4F, 0x26, 0x45, 0x52, 0x58, 0x55, 0x44, 0x0A, 0x08, 0x62, 0x65, 0x70, 0x6D, 0x75,
            0x64],
      ∃ p', print_string [ESC, c] p = .ok p' ∧ p'.escape = 0) ∧
    (∀ c ∈ [0x63, 0x73, 0x75, 0x77],
      ∃ p', print_string [ESC, 0x1A, c] p = .ok p' ∧ p'.escape = 0) ∧
    (∀ c ∈ [0x30, 0x31, 0x32, 0x33],
      ∃ p', print_string [ESC, 0x1A, 0x70, c] p = .ok p' ∧ p'.escape = 0) ∧
    (∀ n, ∃ p', print_string [ESC, 0x1A, 0x65, n] p = .ok p' ∧ p'.escape = 0) ∧
    (∀ h ∈ [0x48, 0x68], ∀ c ∈ [0x20, 0x1B],
      ∃ p', print_string [ESC, h, c] p = .ok p' ∧ p'.escape = 0) ∧
    print_string [ESC, 0x1A, 0x61] p = .ok { printf .banner p with escape := 2 } ∧
    (∀ c ∈ [0x63, 0x73, 0x75, 0x77],
      ∃ p', print_string [ESC, 0x1A, 0x61, c] p = .ok p' ∧ p'.escape = 0 ∧
        p'.ww = p.ww ∧ p'.column = p.column) ∧
    (∃ p', print_string [ESC, 0x1A, 0x72] p = .ok p' ∧ p'.systemReset = true) := by
  have hz : print_character_esc1 0x1A { p with escape := 1 } = { p with escape := 2 } := rfl
  refine ⟨?_, ?_, ?_, ?_, ?_, ?_, ?_, ?_⟩
  · intro c hc
    rw [print_string_ESC_cons _ p hg, print_string_esc1_cons c [] _ rfl]
    refine ⟨_, rfl, ?_⟩
    simp only [List.mem_cons, List.mem_singleton, List.mem_nil_iff, or_false] at hc
    rcases hc with h | h | h | h | h | h | h | h | h | h | h | h | h | h | h <;> subst h <;> rfl
  · intro c hc
    rw [print_string_ESC_cons _ p hg, print_string_esc1_cons 0x1A _ _ rfl, hz,
      print_string_esc2_cons c [] _ rfl]
    refine ⟨_, rfl, ?_⟩
    simp only [List.mem_cons, List.mem_singleton, List.mem_nil_iff, or_false] at hc
    rcases hc with h | h | h | h <;> subst h <;> rfl
  · intro c hc
    rw [print_string_ESC_cons _ p hg, print_string_esc1_cons 0x1A _ _ rfl, hz,
      print_string_esc2_cons 0x70 _ _ rfl,
      show print_character_esc2 0x70 { p with escape := 2 } = { p with escape := 3 } from rfl,
      print_string_esc3_cons c [] _ rfl]
    refine ⟨_, rfl, ?_⟩
    simp only [List.mem_cons, List.mem_singleton, List.mem_nil_iff, or_false] at hc
    rcases hc with h | h | h | h <;> subst h <;> rfl
  · intro n
    rw [print_string_ESC_cons _ p hg, print_string_esc1_cons 0x1A _ _ rfl, hz,
      print_string_esc2_cons 0x65 _ _ rfl,
      show print_character_esc2 0x65 { p with escape := 2 } = { p with escape := 4 } from rfl,
      print_string_esc4_cons n [] _ rfl]
    exact ⟨_, rfl, rfl⟩
  · intro h hh c hc
    have h6 : print_character_esc1 h { p with escape := 1 } =
        { printf .help1 { p with escape := 1 } with escape := 6 } := by
      simp only [List.mem_cons, List.mem_singleton, List.mem_nil_iff, or_false] at hh
      rcases hh with g | g <;> subst g <;> rfl
    rw [print_string_ESC_cons _ p hg, print_string_esc1_cons h _ _ rfl, h6,
      print_string_esc6_cons c [] _ rfl]
    refine ⟨_, rfl, ?_⟩
    simp only [List.mem_cons, List.mem_singleton, List.mem_nil_iff, or_false] at hc
    rcases hc with g | g <;> subst g <;> rfl
  · rw [print_string_ESC_cons _ p hg, print_string_esc1_cons 0x1A _ _ rfl, hz,
      print_string_esc2_cons 0x61 [] _ rfl]
    rfl
  · intro c hc
    rw [print_string_ESC_cons _ p hg, print_string_esc1_cons 0x1A _ _ rfl, hz,
      print_string_esc2_cons 0x61 _ _ rfl,
      show print_character_esc2 0x61 { p with escape := 2 } =
        { printf .banner p with escape := 2 } from rfl,
      print_string_esc2_cons c [] _ rfl]
    refine ⟨_, rfl, ?_⟩
    simp only [List.mem_cons, List.mem_singleton, List.mem_nil_iff, or_false] at hc
    rcases hc with h | h | h | h <;> subst h <;> exact ⟨rfl, rfl, rfl⟩
  · rw [print_string_ESC_cons _ p hg, print_string_esc1_cons 0x1A _ _ rfl, hz,
      print_string_esc2_cons 0x72 [] _ rfl]
    exact ⟨_, rfl, rfl⟩

/-- C25, instance: ESC `O` and ESC ^Z `p` `2` from the initial state end in
ground state; ESC ^Z `a` ends with the escape state 2, and a `c` sent after it
prints the column on the console instead of the letter. -/
theorem escape_returns_to_ground_witness :
    (∃ p', print_string [ESC, 0x4F] {} = .ok p' ∧ p'.escape = 0) ∧
    (∃ p', print_string [ESC, 0x1A, 0x70, 0x32] {} = .ok p' ∧ p'.escape = 0) ∧
    print_string [ESC, 0x1A, 0x61] {} = .ok { escape := 2, console := [.banner] } ∧
    print_string [ESC, 0x1A, 0x61, 0x63] {} =
      .ok { escape := 0, console := [.banner, .column 1] } :=
  ⟨(escape_returns_to_ground {} rfl).1 0x4F (by decide),
   (escape_returns_to_ground {} rfl).2.2.1 0x32 (by decide),
   (escape_returns_to_ground {} rfl).2.2.2.2.2.1,
   rfl⟩

/-- C27: in ground state, with `tabStop` between 1 and 127 (the code sets 5, 6
or 7) and `column + tabStop <= 255`, the tab character moves
`t = tabStop - column % tabStop` spaces, `1 <= t <= tabStop`: with
`s = t * uSpacesPerChar` the words 0x121, 0x006, `0x80 | ((s>>8) & 0x07)`,
`s & 0xFF` are put on the bus, `s` is added to the count (a 16-bit number), `t`
is added to the column, which becomes a multiple of `tabStop`, and `t` spaces are
echoed; attribute, escape state and pitch are unchanged. -/
theorem print_character_HT (p : Printer) (hg : p.escape = 0) (ht1 : 1 ≤ p.tabStop)
    (ht2 : p.tabStop ≤ 127) (hcol : p.column + p.tabStop ≤ 255)
    (hu : p.ww.uSpacesPerChar < 256) :
    ∃ p' t s, print_character HT p = .ok p' ∧
      t = p.tabStop - p.column % p.tabStop ∧ 1 ≤ t ∧ t ≤ p.tabStop ∧
      s = t * p.ww.uSpacesPerChar ∧
      p'.ww.bus = p.ww.bus ++ [0x121, 0x006, 0x80 ||| ((s >>> 8) &&& 0x07), s &&& 0xFF] ∧
      p'.ww.uSpaceCount = (p.ww.uSpaceCount + s) % 65536 ∧
      p'.column = p.column + t ∧ p'.column % p.tabStop = 0 ∧
      p'.console = p.console ++ List.replicate t (.char SP) ∧
      p'.attrib = p.attrib ∧ p'.escape = 0 ∧ p'.tabStop = p.tabStop ∧
      p'.ww.uSpacesPerChar = p.ww.uSpacesPerChar := by
  have hmod : p.column % p.tabStop < p.tabStop := Nat.mod_lt _ ht1
  have ht : (p.tabStop - p.column % p.tabStop) % 256 = p.tabStop - p.column % p.tabStop := by
    omega
  have hs : (p.tabStop - p.column % p.tabStop) * p.ww.uSpacesPerChar < 65536 := by
    have h1 : p.tabStop - p.column % p.tabStop ≤ 127 := by omega
    calc (p.tabStop - p.column % p.tabStop) * p.ww.uSpacesPerChar
        ≤ 127 * 255 := Nat.mul_le_mul h1 (by omega)
      _ < 65536 := by decide
  obtain ⟨hb, hc, hp, _⟩ := ww_horizontal_tab_spec (p.tabStop - p.column % p.tabStop) p.ww hs
  refine ⟨{ p with ww := ww_horizontal_tab (p.tabStop - p.column % p.tabStop) p.ww,
                    column := p.column + (p.tabStop - p.column % p.tabStop),
                    console := p.console ++
                      List.replicate (p.tabStop - p.column % p.tabStop) (.char SP) },
    p.tabStop - p.column % p.tabStop,
    (p.tabStop - p.column % p.tabStop) * p.ww.uSpacesPerChar, ?_, rfl, by omega, by omega, rfl,
    ?_⟩
  · unfold print_character
    rw [if_pos hg, print_character_ground_HT p (by omega), ht, if_pos (by omega),
      tabLoop_spec _ _ (by show p.column + _ ≤ 255; omega)]
  · refine ⟨hb, hc, rfl, ?_, rfl, rfl, hg, rfl, hp⟩
    show (p.column + (p.tabStop - p.column % p.tabStop)) % p.tabStop = 0
    have hdiv := Nat.div_add_mod p.column p.tabStop
    have : p.column + (p.tabStop - p.column % p.tabStop)
        = p.tabStop * (p.column / p.tabStop + 1) := by
      rw [Nat.mul_add, Nat.mul_one]
      omega
    rw [this, Nat.mul_mod_right]

/-- C27, instance: a tab at column 3 with the initial pitch (tab stops every 5
columns, 10 micro-spaces per character) moves 2 spaces. -/
theorem print_character_HT_witness :
    ∃ p', print_character HT { column := 3 } = .ok p' ∧
      p'.ww.bus = [0x121, 0x006, 0x80, 20] ∧ p'.ww.uSpaceCount = 20 ∧ p'.column = 5 ∧
      p'.console = [.char SP, .char SP] := by
  obtain ⟨p', t, s, h, ht, _, _, hs, hb, hc, hcol, _, hcon, _⟩ :=
    print_character_HT { column := 3 } rfl (by decide) (by decide) (by decide) (by decide)
  subst ht
  subst hs
  exact ⟨p', h, hb.trans rfl, hc.trans rfl, hcol.trans rfl, hcon.trans rfl⟩

/-- C28: in ground state the backspace character changes nothing when the
column is 1; when the column is above 1 it puts the words 0x121, 0x006, 0x000,
`uSpacesPerChar` on the bus, subtracts `uSpacesPerChar` from the count (as a
16-bit number: exactly `count - uSpacesPerChar` when the count is not smaller),
lowers the column by one and echoes BS; attribute, escape state and pitch are
unchanged. -/
theorem print_character_BS (p : Printer) (hg : p.escape = 0)
    (hu : p.ww.uSpacesPerChar < 256) (hcol : p.column ≤ 255) :
    (p.column = 1 → print_character BS p = .ok p) ∧
    (p.column > 1 →
      ∃ p', print_character BS p = .ok p' ∧
        p'.ww.bus = p.ww.bus ++ [0x121, 0x006, 0x000, p.ww.uSpacesPerChar] ∧
        p'.ww.uSpaceCount = (p.ww.uSpaceCount + 65536 - p.ww.uSpacesPerChar) % 65536 ∧
        (p.ww.uSpacesPerChar ≤ p.ww.uSpaceCount → p.ww.uSpaceCount < 65536 →
          p'.ww.uSpaceCount = p.ww.uSpaceCount - p.ww.uSpacesPerChar) ∧
        p'.column = p.column - 1 ∧
        p'.console = p.console ++ [.char BS] ∧
        p'.attrib = p.attrib ∧ p'.escape = 0 ∧ p'.tabStop = p.tabStop ∧
        p'.ww.uSpacesPerChar = p.ww.uSpacesPerChar) := by
  constructor
  · intro h1
    unfold print_character
    rw [if_pos hg, print_character_ground_BS, if_neg (by omega)]
  · intro h1
    obtain ⟨hb, hc, hp, _⟩ := ww_backspace_spec p.ww hu
    refine ⟨putchar BS { p with ww := ww_backspace p.ww, column := (p.column + 255) % 256 },
      ?_, hb, hc, ?_, ?_, rfl, rfl, hg, rfl, hp⟩
    · unfold print_character
      rw [if_pos hg, print_character_ground_BS, if_pos h1]
    · intro h2 h3
      show (ww_backspace p.ww).uSpaceCount = p.ww.uSpaceCount - p.ww.uSpacesPerChar
      rw [hc]
      omega
    · show (p.column + 255) % 256 = p.column - 1
      omega

/-- C28, instance: a backspace at column 3, count 20, and a backspace at column
1. -/
theorem print_character_BS_witness :
    (∃ p', print_character BS { ww := { uSpaceCount := 20 }, column := 3 } = .ok p' ∧
      p'.ww.bus = [0x121, 0x006, 0x000, 10] ∧ p'.ww.uSpaceCount = 10 ∧ p'.column = 2 ∧
      p'.console = [.char BS]) ∧
    print_character BS {} = .ok {} := by
  obtain ⟨p', h, hb, hc, _, hcol, hcon, _⟩ :=
    (print_character_BS { ww := { uSpaceCount := 20 }, column := 3 } rfl (by decide)
      (by decide)).2 (by decide)
  exact ⟨⟨p', h, hb.trans rfl, hc.trans rfl, hcol.trans rfl, hcon.trans rfl⟩,
    (print_character_BS {} rfl (by decide) (by decide)).1 rfl⟩

set_option maxRecDepth 100000 in
/-- C29, counterexample: from the initial state the bytes `a`, ESC, `p`, BS
print one letter at 10 micro-spaces, select the 12 micro-space pitch and step
back: the count becomes 10 - 12 modulo 65536 = 65534. Likewise `a`, ESC, BS, BS
(one micro-space back, then a backspace) leaves 9 - 10 modulo 65536 = 65535. -/
theorem backspace_wraps_count :
    (print_string [0x61, ESC, 0x70, BS] {}).map (fun p => (p.ww.uSpaceCount, p.column))
      = .ok (65534, 1) ∧
    (print_string [0x61, ESC, BS, BS] {}).map (fun p => (p.ww.uSpaceCount, p.column))
      = .ok (65535, 1) :=
  ⟨rfl, rfl⟩

/-- C29, amended: the count is lowered by the micro backspace ESC BS, which
subtracts 1 only from a non-zero count and so never wraps, and by the backspace
BS, which for a column above 1 subtracts `uSpacesPerChar` whatever the count is:
the result is `count - uSpacesPerChar` when the count is not smaller and
`count + 65536 - uSpacesPerChar` (a wrap) when it is smaller. For a stream of
printable characters, BS, CR and LF only, started with
`uSpaceCount = uSpacesPerChar * (column - 1)` and too short to reach the automatic
return, that equation holds again at the end (and so after every byte), and no
backspace wraps. -/
theorem uSpaceCount_subtraction (p : Printer) (hu : p.ww.uSpacesPerChar < 256)
    (hc : p.ww.uSpaceCount < 65536) :
    (p.escape = 1 →
      ∃ p', print_character BS p = .ok p' ∧ p'.ww.uSpaceCount = p.ww.uSpaceCount - 1) ∧
    (p.escape = 0 → p.column > 1 →
      ∃ p', print_character BS p = .ok p' ∧
        (p.ww.uSpacesPerChar ≤ p.ww.uSpaceCount →
          p'.ww.uSpaceCount = p.ww.uSpaceCount - p.ww.uSpacesPerChar) ∧
        (p.ww.uSpaceCount < p.ww.uSpacesPerChar →
          p'.ww.uSpaceCount = p.ww.uSpaceCount + 65536 - p.ww.uSpacesPerChar)) ∧
    (p.escape = 0 → 1 ≤ p.column →
      p.ww.uSpaceCount = p.ww.uSpacesPerChar * (p.column - 1) →
      ∀ cs : List Nat, p.ww.uSpacesPerChar * (p.column - 1 + cs.length) ≤ 1319 →
        p.column + cs.length ≤ 255 →
        (∀ c ∈ cs, c = BS ∨ c = CR ∨ c = LF ∨ (0x20 ≤ c ∧ c ≤ 0x7E)) →
        ∃ p', print_string cs p = .ok p' ∧ 1 ≤ p'.column ∧
          p'.ww.uSpacesPerChar = p.ww.uSpacesPerChar ∧
          p'.ww.uSpaceCount = p.ww.uSpacesPerChar * (p'.column - 1)) := by
  refine ⟨?_, ?_, ?_⟩
  · intro he
    rw [print_character_of_esc1 BS p he]
    exact ⟨_, rfl, ww_micro_backspace_count p.ww hc⟩
  · intro hg h1
    obtain ⟨_, hcnt, _, _⟩ := ww_backspace_spec p.ww hu
    refine ⟨putchar BS { p with ww := ww_backspace p.ww, column := (p.column + 255) % 256 },
      ?_, ?_, ?_⟩
    · unfold print_character
      rw [if_pos hg, print_character_ground_BS, if_pos h1]
    · intro h2
      show (ww_backspace p.ww).uSpaceCount = _
      rw [hcnt]
      omega
    · intro h2
      show (ww_backspace p.ww).uSpaceCount = _
      rw [hcnt]
      omega
  · intro hg h1 hinv cs hb hcol hcs
    obtain ⟨p', hp', _, pu, pp1, pinv, _⟩ := print_string_count cs p hg hu h1 hinv hb hcol hcs
    exact ⟨p', hp', pp1, pu, by rw [pinv, pu]⟩

set_option maxRecDepth 100000 in
/-- C29, instance: `a`, `b`, BS, BS, `c` from the initial state ends at column 2
with count 10; a backspace at count 8 with pitch 12 wraps to 65532. -/
theorem uSpaceCount_subtraction_witness :
    (∃ p', print_string [0x61, 0x62, BS, BS, 0x63] {} = .ok p' ∧ 1 ≤ p'.column ∧
      p'.ww.uSpacesPerChar = 10 ∧ p'.ww.uSpaceCount = 10 * (p'.column - 1)) ∧
    (∃ p', print_character BS { ww := { uSpacesPerChar := 12, uSpaceCount := 8 }, column := 2 }
        = .ok p' ∧ p'.ww.uSpaceCount = 65532) := by
  refine ⟨(uSpaceCount_subtraction {} (by decide) (by decide)).2.2 rfl (by decide) rfl
    [0x61, 0x62, BS, BS, 0x63] (by decide) (by decide) (by decide), ?_⟩
  obtain ⟨p', h, _, h2⟩ := (uSpaceCount_subtraction
    { ww := { uSpacesPerChar := 12, uSpaceCount := 8 }, column := 2 } (by decide)
    (by decide)).2.1 rfl (by decide)
  exact ⟨p', h, h2 (by decide)⟩

/-- C30: the serial 1 receive queue is first-in first-out. For every run of
events (a non-zero word arrives and `uart1_isr` stores it, or `ww_get_data` is
called) in which at most 8 words are unread at any time and `ww_get_data` is only
called with a word unread, the calls return the stored words in the order of
their arrival, as the reference queue `fifo_run` does; `ww_data_avail` is true
exactly when a word is unread; and one receive interrupt either appends its word
behind the unread words or (a dropped zero word) leaves them as they are. The
indices `rx1_head` and `rx1_tail` may have any values below 256, so the wrap
from 255 to 0 is included. -/
theorem rx_queue_fifo (w : WW) (hlen : w.rx1_buf.length = 8) (hh : w.rx1_head < 256)
    (ht : w.rx1_tail < 256) :
    (ww_data_avail w = true ↔ rx_unread w ≠ []) ∧
    (∀ (es : List RxEvent) (outs q' : List Nat),
      (∀ x, RxEvent.arrive x ∈ es → 0 < x ∧ x < 512) →
      fifo_run es (rx_unread w) = some (outs, q') →
      ∃ w', rx_run es w = .ok (outs, w') ∧ rx_unread w' = q' ∧
        (ww_data_avail w' = true ↔ q' ≠ [])) ∧
    (∀ x, x < 512 → (rx_unread w).length < 8 →
      rx_unread (uart1_receive [x] w) = rx_unread w ++ [x] ∨
      (x = 0 ∧ rx_unread (uart1_receive [x] w) = rx_unread w)) := by
  refine ⟨ww_data_avail_iff w hh ht, ?_, ?_⟩
  · intro es outs q' hes hf
    obtain ⟨w', hr, hq, _, g2, g3⟩ := rx_run_fifo es w hlen hh ht hes outs q' hf
    exact ⟨w', hr, hq, by rw [← hq]; exact ww_data_avail_iff w' g2 g3⟩
  · intro x hx hn
    obtain ⟨htl, hst⟩ := uart1_receive_one x w hx
    rcases hst with ⟨hb, hd⟩ | ⟨h0, hb, hd⟩
    · exact Or.inl (rx_unread_store w _ x hlen hh ht hn hb hd htl)
    · refine Or.inr ⟨h0, ?_⟩
      unfold rx_unread
      rw [hb, hd, htl]

/-- C30, instance: with `rx1_head = rx1_tail = 254` three words arrive and are
read across the wrap of both indices from 255 to 0, in the order of arrival. -/
theorem rx_queue_fifo_witness :
    ∃ w', rx_run [.arrive 0x121, .arrive 0x005, .get, .arrive 0x090, .get, .get]
        { rx1_head := 254, rx1_tail := 254 } = .ok ([0x121, 0x005, 0x090], w') ∧
      rx_unread w' = [] ∧ ww_data_avail w' = false := by
  obtain ⟨w', h, hq, ha⟩ :=
    (rx_queue_fifo { rx1_head := 254, rx1_tail := 254 } rfl (by decide) (by decide)).2.1
      [.arrive 0x121, .arrive 0x005, .get, .arrive 0x090, .get, .get] [0x121, 0x005, 0x090] []
      (fun x hx => by
        simp only [List.mem_cons, RxEvent.arrive.injEq, List.mem_singleton, reduceCtorEq,
          List.mem_nil_iff, or_false, false_or] at hx
        rcases hx with h | h | h <;> subst h <;> decide)
      rfl
  exact ⟨w', h, hq, Bool.eq_false_iff.mpr (fun hav => (ha.mp hav) rfl)⟩

/-- C31: with Ctrl and Alt not latched and the parser in ground state, a
printable key 0x20..0x7E that does not trigger the automatic return, typed with
fewer than 64 characters buffered, followed by Delete (either Delete key), makes
the Delete emit 0x121, 0x006, 0x000, n, 0x121, 0x004, `printwheelChar[key-0x20]`,
n with n = `uSpacesPerChar` and brings `uSpaceCount`, `column` and `keybufptr`
back to their values before the key; Delete with `keybufptr` 0 changes nothing. -/
theorem handle_key_delete_erases (k : Kb) (key del : Nat) (e : Editor)
    (hctrl : k.kb_ctrl = false) (halt : k.kb_alt = false) (hg : e.printer.escape = 0)
    (h1 : 0x20 ≤ key) (h2 : key ≤ 0x7E) (hu : e.printer.ww.uSpacesPerChar < 256)
    (hnw : e.printer.ww.uSpaceCount + e.printer.ww.uSpacesPerChar ≤ 1319)
    (hptr : e.keybufptr < 64) (hlen : e.keybuffer.length = 64) (hcol : e.printer.column ≤ 255)
    (hdel : del = PS2_KEY_DELETE ∨ del = PS2_KEY_KP_DELETE) :
    (∃ e1 e2, handle_key k key e = .ok e1 ∧ handle_key k del e1 = .ok e2 ∧
      e2.printer.ww.bus = e1.printer.ww.bus ++
        [0x121, 0x006, 0x000, e.printer.ww.uSpacesPerChar, 0x121, 0x004,
          printwheelChar.getD (key - 0x20) 0, e.printer.ww.uSpacesPerChar] ∧
      e2.printer.ww.uSpaceCount = e.printer.ww.uSpaceCount ∧
      e2.printer.column = e.printer.column ∧ e2.keybufptr = e.keybufptr) ∧
    (e.keybufptr = 0 → handle_key k del e = .ok e) := by
  constructor
  · obtain ⟨e1, he1, hb, hp, _, hcol1, hsp, hcnt⟩ :=
      handle_key_printable k key e hctrl halt hg h1 h2 hlen
    obtain ⟨w2, hw2, hbus2, hcnt2, _⟩ := ww_erase_letter_spec key e1.printer.ww h1 (by omega)
    have hidx : (e1.keybufptr + 255) % 256 = e.keybufptr := by omega
    have hrd : readXdata e1.keybuffer e.keybufptr = .ok key := by
      unfold readXdata
      rw [hb, and_3F_of_lt _ hptr, List.length_set, if_pos (by omega),
        getD_set_self _ _ _ (by omega)]
    refine ⟨e1, { e1 with
        keybufptr := e.keybufptr,
        printer := putchar BS (putchar SP (putchar BS
          { e1.printer with ww := w2, column := (e1.printer.column + 255) % 256 })) },
      he1, ?_, ?_, ?_, ?_, rfl⟩
    · rw [handle_key_plain_of k del e1 hctrl halt, handle_key_plain_delete del e1 hdel,
        if_pos (by omega), hidx, hrd]
      show (ww_erase_letter key e1.printer.ww >>= _) = _
      rw [hw2]
      rfl
    · show w2.bus = _
      rw [hbus2, hsp, wireWord_of_lt _ (by omega)]
    · show w2.uSpaceCount = _
      rw [hcnt2, hcnt, hsp, if_neg (by omega)]
      omega
    · show (e1.printer.column + 255) % 256 = _
      rw [hcol1]
      omega
  · intro h0
    rw [handle_key_plain_of k del e hctrl halt, handle_key_plain_delete del e hdel,
      if_neg (by simp [h0])]
    rfl

set_option maxRecDepth 100000 in
/-- C31, instance: the key `a` then Delete from the initial state; the Delete
sends the erase words for wheel code 0x01 with 10 micro-spaces, and count,
column and buffer pointer are again 0, 1 and 0. -/
theorem handle_key_delete_erases_witness :
    ∃ e1 e2, handle_key {} 0x61 {} = .ok e1 ∧ handle_key {} PS2_KEY_DELETE e1 = .ok e2 ∧
      e2.printer.ww.bus = e1.printer.ww.bus ++
        [0x121, 0x006, 0x000, 10, 0x121, 0x004, 0x01, 10] ∧
      e2.printer.ww.uSpaceCount = 0 ∧ e2.printer.column = 1 ∧ e2.keybufptr = 0 :=
  (handle_key_delete_erases {} 0x61 PS2_KEY_DELETE {} rfl rfl rfl (by decide) (by decide)
    (by decide) (by decide) (by decide) rfl (by decide) (Or.inl rfl)).1

/-- C32, evaluation at the failing input: from idle with both Shift keys up,
left Shift is pressed, right Shift is pressed, left Shift is released. Right
Shift is still held, and `kb_shift_pressed` returns false; likewise when the
right key is released while the left one is held. After either make code alone
it returns true. -/
theorem kb_shift_released_while_held :
    (kb_decode_all false [0x12, 0x59, 0xF0, 0x12] {}).map (fun r => kb_shift_pressed r.2)
      = .ok false ∧
    (kb_decode_all false [0x12, 0x59, 0xF0, 0x59] {}).map (fun r => kb_shift_pressed r.2)
      = .ok false ∧
    (kb_decode_all false [0x12, 0x59] {}).map (fun r => kb_shift_pressed r.2) = .ok true :=
  ⟨rfl, rfl, rfl⟩

/-- C33: in idle state eleven of the twelve function-key scancodes return the
key code the scancode table names for them; scancode 0x01, named F9 in the
table, returns `PS2_KEY_F1` like scancode 0x05, and `PS2_KEY_F9` is returned
for none of the twelve. -/
theorem kb_decode_function_keys (ack : Bool) (k : Kb) (hk : k.kb_state = 0) :
    (∀ t ∈ [(0x05, PS2_KEY_F1), (0x06, PS2_KEY_F2), (0x04, PS2_KEY_F3), (0x0C, PS2_KEY_F4),
            (0x03, PS2_KEY_F5), (0x0B, PS2_KEY_F6), (0x83, PS2_KEY_F7), (0x0A, PS2_KEY_F8),
            (0x09, PS2_KEY_F10), (0x78, PS2_KEY_F11), (0x07, PS2_KEY_F12)],
      kb_decode_scancode ack t.1 k = .ok (t.2, k)) ∧
    kb_decode_scancode ack 0x01 k = .ok (PS2_KEY_F1, k) ∧
    PS2_KEY_F1 ≠ PS2_KEY_F9 ∧
    (∀ s ∈ [0x05, 0x06, 0x04, 0x0C, 0x03, 0x0B, 0x83, 0x0A, 0x01, 0x09, 0x78, 0x07],
      kb_decode_scancode ack s k ≠ .ok (PS2_KEY_F9, k)) := by
  refine ⟨?_, ?_, by decide, ?_⟩
  · intro t ht
    rw [kb_decode_scancode_idle ack t.1 k hk]
    simp only [List.mem_cons, List.mem_singleton, List.mem_nil_iff, or_false] at ht
    rcases ht with h | h | h | h | h | h | h | h | h | h | h <;> subst h <;> rfl
  · rw [kb_decode_scancode_idle ack _ k hk]
    rfl
  · intro s hs
    rw [kb_decode_scancode_idle ack s k hk]
    simp only [List.mem_cons, List.mem_singleton, List.mem_nil_iff, or_false] at hs
    rcases hs with h | h | h | h | h | h | h | h | h | h | h | h <;> subst h <;>
      (intro hc; injection hc with hc; injection hc with hc _; revert hc; decide)

/-- C33, instance: scancode 0x01 in the initial state returns 0xA0, the code of
F1; the code of F9 is 0xA8. -/
theorem kb_decode_function_keys_witness :
    kb_decode_scancode false 0x01 {} = .ok (0xA0, {}) ∧ PS2_KEY_F9 = 0xA8 :=
  ⟨(kb_decode_function_keys false {} rfl).2.1, rfl⟩

/-- C34: with no acknowledge pending, a received word `x` sets the counter to 1
when it is 0x121 and increments it (as a byte) otherwise; a non-zero word is
stored at `rx1_buf[rx1_head & 7]` with `rx1_head` advanced; a zero word is stored
when the counter after this update is odd and dropped when it is even. After a
0x121 followed by words other than 0x121, the counter after a zero word is odd
exactly when the number of words received since the 0x121, the zero word
included, is even. -/
theorem uart1_isr_counter (x : Nat) (w : WW) (hx : x < 512)
    (hw : w.waitingForAcknowledge = false) :
    (uart1_receive [x] w).count = (if x = 0x121 then 1 else (w.count + 1) % 256) ∧
    (x ≠ 0 ∨ (uart1_receive [x] w).count % 2 = 1 →
      (uart1_receive [x] w).rx1_buf = w.rx1_buf.set (w.rx1_head &&& 7) x ∧
      (uart1_receive [x] w).rx1_head = (w.rx1_head + 1) % 256) ∧
    (x = 0 → (uart1_receive [x] w).count % 2 = 0 →
      (uart1_receive [x] w).rx1_buf = w.rx1_buf ∧
      (uart1_receive [x] w).rx1_head = w.rx1_head) ∧
    (∀ ws : List Nat, (∀ y ∈ ws, y < 512 ∧ y ≠ 0x121) →
      ((uart1_receive (0x121 :: ws ++ [0]) w).count % 2 = 1 ↔ (ws.length + 1) % 2 = 0)) := by
  obtain ⟨hc, _, hst, hdr⟩ := uart1_receive_idle x w hx hw
  refine ⟨hc, ?_, ?_, ?_⟩
  · intro h
    apply hst
    rcases h with h | h
    · exact Or.inl h
    · right
      rw [← hc]
      omega
  · intro h0 h
    apply hdr
    rintro (h1 | h1)
    · exact h1 h0
    · rw [← hc] at h1
      omega
  · intro ws hws
    obtain ⟨hc1, hw1, _, _⟩ := uart1_receive_idle 0x121 w (by decide) hw
    rw [if_pos rfl] at hc1
    have hp : uart1_receive (0x121 :: ws) w = uart1_receive ws (uart1_receive [0x121] w) := rfl
    obtain ⟨g1, g2⟩ := uart1_receive_count ws (uart1_receive [0x121] w) hw1 hws
    rw [← hp, hc1] at g2
    rw [← hp] at g1
    obtain ⟨hc0, _, _, _⟩ := uart1_receive_idle 0 (uart1_receive (0x121 :: ws) w) (by decide) g1
    rw [if_neg (by decide)] at hc0
    rw [show 0x121 :: ws ++ [0] = (0x121 :: ws) ++ [0] from rfl, uart1_receive_append, hc0]
    omega

/-- C34, instance: from the initial state the words 0x121, 0x00E, 0 leave the
counter at 3 and three words stored; a zero word received first after 0x121 is
dropped. -/
theorem uart1_isr_counter_witness :
    (uart1_receive [0x121, 0x00E, 0] {}).count % 2 = 1 ∧
    (uart1_receive [0] { count := 1 }).rx1_head = 0 := by
  refine ⟨((uart1_isr_counter 0 {} (by decide) rfl).2.2.2 [0x00E] (by decide)).mpr rfl, ?_⟩
  exact ((uart1_isr_counter 0 { count := 1 } (by decide) rfl).2.2.1 rfl rfl).2

/-- C35: in idle state with Caps Lock off, a scancode below 0x80 without a case
of its own in the switch returns `unshifted[scancode]` when Shift is not latched
and `shifted[scancode]` when it is; the decoder state (idle, the Ctrl, Alt and
Shift latches, the lock bits, the commands sent) is unchanged. -/
theorem kb_decode_table_lookup (ack : Bool) (scancode : Nat) (k : Kb)
    (hidle : k.kb_state = 0) (hcaps : k.kb_leds &&& CAPS_LOCK = 0) (hsc : scancode < 0x80)
    (hl : scancode ∉ idleCaseLabels) :
    (k.kb_shift = false →
      kb_decode_scancode ack scancode k = .ok (unshifted.getD scancode 0, k)) ∧
    (k.kb_shift = true →
      kb_decode_scancode ack scancode k = .ok (shifted.getD scancode 0, k)) := by
  unfold kb_decode_scancode
  rw [if_pos hidle, kb_decode_idle_table ack scancode k hl hsc hcaps]
  constructor <;> intro hs <;> rw [hs] <;> rfl

/-- C35, instance: scancode 0x1E (the key `2`) with Ctrl latched decodes to `2`,
and to `@` with Shift latched. -/
theorem kb_decode_table_lookup_witness :
    kb_decode_scancode false 0x1E { kb_ctrl := true } = .ok (0x32, { kb_ctrl := true }) ∧
    kb_decode_scancode false 0x1E { kb_shift := true } = .ok (0x40, { kb_shift := true }) :=
  ⟨(kb_decode_table_lookup false 0x1E { kb_ctrl := true } rfl rfl (by decide) (by decide)).1 rfl,
   (kb_decode_table_lookup false 0x1E { kb_shift := true } rfl rfl (by decide) (by decide)).2
     rfl⟩

set_option maxRecDepth 100000 in
/-- C36, counterexample: the key `1` (scancode 0x16) with Shift latched decodes
to `!` with Caps Lock off and to `1` with Caps Lock on, although it is no
letter. -/
theorem caps_lock_changes_shifted_digit :
    kb_decode_scancode false 0x16 { kb_shift := true } = .ok (0x21, { kb_shift := true }) ∧
    kb_decode_scancode false 0x16 { kb_shift := true, kb_leds := 0x04 }
      = .ok (0x31, { kb_shift := true, kb_leds := 0x04 }) :=
  ⟨rfl, rfl⟩

/-- C36, amended: in idle state with Caps Lock on, a table-decoded scancode
returns, without Shift, `unshifted[scancode]` with a lower-case letter a-z
replaced by its capital and every other character as it is; with Shift latched
it returns `unshifted[scancode]` for every key, so a letter comes out in lower
case (the case swap of `shifted[scancode]`, which is its capital) and a digit or
punctuation key gives its unshifted character. The decoder state is unchanged. -/
theorem kb_decode_caps_lock (ack : Bool) (scancode : Nat) (k : Kb)
    (hidle : k.kb_state = 0) (hcaps : k.kb_leds &&& CAPS_LOCK ≠ 0) (hsc : scancode < 0x80)
    (hl : scancode ∉ idleCaseLabels) :
    (k.kb_shift = false →
      kb_decode_scancode ack scancode k =
        .ok (if 0x60 < unshifted.getD scancode 0 ∧ unshifted.getD scancode 0 < 0x7B
             then unshifted.getD scancode 0 - 0x20 else unshifted.getD scancode 0, k)) ∧
    (k.kb_shift = true →
      kb_decode_scancode ack scancode k = .ok (unshifted.getD scancode 0, k)) ∧
    (0x60 < unshifted.getD scancode 0 ∧ unshifted.getD scancode 0 < 0x7B →
      shifted.getD scancode 0 = unshifted.getD scancode 0 - 0x20) := by
  have hd : kb_decode_scancode ack scancode k = kb_decode_idle ack scancode k := by
    unfold kb_decode_scancode
    rw [if_pos hidle]
  rw [hd, kb_decode_idle_default ack scancode k hl,
    if_neg (show ¬ (k.kb_shift = true ∧ ¬ (k.kb_leds &&& CAPS_LOCK ≠ 0)) from
      fun h => h.2 hcaps),
    readCode_nat unshifted scancode hsc]
  simp only [Except.bind, pure, Except.pure]
  refine ⟨?_, ?_, shifted_of_letter scancode hsc⟩
  · intro hs
    rw [if_pos (show (k.kb_leds &&& CAPS_LOCK ≠ 0) ∧ ¬ k.kb_shift = true from
      ⟨hcaps, by rw [hs]; decide⟩)]
  · intro hs
    rw [if_neg (show ¬ ((k.kb_leds &&& CAPS_LOCK ≠ 0) ∧ ¬ k.kb_shift = true) from
      fun h => h.2 hs)]

set_option maxRecDepth 100000 in
/-- C36, instance: with Caps Lock on the key `a` (scancode 0x1C) gives `A`
without Shift and `a` with Shift, and the key `1` gives `1` either way. -/
theorem kb_decode_caps_lock_witness :
    kb_decode_scancode false 0x1C { kb_leds := 0x04 } = .ok (0x41, { kb_leds := 0x04 }) ∧
    kb_decode_scancode false 0x1C { kb_shift := true, kb_leds := 0x04 }
      = .ok (0x61, { kb_shift := true, kb_leds := 0x04 }) ∧
    kb_decode_scancode false 0x16 { kb_leds := 0x04 } = .ok (0x31, { kb_leds := 0x04 }) :=
  ⟨(kb_decode_caps_lock false 0x1C { kb_leds := 0x04 } rfl (by decide) (by decide)
      (by decide)).1 rfl,
   (kb_decode_caps_lock false 0x1C { kb_shift := true, kb_leds := 0x04 } rfl (by decide)
      (by decide) (by decide)).2.1 rfl,
   (kb_decode_caps_lock false 0x16 { kb_leds := 0x04 } rfl (by decide) (by decide)
      (by decide)).1 rfl⟩

/-- C37: every write of the line buffer goes to index `keybufptr & 0x3F`, which
is below 64, but Delete reads `keybuffer[--keybufptr]` with no mask: after
printable keys have brought `keybufptr` above 64 (and below 256), Delete reads
index `keybufptr - 1`, which is 64 or more, outside the 64-entry buffer. -/
theorem handle_key_delete_unmasked (k : Kb) (keys : List Nat) (e : Editor) (del : Nat)
    (hctrl : k.kb_ctrl = false) (halt : k.kb_alt = false) (hg : e.printer.escape = 0)
    (hlen : e.keybuffer.length = 64)
    (hkeys : ∀ key ∈ keys, 0x20 ≤ key ∧ key ≤ 0x7E)
    (h64 : 64 < e.keybufptr + keys.length) (h256 : e.keybufptr + keys.length < 256)
    (hdel : del = PS2_KEY_DELETE ∨ del = PS2_KEY_KP_DELETE) :
    ∃ e1, handle_keys k keys e = .ok e1 ∧ e1.keybufptr = e.keybufptr + keys.length ∧
      e1.keybuffer.length = 64 ∧
      handle_key k del e1 = .error (.oobRead ((e.keybufptr + keys.length - 1 : Nat) : Int)) ∧
      64 ≤ e.keybufptr + keys.length - 1 ∧
      (∀ c, e1.keybufptr &&& 0x3F < 64 ∧
        keybuffer_put c e1 =
          .ok { e1 with keybuffer := e1.keybuffer.set (e1.keybufptr &&& 0x3F) c,
                        keybufptr := (e1.keybufptr + 1) % 256 }) := by
  obtain ⟨e1, h1, l1, _, p1⟩ :=
    handle_keys_printable k hctrl halt keys e hg hlen (by omega) hkeys
  have hp : e1.keybufptr = e.keybufptr + keys.length := by
    rw [p1]
    exact Nat.mod_eq_of_lt h256
  refine ⟨e1, h1, hp, l1, ?_, by omega, fun c => ⟨and_3F_lt _, keybuffer_put_spec c e1 l1⟩⟩
  have hidx : (e1.keybufptr + 255) % 256 = e.keybufptr + keys.length - 1 := by omega
  rw [handle_key_plain_of k del e1 hctrl halt, handle_key_plain_delete del e1 hdel,
    if_pos (by omega), hidx]
  unfold readXdata
  rw [if_neg (by omega)]
  rfl

/-- C37, instance: sixty-five keys `a` from the initial state, then Delete: the
Delete reads `keybuffer[64]`. -/
theorem handle_key_delete_unmasked_witness :
    ∃ e1, handle_keys {} (List.replicate 65 0x61) {} = .ok e1 ∧
      handle_key {} PS2_KEY_DELETE e1 = .error (.oobRead 64) := by
  obtain ⟨e1, h1, _, _, h4, _⟩ :=
    handle_key_delete_unmasked {} (List.replicate 65 0x61) {} PS2_KEY_DELETE rfl rfl rfl rfl
      (fun key hkey => by rw [List.eq_of_mem_replicate hkey]; decide) (by decide) (by decide)
      (Or.inl rfl)
  exact ⟨e1, h1, h4⟩

/-- C38: in ground state a byte that is none of the control characters with a
case of their own is passed to `ww_print_letter`, which reads `printwheelChar` at
index `byte - 0x20`: for a byte below 0x20 or above 0xBF that index is outside
0..159 (the read is out of the table), for 0x20..0xBF it is inside and the step
is defined. -/
theorem print_character_table_index (c : Nat) (p : Printer) (hg : p.escape = 0)
    (hc : c ∉ [NUL, BEL, BS, HT, LF, VT, CR, ESC]) :
    (c < 0x20 ∨ 0xBF < c →
      print_character c p = .error (.oobRead ((c : Int) - 0x20)) ∧
      ¬ (0 ≤ (c : Int) - 0x20 ∧ (c : Int) - 0x20 < 160)) ∧
    (0x20 ≤ c ∧ c ≤ 0xBF →
      (∃ p', print_character c p = .ok p') ∧ c - 0x20 < printwheelChar.length) := by
  have hp : print_character c p = print_character_ground c p := by
    unfold print_character
    rw [if_pos hg]
  rw [hp]
  constructor
  · intro h
    rw [print_character_ground_other c p hc,
      ww_print_letter_oob c p.attrib p.ww (by omega)]
    exact ⟨rfl, by omega⟩
  · intro h
    obtain ⟨w', hw, _⟩ := ww_print_letter_spec c p.attrib p.ww h.1 h.2
    obtain ⟨p', hp', _⟩ := print_character_ground_letter c p w' h.1 hw
    refine ⟨⟨p', hp'⟩, ?_⟩
    rw [show printwheelChar.length = 160 from rfl]
    omega

/-- C38, instance: the byte 0xC0 reads index 160, one past the table, and the
byte 0x1F reads index -1. -/
theorem print_character_table_index_witness :
    print_character 0xC0 {} = .error (.oobRead 160) ∧
    print_character 0x1F {} = .error (.oobRead (-1)) :=
  ⟨((print_character_table_index 0xC0 {} rfl (by decide)).1 (Or.inr (by decide))).1,
   ((print_character_table_index 0x1F {} rfl (by decide)).1 (Or.inl (by decide))).1⟩

/-- C39: for a character `c` in 0x21..0x7E present on the wheel, the table
entry `printwheelChar[c-0x20]` lies in 1..96 and `ww_print_letter` sends 0x121,
0x003 and that entry first; for every such `c` except the apostrophe 0x27,
`printwheel2ASCII[entry - 1]` is `c` and `parseWWdata`, fed the three words,
echoes `c`; for the apostrophe the decoder table holds 0x60 and 0x60 is echoed;
every non-zero entry of `printwheelChar` lies in 1..96. -/
theorem printwheel_round_trip (c u l attrib : Nat) (w : WW) (h1 : 0x21 ≤ c) (h2 : c ≤ 0x7E)
    (hw : printwheelChar.getD (c - 0x20) 0 ≠ 0) :
    1 ≤ printwheelChar.getD (c - 0x20) 0 ∧ printwheelChar.getD (c - 0x20) 0 ≤ 96 ∧
    (∃ w' rest, ww_print_letter c attrib w = .ok w' ∧
      w'.bus = w.bus ++ [0x121, 0x003, printwheelChar.getD (c - 0x20) 0] ++ rest) ∧
    (c ≠ 0x27 →
      printwheel2ASCII.getD (printwheelChar.getD (c - 0x20) 0 - 1) 0 = c ∧
      parseWWwords u l [0x121, 0x003, printwheelChar.getD (c - 0x20) 0] {} =
        .ok { state := 0, echo := [c] }) ∧
    (c = 0x27 →
      parseWWwords u l [0x121, 0x003, printwheelChar.getD (c - 0x20) 0] {} =
        .ok { state := 0, echo := [0x60] }) ∧
    (∀ x ∈ printwheelChar, x ≠ 0 → 1 ≤ x ∧ x ≤ printwheel2ASCII.length) := by
  obtain ⟨g1, g2, g3⟩ := printwheel_tables c (by omega) h1 hw
  refine ⟨g1, g2, ww_print_letter_head c attrib w (by omega) (by omega), ?_, ?_,
    fun x hx h0 => ⟨Nat.one_le_iff_ne_zero.mpr h0, printwheelChar_le_96 x hx⟩⟩
  · intro hne
    refine ⟨g3 hne, ?_⟩
    rw [parseWWwords_letter u l _ g1 g2, g3 hne]
  · intro he
    subst he
    rw [parseWWwords_letter u l _ g1 g2]
    rfl

set_option maxRecDepth 100000 in
/-- C39, instance: the letter `a` is echoed as `a`; the apostrophe is sent as
wheel code 0x4C and echoed as 0x60. -/
theorem printwheel_round_trip_witness :
    parseWWwords 10 16 [0x121, 0x003, 0x01] {} = .ok { state := 0, echo := [0x61] } ∧
    parseWWwords 10 16 [0x121, 0x003, 0x4C] {} = .ok { state := 0, echo := [0x60] } :=
  ⟨((printwheel_round_trip 0x61 10 16 0 {} (by decide) (by decide) (by decide)).2.2.2.1
      (by decide)).2,
   (printwheel_round_trip 0x27 10 16 0 {} (by decide) (by decide) (by decide)).2.2.2.2.1 rfl⟩

set_option maxRecDepth 1000000 in
/-- C40, counterexample: forty-two horizontal tabs from the initial state bring
`uSpaceCount` to 2090 (no step tests the right margin), and the carriage return
that follows sends the distance words 0x000, 0x02A, that is 42 micro-spaces. -/
theorem tabs_exceed_eleven_bits :
    (print_string (List.replicate 42 HT) {}).map (fun p => p.ww.uSpaceCount) = .ok 2090 ∧
    (print_string (List.replicate 42 HT ++ [CR]) {}).map (fun p => p.ww.bus.drop (4 * 42))
      = .ok [0x121, 0x006, 0x000, 0x02A] := by
  constructor <;> rfl

/-- C40, amended: a byte stream of printable characters 0x20..0x7E, CR and LF,
fed to `print_character` in ground state from a count of at most 1319 (the
initial state has 0), is accepted and leaves `uSpaceCount` at most 1319, below
2048 (every prefix of such a stream is such a stream); the carriage return
always sends the count modulo 2048, hence the count itself after such a stream;
a horizontal tab adds its distance modulo 65536 with no test of the margin. -/
theorem uSpaceCount_bound (p : Printer) (cs : List Nat) (hg : p.escape = 0)
    (hu : p.ww.uSpacesPerChar < 256) (hc : p.ww.uSpaceCount ≤ 1319)
    (hcs : ∀ c ∈ cs, c = CR ∨ c = LF ∨ (0x20 ≤ c ∧ c ≤ 0x7E)) :
    (∃ p', print_string cs p = .ok p' ∧ p'.ww.uSpaceCount ≤ 1319 ∧
      (ww_carriage_return p'.ww).bus = p'.ww.bus ++
        [0x121, 0x006, (p'.ww.uSpaceCount >>> 8) &&& 0x007, p'.ww.uSpaceCount &&& 0xFF] ∧
      256 * ((p'.ww.uSpaceCount >>> 8) &&& 0x007) + (p'.ww.uSpaceCount &&& 0xFF)
        = p'.ww.uSpaceCount) ∧
    (∀ w : WW, (ww_carriage_return w).bus = w.bus ++
        [0x121, 0x006, (w.uSpaceCount >>> 8) &&& 0x007, w.uSpaceCount &&& 0xFF] ∧
      256 * ((w.uSpaceCount >>> 8) &&& 0x007) + (w.uSpaceCount &&& 0xFF)
        = w.uSpaceCount % 2048) ∧
    (p.tabStop ≠ 0 → ∃ p', print_character HT p = .ok p' ∧
      p'.ww.uSpaceCount = (p.ww.uSpaceCount +
        (p.tabStop - p.column % p.tabStop) % 256 * p.ww.uSpacesPerChar) % 65536) := by
  refine ⟨?_, ?_, ?_⟩
  · obtain ⟨p', h1, _, _, h4⟩ := print_string_count_le cs p hg hu hc hcs
    refine ⟨p', h1, h4, ww_carriage_return_bus p'.ww, ?_⟩
    rw [distance_words_mod]
    exact Nat.mod_eq_of_lt (by omega)
  · intro w
    exact ⟨ww_carriage_return_bus w, distance_words_mod w.uSpaceCount⟩
  · intro ht
    have hp : print_character HT p = print_character_ground HT p := by
      unfold print_character
      rw [if_pos hg]
    rw [hp, print_character_ground_HT p ht]
    refine ⟨_, rfl, ?_⟩
    rw [(tabLoop_frame _ _).1]
    have hlt : (p.tabStop - p.column % p.tabStop) % 256 * p.ww.uSpacesPerChar < 65536 := by
      have h1 : (p.tabStop - p.column % p.tabStop) % 256 < 256 := Nat.mod_lt _ (by decide)
      calc (p.tabStop - p.column % p.tabStop) % 256 * p.ww.uSpacesPerChar
          ≤ 255 * 255 := Nat.mul_le_mul (by omega) (by omega)
        _ < 65536 := by decide
    exact (ww_horizontal_tab_spec _ p.ww hlt).2.1

/-- C40, instance: the bytes `a`, `b`, CR, `c` from the initial state leave the
count at 10, which the carriage return would send as the words 0 and 10. -/
theorem uSpaceCount_bound_witness :
    ∃ p', print_string [0x61, 0x62, CR, 0x63] {} = .ok p' ∧ p'.ww.uSpaceCount ≤ 1319 ∧
      (ww_carriage_return p'.ww).bus = p'.ww.bus ++
        [0x121, 0x006, (p'.ww.uSpaceCount >>> 8) &&& 0x007, p'.ww.uSpaceCount &&& 0xFF] ∧
      256 * ((p'.ww.uSpaceCount >>> 8) &&& 0x007) + (p'.ww.uSpaceCount &&& 0xFF)
        = p'.ww.uSpaceCount :=
  (uSpaceCount_bound {} [0x61, 0x62, CR, 0x63] rfl (by decide) (by decide)
    (by decide)).1

end Wheelwriter
